import Mathlib

/-!
# jamieaitken/oxr: a verification development

A shallow embedding of the Open Exchange Rates client (`client.go`, the `*_opts.go`
files and `models.go`) together with the properties proved about it.

Conventions of the embedding.

* A Go `string` is a sequence of bytes: `GoString := List Nat`, every element standing
  for one byte.  `bytes "abc"` is the byte string of an ASCII literal.
* A Go function that can fail returns `Except`; a Go `error` value is a `GoError`.
* The parts of the Go standard library the client calls (`net/url`, `net/http`,
  `strconv`, `strings`, `time`, `fmt`) are modelled next to the code that uses them and
  are marked as such.  `encoding/json` is a parameter of every endpoint method.
* An endpoint method yields a `Run`: the events it caused (transport call, decode, release
  of the body) and the way it ended (returned values, or a run-time panic).
-/

set_option autoImplicit false

namespace Oxr

/-! ## Strings -/

/-- A Go string: its bytes. -/
abbrev GoString := List Nat

/-- The byte string of an ASCII literal. -/
def bytes (s : String) : GoString := s.data.map Char.toNat

/-- Decimal digits of a natural number, most significant first (`fuel` bounds the loop). -/
def natDigitsAux : Nat → Nat → GoString → GoString
  | 0, _, acc => acc
  | fuel + 1, n, acc =>
    if n / 10 = 0 then (48 + n % 10) :: acc
    else natDigitsAux fuel (n / 10) ((48 + n % 10) :: acc)

/-- Decimal rendering of a natural number. -/
def natDigits (n : Nat) : GoString := natDigitsAux (n + 1) n []

/-- Model of `fmt` printing an `int` under `%v`: optional minus sign, then the decimal digits. -/
def fmtInt (x : Int) : GoString :=
  if x < 0 then 45 :: natDigits x.natAbs else natDigits x.natAbs

/-- Model of `strconv.FormatBool`. -/
def FormatBool (b : Bool) : GoString :=
  if b then bytes "true" else bytes "false"

/-- Model of `strings.Join(elems, ",")`. -/
def joinComma : List GoString → GoString
  | [] => []
  | [a] => a
  | a :: b :: rest => a ++ 44 :: joinComma (b :: rest)

/-- A Go `float64`, identified by the text `fmt` prints for it under `%v` (the shortest
decimal text that reads back as the same number, so the text determines the number; the
conversion itself belongs to the standard library and is not modelled). -/
structure Float64 where
  text : GoString
deriving DecidableEq, Repr

/-- The zero value of `float64`, printed `0`. -/
def Float64.zero : Float64 := ⟨bytes "0"⟩

instance : Inhabited Float64 := ⟨Float64.zero⟩

/-! ## Time values and the two layouts the client uses -/

/-- A Go `time.Time`, identified by the calendar fields `Format` reads from it: the date
and clock in the value's own location and that location's offset east of UTC in seconds. -/
structure Time where
  year : Int
  month : Nat
  day : Nat
  hour : Nat
  minute : Nat
  second : Nat
  offset : Int
deriving DecidableEq, Repr

/-- The zero value `time.Time{}`: January 1, year 1, 00:00:00 UTC. -/
def Time.zero : Time := ⟨1, 1, 1, 0, 0, 0, 0⟩

instance : Inhabited Time := ⟨Time.zero⟩

/-- Calendar fields in their ranges (every `time.Time` satisfies this). -/
def Time.valid (t : Time) : Prop :=
  1 ≤ t.month ∧ t.month ≤ 12 ∧ 1 ≤ t.day ∧ t.day ≤ 31 ∧
    t.hour < 24 ∧ t.minute < 60 ∧ t.second < 60

/-- Model of `time.appendInt`: sign, then the digits padded with zeros to `width`. -/
def appendInt (x : Int) (width : Nat) : GoString :=
  let u := x.natAbs
  (if x < 0 then [45] else []) ++
    (if width = 2 ∧ u < 100 then [48 + u / 10, 48 + u % 10]
     else if width = 4 ∧ u < 10000 then
       [48 + u / 1000, 48 + u / 100 % 10, 48 + u / 10 % 10, 48 + u % 10]
     else List.replicate (width - (natDigits u).length) 48 ++ natDigits u)

/-- Model of `t.Format(timeFormat)` with `timeFormat = "2006-01-02"`. -/
def Time.formatDate (t : Time) : GoString :=
  appendInt t.year 4 ++ 45 :: appendInt t.month 2 ++ 45 :: appendInt t.day 2

/-- Model of the zone part `Z07:00` of a layout: `Z` at offset zero, else sign, hours and
minutes of the offset (Go's integer division truncates toward zero). -/
def formatZone (offset : Int) : GoString :=
  if offset = 0 then [90]
  else
    let zone := Int.tdiv offset 60
    let sign := if zone < 0 then 45 else 43
    let z := zone.natAbs
    sign :: appendInt (z / 60 : Nat) 2 ++ 58 :: appendInt (z % 60 : Nat) 2

/-- Model of `t.Format(time.RFC3339)` with `time.RFC3339 = "2006-01-02T15:04:05Z07:00"`. -/
def Time.formatRFC3339 (t : Time) : GoString :=
  t.formatDate ++ 84 :: appendInt t.hour 2 ++ 58 :: appendInt t.minute 2 ++
    58 :: appendInt t.second 2 ++ formatZone t.offset

/-! ## Errors -/

/-- The reasons for which the modelled part of `url.Parse` fails. -/
inductive ParseFailure where
  /-- The text `net/url: invalid control character in URL`. -/
  | invalidControlCharacter
  /-- The text `missing protocol scheme`. -/
  | missingProtocolScheme
  /-- The text `first path segment in URL cannot contain colon`. -/
  | firstPathSegmentColon
  /-- The text `invalid port ... after host`. -/
  | invalidPort (colonPort : GoString)
  /-- The value `url.EscapeError(s)`. -/
  | EscapeError (s : GoString)
  /-- The value `url.InvalidHostError(s)`. -/
  | InvalidHostError (s : GoString)
  /-- An authority with user information or an IP literal: outside the modelled part (the
  only authority in the URLs this client composes is the host of `basePath`). -/
  | authorityNotModelled
deriving DecidableEq, Repr

/-- A Go `error` value.  `errorString id s` is the pointer returned by one evaluation of
`errors.New(s)`, `id` standing for its identity; `wrapError msg err` is the value built by
`fmt.Errorf` around one `%w` operand, `msg` being its `Error()` text; `urlError` is the
`*url.Error` returned by `url.Parse`. -/
inductive GoError where
  | errorString (id : Nat) (s : GoString)
  | wrapError (msg : GoString) (err : GoError)
  | urlError (Op URL : GoString) (Err : ParseFailure)
deriving DecidableEq, Repr

/-- The package variable `ErrBadResponse = errors.New("failed to receive successful response")`. -/
def ErrBadResponse : GoError :=
  .errorString 0 (bytes "failed to receive successful response")

/-- The error `errors.New("net/http: nil Context")` of `http.NewRequestWithContext`. -/
def errNilContext : GoError := .errorString 1 (bytes "net/http: nil Context")

/-- The text of `err.Error()`, for the two kinds of error whose text the client fixes. -/
def GoError.Error : GoError → Option GoString
  | .errorString _ s => some s
  | .wrapError msg _ => some msg
  | .urlError _ _ _ => none

/-- Model of `errors.Is(err, target)`: `err` or an error it wraps is the target. -/
def errorsIs : GoError → GoError → Bool
  | .wrapError msg err, target =>
    decide (GoError.wrapError msg err = target) || errorsIs err target
  | err, target => decide (err = target)

/-- Model of `fmt.Errorf("status received: %v: %w", code, ErrBadResponse)`. -/
def errStatusReceived (code : Int) : GoError :=
  .wrapError
    (bytes "status received: " ++ fmtInt code ++ bytes ": " ++
      bytes "failed to receive successful response")
    ErrBadResponse

/-! ## Model of `net/url`: escaping -/

/-- The escaping modes of `net/url` that the modelled code reaches. -/
inductive encoding where
  | encodePath
  | encodeHost
  | encodeQueryComponent
  | encodeFragment
deriving DecidableEq, Repr

/-- ASCII letter or digit. -/
def isAlnum (c : Nat) : Bool :=
  (97 ≤ c && c ≤ 122) || (65 ≤ c && c ≤ 90) || (48 ≤ c && c ≤ 57)

/-- Model of `url.shouldEscape`. -/
def shouldEscape (c : Nat) (mode : encoding) : Bool :=
  if isAlnum c then false
  else if mode = .encodeHost ∧
      c ∈ [33, 36, 38, 39, 40, 41, 42, 43, 44, 59, 61, 58, 91, 93, 60, 62, 34] then false
  else if c ∈ [45, 95, 46, 126] then false
  else if c ∈ [36, 38, 43, 44, 47, 58, 59, 61, 63, 64] then
    match mode with
    | .encodePath => c = 63
    | .encodeQueryComponent => true
    | .encodeFragment => false
    | .encodeHost => true
  else if mode = .encodeFragment ∧ c ∈ [33, 40, 41, 42] then false
  else true

/-- The table `upperhex = "0123456789ABCDEF"`, indexed by a value below 16. -/
def upperhex (n : Nat) : Nat := if n < 10 then 48 + n else 55 + n

/-- Model of `url.escape`: a space becomes `+` in a query component, a byte that must be
escaped becomes `%XX`, every other byte is kept. -/
def escape (s : GoString) (mode : encoding) : GoString :=
  s.flatMap fun c =>
    if c = 32 ∧ mode = .encodeQueryComponent then [43]
    else if shouldEscape c mode then [37, upperhex (c / 16), upperhex (c % 16)]
    else [c]

/-- Model of `url.QueryEscape`. -/
def QueryEscape (s : GoString) : GoString := escape s .encodeQueryComponent

/-- Model of `url.ishex`. -/
def ishex (c : Nat) : Bool :=
  (48 ≤ c && c ≤ 57) || (97 ≤ c && c ≤ 102) || (65 ≤ c && c ≤ 70)

/-- Model of `url.unhex`. -/
def unhex (c : Nat) : Nat :=
  if 48 ≤ c ∧ c ≤ 57 then c - 48
  else if 97 ≤ c ∧ c ≤ 102 then c - 97 + 10
  else if 65 ≤ c ∧ c ≤ 70 then c - 65 + 10
  else 0

/-- Model of `url.unescape`, as one pass: the first malformed escape (or, in a host, the
first forbidden byte) in reading order is the error, as in the validating pass of the
original; otherwise `%XX` becomes the byte, `+` a space in a query component. -/
def unescape : GoString → encoding → Except ParseFailure GoString
  | [], _ => .ok []
  | c :: rest, mode =>
    if c = 37 then
      match rest with
      | h1 :: h2 :: tl =>
        if ishex h1 && ishex h2 then
          if mode = .encodeHost ∧ unhex h1 < 8 ∧ [c, h1, h2] ≠ [37, 50, 53] then
            .error (.EscapeError [c, h1, h2])
          else
            match unescape tl mode with
            | .ok t => .ok ((unhex h1 * 16 + unhex h2) :: t)
            | .error e => .error e
        else .error (.EscapeError [c, h1, h2])
      | _ => .error (.EscapeError (c :: rest))
    else if c = 43 then
      match unescape rest mode with
      | .ok t => .ok ((if mode = .encodeQueryComponent then 32 else 43) :: t)
      | .error e => .error e
    else if mode = .encodeHost ∧ c < 128 ∧ shouldEscape c .encodeHost then
      .error (.InvalidHostError [c])
    else
      match unescape rest mode with
      | .ok t => .ok (c :: t)
      | .error e => .error e

/-- Model of `url.QueryUnescape`. -/
def QueryUnescape (s : GoString) : Except ParseFailure GoString :=
  unescape s .encodeQueryComponent

/-- Model of `url.validEncoded`. -/
def validEncoded (s : GoString) (mode : encoding) : Bool :=
  s.all fun c =>
    if c ∈ [33, 36, 38, 39, 40, 41, 42, 43, 44, 59, 61, 58, 64] then true
    else if c ∈ [91, 93] then true
    else if c = 37 then true
    else !shouldEscape c mode

/-! ## Model of `net/url`: parsing and printing a URL -/

/-- Model of `url.URL`.  The `User` field is left out: it is nil in every URL the modelled
part of `Parse` produces. -/
structure URL where
  Scheme : GoString := []
  Opaque : GoString := []
  Host : GoString := []
  Path : GoString := []
  RawPath : GoString := []
  OmitHost : Bool := false
  ForceQuery : Bool := false
  RawQuery : GoString := []
  Fragment : GoString := []
  RawFragment : GoString := []
deriving DecidableEq, Repr

/-- Model of `url.stringContainsCTLByte`. -/
def stringContainsCTLByte (s : GoString) : Bool :=
  s.any fun b => decide (b < 32) || decide (b = 127)

/-- Model of `strings.Cut(s, sep)` for a one-byte separator: the text before the first
separator, the text after it, and whether there was one. -/
def cut (sep : Nat) : GoString → GoString × GoString × Bool
  | [] => ([], [], false)
  | c :: rest =>
    if c = sep then ([], rest, true)
    else
      let r := cut sep rest
      (c :: r.1, r.2.1, r.2.2)

/-- Split at the first separator, which stays at the head of the second part
(`s[:i], s[i:]` for `i = strings.Index(s, sep)`); `none` when there is no separator. -/
def splitAtFirst (sep : Nat) : GoString → Option (GoString × GoString)
  | [] => none
  | c :: rest =>
    if c = sep then some ([], c :: rest)
    else
      match splitAtFirst sep rest with
      | some (a, b) => some (c :: a, b)
      | none => none

/-- The part `s[i:]` for `i = strings.LastIndex(s, sep)`; `none` when there is no separator. -/
def suffixFromLast (sep : Nat) : GoString → Option GoString
  | [] => none
  | c :: rest =>
    match suffixFromLast sep rest with
    | some t => some t
    | none => if c = sep then some (c :: rest) else none

/-- ASCII letter. -/
def isAlpha (c : Nat) : Bool := (97 ≤ c && c ≤ 122) || (65 ≤ c && c ≤ 90)

/-- ASCII digit. -/
def isDigit (c : Nat) : Bool := 48 ≤ c && c ≤ 57

/-- The loop of `url.getScheme`: `seen` is the text before the current byte. -/
def getSchemeLoop (rawURL : GoString) :
    GoString → GoString → Except ParseFailure (GoString × GoString)
  | _, [] => .ok ([], rawURL)
  | seen, c :: rest =>
    if isAlpha c then getSchemeLoop rawURL (seen ++ [c]) rest
    else if isDigit c || c = 43 || c = 45 || c = 46 then
      if seen = [] then .ok ([], rawURL) else getSchemeLoop rawURL (seen ++ [c]) rest
    else if c = 58 then
      if seen = [] then .error .missingProtocolScheme else .ok (seen, rest)
    else .ok ([], rawURL)

/-- Model of `url.getScheme`. -/
def getScheme (rawURL : GoString) : Except ParseFailure (GoString × GoString) :=
  getSchemeLoop rawURL [] rawURL

/-- Model of `strings.ToLower` on the bytes a scheme can hold. -/
def toLower (s : GoString) : GoString :=
  s.map fun c => if 65 ≤ c ∧ c ≤ 90 then c + 32 else c

/-- Model of `url.validOptionalPort`. -/
def validOptionalPort : GoString → Bool
  | [] => true
  | c :: rest => c = 58 && rest.all isDigit

/-- Model of `url.parseHost` for a host that is not an IP literal. -/
def parseHost (host : GoString) : Except ParseFailure GoString :=
  if host.head? = some 91 then .error .authorityNotModelled
  else
    match suffixFromLast 58 host with
    | some colonPort =>
      if validOptionalPort colonPort then unescape host .encodeHost
      else .error (.invalidPort colonPort)
    | none => unescape host .encodeHost

/-- Model of `url.parseAuthority` for an authority without user information. -/
def parseAuthority (authority : GoString) : Except ParseFailure GoString :=
  if 64 ∈ authority then .error .authorityNotModelled else parseHost authority

/-- Model of `(*URL).setPath`. -/
def URL.setPath (u : URL) (p : GoString) : Except ParseFailure URL :=
  match unescape p .encodePath with
  | .error e => .error e
  | .ok path =>
    if p = escape path .encodePath then .ok { u with Path := path, RawPath := [] }
    else .ok { u with Path := path, RawPath := p }

/-- Model of `(*URL).setFragment`. -/
def URL.setFragment (u : URL) (f : GoString) : Except ParseFailure URL :=
  match unescape f .encodeFragment with
  | .error e => .error e
  | .ok frag =>
    if f = escape frag .encodeFragment then .ok { u with Fragment := frag, RawFragment := [] }
    else .ok { u with Fragment := frag, RawFragment := f }

/-- Model of `url.parse(rawURL, false)`, the parser behind `url.Parse`. -/
def parse (rawURL : GoString) : Except ParseFailure URL :=
  if stringContainsCTLByte rawURL then .error .invalidControlCharacter
  else if rawURL = [42] then .ok { Path := [42] }
  else
    match getScheme rawURL with
    | .error e => .error e
    | .ok (scheme, rest0) =>
      let url : URL := { Scheme := toLower scheme }
      let forceQuery : Bool := rest0.getLast? = some 63 && rest0.count 63 = 1
      let rest1 : GoString := if forceQuery then rest0.dropLast else (cut 63 rest0).1
      let url : URL :=
        if forceQuery then { url with ForceQuery := true }
        else { url with RawQuery := (cut 63 rest0).2.1 }
      if rest1.head? ≠ some 47 ∧ url.Scheme ≠ [] then .ok { url with Opaque := rest1 }
      else if rest1.head? ≠ some 47 ∧ 58 ∈ (cut 47 rest1).1 then .error .firstPathSegmentColon
      else
        match rest1 with
        | 47 :: 47 :: authority0 =>
          if url.Scheme ≠ [] ∨ authority0.head? ≠ some 47 then
            let authority : GoString :=
              match splitAtFirst 47 authority0 with
              | some (a, _) => a
              | none => authority0
            let rest2 : GoString :=
              match splitAtFirst 47 authority0 with
              | some (_, r) => r
              | none => []
            match parseAuthority authority with
            | .error e => .error e
            | .ok host => URL.setPath { url with Host := host } rest2
          else URL.setPath url rest1
        | _ =>
          if url.Scheme ≠ [] ∧ rest1.head? = some 47 then
            URL.setPath { url with OmitHost := true } rest1
          else URL.setPath url rest1

/-- Model of `url.Parse`: the fragment is cut off and set after the rest is parsed; a
failure is wrapped in a `*url.Error` with operation `parse`. -/
def Parse (rawURL : GoString) : Except GoError URL :=
  let c := cut 35 rawURL
  match parse c.1 with
  | .error e => .error (.urlError (bytes "parse") c.1 e)
  | .ok url =>
    if c.2.1 = [] then .ok url
    else
      match url.setFragment c.2.1 with
      | .error e => .error (.urlError (bytes "parse") rawURL e)
      | .ok url => .ok url

/-- Whether `unescape s mode` succeeds with the result `t`. -/
def unescapesTo (s : GoString) (mode : encoding) (t : GoString) : Bool :=
  match unescape s mode with
  | .ok p => decide (p = t)
  | .error _ => false

/-- Model of `(*URL).EscapedPath`. -/
def URL.EscapedPath (u : URL) : GoString :=
  if u.RawPath ≠ [] ∧ validEncoded u.RawPath .encodePath ∧
      unescapesTo u.RawPath .encodePath u.Path then u.RawPath
  else if u.Path = [42] then [42]
  else escape u.Path .encodePath

/-- Model of `(*URL).EscapedFragment`. -/
def URL.EscapedFragment (u : URL) : GoString :=
  if u.RawFragment ≠ [] ∧ validEncoded u.RawFragment .encodeFragment ∧
      unescapesTo u.RawFragment .encodeFragment u.Fragment then u.RawFragment
  else escape u.Fragment .encodeFragment

/-- Model of `(*URL).String` (for a URL without user information): scheme, `//` and host,
escaped path, `?` and the raw query, `#` and the escaped fragment. -/
def URL.String (u : URL) : GoString :=
  let scheme : GoString := if u.Scheme ≠ [] then u.Scheme ++ [58] else []
  let ends : GoString :=
    (if u.ForceQuery ∨ u.RawQuery ≠ [] then 63 :: u.RawQuery else []) ++
      (if u.Fragment ≠ [] then 35 :: u.EscapedFragment else [])
  if u.Opaque ≠ [] then scheme ++ u.Opaque ++ ends
  else
    let authority : GoString :=
      if u.Scheme ≠ [] ∨ u.Host ≠ [] then
        if u.OmitHost ∧ u.Host = [] then []
        else (if u.Host ≠ [] ∨ u.Path ≠ [] then [47, 47] else []) ++ escape u.Host .encodeHost
      else []
    let path := u.EscapedPath
    let slash : GoString :=
      if path ≠ [] ∧ path.head? ≠ some 47 ∧ u.Host ≠ [] then [47] else []
    let dot : GoString :=
      if scheme ++ authority ++ slash = [] ∧ 58 ∈ (cut 47 path).1 then [46, 47] else []
    scheme ++ authority ++ slash ++ dot ++ path ++ ends

/-! ## Model of `net/url`: query values -/

/-- Model of `url.Values`, a `map[string][]string`: one entry per key. -/
structure Values where
  entries : List (GoString × List GoString) := []
deriving DecidableEq, Repr

/-- The slice stored under a key (`v[key]`), empty when the key is absent. -/
def Values.lookup (v : Values) (key : GoString) : List GoString :=
  match v.entries.find? (fun e => e.1 = key) with
  | some e => e.2
  | none => []

/-- Insertion of one value under a key in the entry list. -/
def addEntry (key value : GoString) :
    List (GoString × List GoString) → List (GoString × List GoString)
  | [] => [(key, [value])]
  | e :: rest =>
    if e.1 = key then (e.1, e.2 ++ [value]) :: rest else e :: addEntry key value rest

/-- Model of `Values.Add`: `v[key] = append(v[key], value)`. -/
def Values.Add (v : Values) (key value : GoString) : Values :=
  ⟨addEntry key value v.entries⟩

/-- Bytewise lexicographic order of Go strings, the order `sort.Strings` uses. -/
def strLE : GoString → GoString → Bool
  | [], _ => true
  | _ :: _, [] => false
  | a :: as, b :: bs => decide (a < b) || (decide (a = b) && strLE as bs)

/-- The keys of the map in ascending order. -/
def Values.sortedKeys (v : Values) : List GoString :=
  List.insertionSort (fun a b => strLE a b = true) (v.entries.map Prod.fst)

/-- The `key=value` parts `Values.Encode` writes: keys ascending, the values of one key in
their stored order, key and value query-escaped. -/
def Values.segments (v : Values) : List GoString :=
  v.sortedKeys.flatMap fun k =>
    (v.lookup k).map fun x => QueryEscape k ++ 61 :: QueryEscape x

/-- Joins the parts with `&`. -/
def joinAmp : List GoString → GoString
  | [] => []
  | [a] => a
  | a :: b :: rest => a ++ 38 :: joinAmp (b :: rest)

/-- Model of `Values.Encode`. -/
def Values.Encode (v : Values) : GoString := joinAmp v.segments

/-- The pieces of a string between separators (`strings.Split` for a one-byte separator). -/
def splitOn (sep : Nat) : GoString → List GoString
  | [] => [[]]
  | c :: rest =>
    if c = sep then [] :: splitOn sep rest
    else
      match splitOn sep rest with
      | [] => [[c]]
      | h :: t => (c :: h) :: t

/-- One turn of the loop of `url.parseQuery` on the piece up to the next `&`: a piece that
is empty, holds a semicolon or does not unescape leaves the map as it is. -/
def parseQueryPiece (m : Values) (piece : GoString) : Values :=
  if 59 ∈ piece then m
  else if piece = [] then m
  else
    let kv := cut 61 piece
    match QueryUnescape kv.1 with
    | .error _ => m
    | .ok key =>
      match QueryUnescape kv.2.1 with
      | .error _ => m
      | .ok value => m.Add key value

/-- Model of `(*URL).Query`, that is of `url.ParseQuery` with its error dropped: the loop
cuts the query at each `&` in turn, which visits the pieces of `splitOn` in order. -/
def URL.Query (u : URL) : Values :=
  (splitOn 38 u.RawQuery).foldl parseQueryPiece {}

/-! ## Model of `net/http`: requests, responses, the transport -/

/-- A `context.Context` argument: a nil interface or a live context. -/
inductive Context where
  | nil
  | live
deriving DecidableEq, Repr

/-- Model of `http.Request`, with the fields the client determines.  `Body` holds the bytes
the request body yields; `http.NoBody` yields none. -/
structure Request where
  Method : GoString
  URL : URL
  Host : GoString
  Body : GoString
deriving DecidableEq, Repr

/-- The constant `http.MethodGet`. -/
def MethodGet : GoString := bytes "GET"

/-- Model of `http.removeEmptyPort`: a host ending in a colon with no port loses the colon. -/
def removeEmptyPort (host : GoString) : GoString :=
  match suffixFromLast 58 host with
  | some [_] => host.dropLast
  | _ => host

/-- Model of `http.NewRequestWithContext(ctx, http.MethodGet, url, http.NoBody)`: the method
is valid, a nil context is refused, then the URL is parsed. -/
def NewRequestWithContext (ctx : Context) (url : GoString) : Except GoError Request :=
  match ctx with
  | .nil => .error errNilContext
  | .live =>
    match Parse url with
    | .error err => .error err
    | .ok u =>
      let u := { u with Host := removeEmptyPort u.Host }
      .ok { Method := MethodGet, URL := u, Host := u.Host, Body := [] }

/-- The body of a response: the bytes it yields when read. -/
abbrev Body := GoString

/-- Model of `http.Response`: status code and body; `Body = none` is a nil body. -/
structure Response where
  StatusCode : Int
  Body : Option Body
deriving DecidableEq, Repr

/-- The constant `http.StatusOK`. -/
def StatusOK : Int := 200

/-- The interface `Doer`: `Do` sends a request and returns a response pointer (`none` is
nil) and an error (`none` is nil). -/
structure Doer where
  Do : Request → Option Response × Option GoError

/-- Model of `json.NewDecoder(body).Decode(&x)`: from the body and the value `x` points to,
the value left in `x` and the error returned. -/
abbrev Decoder (α : Type) := Body → α → α × Option GoError

/-! ## `models.go`: the response models -/

/-- A Go map with string keys; `none` is the nil map, the zero value. -/
abbrev GoMap (V : Type) := Option (List (GoString × V))

/-- The response of a Latest request. -/
structure LatestRatesResponse where
  Disclaimer : GoString := []
  License : GoString := []
  Timestamp : Int := 0
  Base : GoString := []
  Rates : GoMap Float64 := none
deriving DecidableEq, Repr

/-- The `request` part of a conversion response. -/
structure ConversionRequest where
  Query : GoString := []
  Amount : Float64 := Float64.zero
  From : GoString := []
  To : GoString := []
deriving DecidableEq, Repr

/-- The `meta` part of a conversion response. -/
structure ConversionMeta where
  Timestamp : Int := 0
  Rate : Float64 := Float64.zero
deriving DecidableEq, Repr

/-- The response of a Conversion request. -/
structure ConversionResponse where
  Disclaimer : GoString := []
  License : GoString := []
  Request : ConversionRequest := {}
  Meta : ConversionMeta := {}
  Response : Float64 := Float64.zero
deriving DecidableEq, Repr

/-- The response of a Currencies request. -/
structure CurrenciesResponse where
  Currencies : GoMap GoString := none
deriving DecidableEq, Repr

/-- The response of a Historical request. -/
structure HistoricalRatesResponse where
  Disclaimer : GoString := []
  License : GoString := []
  Timestamp : Int := 0
  Base : GoString := []
  Rates : GoMap Float64 := none
deriving DecidableEq, Repr

/-- One entry of the rates of an OHLC response. -/
structure OHLCRate where
  Open : Float64 := Float64.zero
  High : Float64 := Float64.zero
  Low : Float64 := Float64.zero
  Close : Float64 := Float64.zero
  Average : Float64 := Float64.zero
deriving DecidableEq, Repr

/-- The response of an OHLC request. -/
structure OHLCResponse where
  Disclaimer : GoString := []
  License : GoString := []
  StartTime : Time := Time.zero
  EndTime : Time := Time.zero
  Base : GoString := []
  Rates : GoMap OHLCRate := none
deriving DecidableEq, Repr

/-- The response of a TimeSeries request. -/
structure TimeSeriesResponse where
  Disclaimer : GoString := []
  License : GoString := []
  StartDate : GoString := []
  EndDate : GoString := []
  Base : GoString := []
  Rates : GoMap (GoMap Float64) := none
deriving DecidableEq, Repr

/-- The `features` part of a usage response. -/
structure UsageDataPlanFeatures where
  Base : Bool := false
  Symbols : Bool := false
  Experimental : Bool := false
  TimeSeries : Bool := false
  Convert : Bool := false
deriving DecidableEq, Repr

/-- The `plan` part of a usage response. -/
structure UsageDataPlan where
  Name : GoString := []
  Quota : GoString := []
  UpdateFrequency : GoString := []
  Features : UsageDataPlanFeatures := {}
deriving DecidableEq, Repr

/-- The `usage` part of a usage response. -/
structure DataUsage where
  Requests : Int := 0
  RequestsQuota : Int := 0
  RequestsRemaining : Int := 0
  DaysElapsed : Int := 0
  DaysRemaining : Int := 0
  DailyAverage : Int := 0
deriving DecidableEq, Repr

/-- The `data` part of a usage response. -/
structure UsageData where
  AppID : GoString := []
  Status : GoString := []
  Plan : UsageDataPlan := {}
  Usage : DataUsage := {}
deriving DecidableEq, Repr

/-- The response of a Usage request. -/
structure UsageResponse where
  Status : Int := 0
  Data : UsageData := {}
deriving DecidableEq, Repr

/-! ## The option files: parameter records and option builders

An option is given here by the builder and the argument its closure works with when it is
applied, and `apply` is the body of the closure.  The values a caller can hold beyond
these, the nil function value and a closure that reads the caller's slice only when it is
applied, are given by `OptionValue` further down. -/

/-- The record `latestParams`; `{}` is its zero value. -/
structure latestParams where
  baseCurrency : GoString := []
  destinationCurrencies : GoString := []
  showAlternative : Bool := false
  prettyPrint : Bool := false
deriving DecidableEq, Repr

/-- The options of a latest request (`latest_opts.go`). -/
inductive LatestOption where
  | LatestForBaseCurrency (currency : GoString)
  | LatestForDestinationCurrencies (currencies : List GoString)
  | LatestWithAlternatives (active : Bool)
  | LatestWithPrettyPrint (active : Bool)
deriving DecidableEq, Repr

/-- The closure bodies of `latest_opts.go`. -/
def LatestOption.apply : LatestOption → latestParams → latestParams
  | .LatestForBaseCurrency currency, p => { p with baseCurrency := currency }
  | .LatestForDestinationCurrencies currencies, p =>
    { p with destinationCurrencies := joinComma currencies }
  | .LatestWithAlternatives active, p => { p with showAlternative := active }
  | .LatestWithPrettyPrint active, p => { p with prettyPrint := active }

/-- The record `historicalParams`; `{}` is its zero value. -/
structure historicalParams where
  date : Time := Time.zero
  baseCurrency : GoString := []
  destinationCurrencies : GoString := []
  showAlternative : Bool := false
  prettyPrint : Bool := false
deriving DecidableEq, Repr

/-- The options of a historical request (`historical_opts.go`). -/
inductive HistoricalOption where
  | HistoricalForBaseCurrency (currency : GoString)
  | HistoricalForDestinationCurrencies (currencies : List GoString)
  | HistoricalWithAlternatives (active : Bool)
  | HistoricalForDate (date : Time)
  | HistoricalWithPrettyPrint (active : Bool)
deriving DecidableEq, Repr

/-- The closure bodies of `historical_opts.go`. -/
def HistoricalOption.apply : HistoricalOption → historicalParams → historicalParams
  | .HistoricalForBaseCurrency currency, p => { p with baseCurrency := currency }
  | .HistoricalForDestinationCurrencies currencies, p =>
    { p with destinationCurrencies := joinComma currencies }
  | .HistoricalWithAlternatives active, p => { p with showAlternative := active }
  | .HistoricalForDate date, p => { p with date := date }
  | .HistoricalWithPrettyPrint active, p => { p with prettyPrint := active }

/-- The record `currenciesParams`; `{}` is its zero value. -/
structure currenciesParams where
  showAlternative : Bool := false
  showInactive : Bool := false
  prettyPrint : Bool := false
deriving DecidableEq, Repr

/-- The options of a currencies request (`currencies_opts.go`). -/
inductive CurrenciesOption where
  | CurrenciesWithAlternatives (active : Bool)
  | CurrenciesWithInactive (active : Bool)
  | CurrenciesWithPrettyPrint (active : Bool)
deriving DecidableEq, Repr

/-- The closure bodies of `currencies_opts.go`. -/
def CurrenciesOption.apply : CurrenciesOption → currenciesParams → currenciesParams
  | .CurrenciesWithAlternatives active, p => { p with showAlternative := active }
  | .CurrenciesWithInactive active, p => { p with showInactive := active }
  | .CurrenciesWithPrettyPrint active, p => { p with prettyPrint := active }

/-- The record `timeSeriesParams`; `{}` is its zero value. -/
structure timeSeriesParams where
  startDate : Time := Time.zero
  endDate : Time := Time.zero
  baseCurrency : GoString := []
  destinationCurrencies : GoString := []
  showAlternative : Bool := false
  prettyPrint : Bool := false
deriving DecidableEq, Repr

/-- The options of a time-series request (`time_series_opts.go`). -/
inductive TimeSeriesOption where
  | TimeSeriesForBaseCurrency (currency : GoString)
  | TimeSeriesForDestinationCurrencies (currencies : List GoString)
  | TimeSeriesWithAlternatives (active : Bool)
  | TimeSeriesForStartDate (start : Time)
  | TimeSeriesForEndDate (end_ : Time)
  | TimeSeriesWithPrettyPrint (active : Bool)
deriving DecidableEq, Repr

/-- The closure bodies of `time_series_opts.go`. -/
def TimeSeriesOption.apply : TimeSeriesOption → timeSeriesParams → timeSeriesParams
  | .TimeSeriesForBaseCurrency currency, p => { p with baseCurrency := currency }
  | .TimeSeriesForDestinationCurrencies currencies, p =>
    { p with destinationCurrencies := joinComma currencies }
  | .TimeSeriesWithAlternatives active, p => { p with showAlternative := active }
  | .TimeSeriesForStartDate start, p => { p with startDate := start }
  | .TimeSeriesForEndDate end_, p => { p with endDate := end_ }
  | .TimeSeriesWithPrettyPrint active, p => { p with prettyPrint := active }

/-- The record `convertParams`; `{}` is its zero value. -/
structure convertParams where
  value : Float64 := Float64.zero
  baseCurrency : GoString := []
  destinationCurrency : GoString := []
  prettyPrint : Bool := false
deriving DecidableEq, Repr

/-- The options of a conversion request (`convert_opts.go`). -/
inductive ConvertOption where
  | ConvertForBaseCurrency (currency : GoString)
  | ConvertForDestinationCurrency (currency : GoString)
  | ConvertWithValue (value : Float64)
  | ConvertWithPrettyPrint (active : Bool)
deriving DecidableEq, Repr

/-- The closure bodies of `convert_opts.go`. -/
def ConvertOption.apply : ConvertOption → convertParams → convertParams
  | .ConvertForBaseCurrency currency, p => { p with baseCurrency := currency }
  | .ConvertForDestinationCurrency currency, p => { p with destinationCurrency := currency }
  | .ConvertWithValue value, p => { p with value := value }
  | .ConvertWithPrettyPrint active, p => { p with prettyPrint := active }

/-- The type `period`, a string type. -/
abbrev period := GoString

/-- The period `1m`. -/
def OneMinute : period := bytes "1m"
/-- The period `5m`. -/
def FiveMinute : period := bytes "5m"
/-- The period `15m`. -/
def FifteenMinute : period := bytes "15m"
/-- The period `30m`. -/
def ThirtyMinute : period := bytes "30m"
/-- The period `1h`. -/
def OneHour : period := bytes "1h"
/-- The period `12h`. -/
def TwelveHour : period := bytes "12h"
/-- The period `1d`. -/
def OneDay : period := bytes "1d"
/-- The period `1w`. -/
def OneWeek : period := bytes "1w"
/-- The period `1mo`. -/
def OneMonth : period := bytes "1mo"

/-- The method `period.String`. -/
def period.String (p : period) : GoString := p

/-- The record `ohlcParams`; `{}` is its zero value. -/
structure ohlcParams where
  startTime : Time := Time.zero
  period : period := []
  baseCurrency : GoString := []
  destinationCurrencies : GoString := []
  prettyPrint : Bool := false
deriving DecidableEq, Repr

/-- The options of an OHLC request (`ohlc_opts.go`). -/
inductive OHLCOption where
  | OHLCWithPrettyPrint (active : Bool)
  | OHLCForStartTime (startTime : Time)
  | OHLCForPeriod (period : period)
  | OHLCForBaseCurrency (currency : GoString)
  | OHLCForDestinationCurrencies (destinationCurrencies : List GoString)
deriving DecidableEq, Repr

/-- The closure bodies of `ohlc_opts.go`. -/
def OHLCOption.apply : OHLCOption → ohlcParams → ohlcParams
  | .OHLCWithPrettyPrint active, p => { p with prettyPrint := active }
  | .OHLCForStartTime startTime, p => { p with startTime := startTime }
  | .OHLCForPeriod period, p => { p with period := period }
  | .OHLCForBaseCurrency currency, p => { p with baseCurrency := currency }
  | .OHLCForDestinationCurrencies destinationCurrencies, p =>
    { p with destinationCurrencies := joinComma destinationCurrencies }

/-- The record `usageParams`; `{}` is its zero value. -/
structure usageParams where
  prettyPrint : Bool := false
deriving DecidableEq, Repr

/-- The options of a usage request (`usage_opts.go`). -/
inductive UsageOption where
  | UsageWithPrettyPrint (active : Bool)
deriving DecidableEq, Repr

/-- The closure body of `usage_opts.go`. -/
def UsageOption.apply : UsageOption → usageParams → usageParams
  | .UsageWithPrettyPrint active, p => { p with prettyPrint := active }

/-! ## `client.go` and `client_opts.go`: the client -/

/-- The constant `basePath`. -/
def basePath : GoString := bytes "https://openexchangerates.org/api/"

/-- The struct `Client`; `doer = none` is a nil interface. -/
structure Client where
  appID : GoString := []
  doer : Option Doer := none
  baseURL : GoString := []

/-- The client options (`client_opts.go`). -/
inductive ClientOption where
  | WithAppID (appID : GoString)
  | WithDoer (doer : Doer)

/-- The closure bodies of `client_opts.go`. -/
def ClientOption.apply : ClientOption → Client → Client
  | .WithAppID appID, client => { client with appID := appID }
  | .WithDoer doer, client => { client with doer := some doer }

/-- The function `New`. -/
def New (opts : List ClientOption) : Client :=
  opts.foldl (fun c opt => opt.apply c) { baseURL := basePath }

/-- What a call did, in order: it handed a request to the transport, it ran the JSON
decoder on the response body, it closed the response body. -/
inductive Event where
  | Do (req : Request)
  | Decode
  | Close
deriving DecidableEq, Repr

/-- How a call ended: with a run-time panic, or by returning a value and an error
(`none` is the nil error). -/
inductive Outcome (α : Type) where
  | panicked
  | returned (val : α) (err : Option GoError)
deriving DecidableEq, Repr

/-- A call of an endpoint method: its events and its outcome. -/
structure Run (α : Type) where
  events : List Event
  outcome : Outcome α
deriving DecidableEq, Repr

/-- The second half of every endpoint method, the same text in all seven
(`client.go` 75-91 in `Latest`): call the transport, defer the release of the body, return
the transport error, refuse a status other than 200, decode.  The deferred
`res.Body.Close()` evaluates `res.Body` and checks the interface when the `defer`
statement runs, before the error is looked at: a nil response or a nil body panics there.
`decode` runs the JSON decoder on the pointer the method passes (`&resData`, or
`&resData.Currencies` in `Currencies`) and gives the resulting `resData`. -/
def exchange {α : Type} (doer : Option Doer) (req : Request) (zero : α)
    (decode : Body → α × Option GoError) : Run α :=
  match doer with
  | none => ⟨[], .panicked⟩
  | some d =>
    match d.Do req with
    | (none, _) => ⟨[.Do req], .panicked⟩
    | (some res, err) =>
      match res.Body with
      | none => ⟨[.Do req], .panicked⟩
      | some body =>
        match err with
        | some e => ⟨[.Do req, .Close], .returned zero (some e)⟩
        | none =>
          if res.StatusCode ≠ StatusOK then
            ⟨[.Do req, .Close], .returned zero (some (errStatusReceived res.StatusCode))⟩
          else
            match decode body with
            | (_, some e) => ⟨[.Do req, .Decode, .Close], .returned zero (some e)⟩
            | (resData, none) => ⟨[.Do req, .Decode, .Close], .returned resData none⟩

/-- The first half of an endpoint method ended: with the request to send, or with the error
of `http.NewRequestWithContext`, which the method returns with a zero result. -/
def finish {α : Type} (built : Except GoError Request) (doer : Option Doer) (zero : α)
    (decode : Body → α × Option GoError) : Run α :=
  match built with
  | .error err => ⟨[], .returned zero (some err)⟩
  | .ok req => exchange doer req zero decode

/-- The parameters of `Latest` after its options (`client.go` 50-54). -/
def latestParamsOf (opts : List LatestOption) : latestParams :=
  opts.foldl (fun r opt => opt.apply r) {}

/-- The request `Latest` builds (`client.go` 50-73). -/
def Client.latestRequest (c : Client) (ctx : Context) (opts : List LatestOption) :
    Except GoError Request :=
  let r := latestParamsOf opts
  match NewRequestWithContext ctx (c.baseURL ++ bytes "latest.json") with
  | .error err => .error err
  | .ok req =>
    let v := req.URL.Query
    let v := v.Add (bytes "app_id") c.appID
    let v := v.Add (bytes "prettyprint") (FormatBool r.prettyPrint)
    let v := if r.baseCurrency ≠ [] then v.Add (bytes "base") r.baseCurrency else v
    let v :=
      if r.destinationCurrencies ≠ [] then v.Add (bytes "symbols") r.destinationCurrencies
      else v
    let v := v.Add (bytes "show_alternative") (FormatBool r.showAlternative)
    .ok { req with URL := { req.URL with RawQuery := v.Encode } }

/-- The method `Client.Latest`. -/
def Client.Latest (json : Decoder LatestRatesResponse) (c : Client) (ctx : Context)
    (opts : List LatestOption) : Run LatestRatesResponse :=
  finish (c.latestRequest ctx opts) c.doer {} (fun body => json body {})

/-- The parameters of `Historical` after its options (`client.go` 98-102). -/
def historicalParamsOf (opts : List HistoricalOption) : historicalParams :=
  opts.foldl (fun r opt => opt.apply r) {}

/-- The request `Historical` builds (`client.go` 98-121). -/
def Client.historicalRequest (c : Client) (ctx : Context) (opts : List HistoricalOption) :
    Except GoError Request :=
  let r := historicalParamsOf opts
  match NewRequestWithContext ctx
      (c.baseURL ++ bytes "historical/" ++ r.date.formatDate ++ bytes ".json") with
  | .error err => .error err
  | .ok req =>
    let v := req.URL.Query
    let v := v.Add (bytes "app_id") c.appID
    let v := v.Add (bytes "prettyprint") (FormatBool r.prettyPrint)
    let v := v.Add (bytes "show_alternative") (FormatBool r.showAlternative)
    let v := if r.baseCurrency ≠ [] then v.Add (bytes "base") r.baseCurrency else v
    let v :=
      if r.destinationCurrencies ≠ [] then v.Add (bytes "symbols") r.destinationCurrencies
      else v
    .ok { req with URL := { req.URL with RawQuery := v.Encode } }

/-- The method `Client.Historical`. -/
def Client.Historical (json : Decoder HistoricalRatesResponse) (c : Client) (ctx : Context)
    (opts : List HistoricalOption) : Run HistoricalRatesResponse :=
  finish (c.historicalRequest ctx opts) c.doer {} (fun body => json body {})

/-- The parameters of `Currencies` after its options (`client.go` 147-151). -/
def currenciesParamsOf (opts : List CurrenciesOption) : currenciesParams :=
  opts.foldl (fun r opt => opt.apply r) {}

/-- The request `Currencies` builds (`client.go` 147-165). -/
def Client.currenciesRequest (c : Client) (ctx : Context) (opts : List CurrenciesOption) :
    Except GoError Request :=
  let r := currenciesParamsOf opts
  match NewRequestWithContext ctx (c.baseURL ++ bytes "currencies.json") with
  | .error err => .error err
  | .ok req =>
    let v := req.URL.Query
    let v := v.Add (bytes "app_id") c.appID
    let v := v.Add (bytes "show_inactive") (FormatBool r.showInactive)
    let v := v.Add (bytes "prettyprint") (FormatBool r.prettyPrint)
    let v := v.Add (bytes "show_alternative") (FormatBool r.showAlternative)
    .ok { req with URL := { req.URL with RawQuery := v.Encode } }

/-- The method `Client.Currencies`: the decoder is given `&resData.Currencies`. -/
def Client.Currencies (json : Decoder (GoMap GoString)) (c : Client) (ctx : Context)
    (opts : List CurrenciesOption) : Run CurrenciesResponse :=
  finish (c.currenciesRequest ctx opts) c.doer {}
    (fun body => ({ Currencies := (json body none).1 }, (json body none).2))

/-- The parameters of `TimeSeries` after its options (`client.go` 191-195). -/
def timeSeriesParamsOf (opts : List TimeSeriesOption) : timeSeriesParams :=
  opts.foldl (fun r opt => opt.apply r) {}

/-- The request `TimeSeries` builds (`client.go` 191-216). -/
def Client.timeSeriesRequest (c : Client) (ctx : Context) (opts : List TimeSeriesOption) :
    Except GoError Request :=
  let r := timeSeriesParamsOf opts
  match NewRequestWithContext ctx (c.baseURL ++ bytes "time-series.json") with
  | .error err => .error err
  | .ok req =>
    let v := req.URL.Query
    let v := v.Add (bytes "app_id") c.appID
    let v := v.Add (bytes "prettyprint") (FormatBool r.prettyPrint)
    let v := v.Add (bytes "show_alternative") (FormatBool r.showAlternative)
    let v := v.Add (bytes "start") r.startDate.formatDate
    let v := v.Add (bytes "end") r.endDate.formatDate
    let v :=
      if r.destinationCurrencies ≠ [] then v.Add (bytes "symbols") r.destinationCurrencies
      else v
    let v := if r.baseCurrency ≠ [] then v.Add (bytes "base") r.baseCurrency else v
    .ok { req with URL := { req.URL with RawQuery := v.Encode } }

/-- The method `Client.TimeSeries`. -/
def Client.TimeSeries (json : Decoder TimeSeriesResponse) (c : Client) (ctx : Context)
    (opts : List TimeSeriesOption) : Run TimeSeriesResponse :=
  finish (c.timeSeriesRequest ctx opts) c.doer {} (fun body => json body {})

/-- The parameters of `Convert` after its options (`client.go` 241-245). -/
def convertParamsOf (opts : List ConvertOption) : convertParams :=
  opts.foldl (fun r opt => opt.apply r) {}

/-- The request `Convert` builds (`client.go` 241-257); `%v` prints the amount. -/
def Client.convertRequest (c : Client) (ctx : Context) (opts : List ConvertOption) :
    Except GoError Request :=
  let r := convertParamsOf opts
  match NewRequestWithContext ctx
      (c.baseURL ++ bytes "convert/" ++ r.value.text ++ bytes "/" ++ r.baseCurrency ++
        bytes "/" ++ r.destinationCurrency) with
  | .error err => .error err
  | .ok req =>
    let v := req.URL.Query
    let v := v.Add (bytes "app_id") c.appID
    let v := v.Add (bytes "prettyprint") (FormatBool r.prettyPrint)
    .ok { req with URL := { req.URL with RawQuery := v.Encode } }

/-- The method `Client.Convert`. -/
def Client.Convert (json : Decoder ConversionResponse) (c : Client) (ctx : Context)
    (opts : List ConvertOption) : Run ConversionResponse :=
  finish (c.convertRequest ctx opts) c.doer {} (fun body => json body {})

/-- The parameters of `OpenHighLowClose` after its options (`client.go` 283-287). -/
def ohlcParamsOf (opts : List OHLCOption) : ohlcParams :=
  opts.foldl (fun r opt => opt.apply r) {}

/-- The request `OpenHighLowClose` builds (`client.go` 283-307). -/
def Client.ohlcRequest (c : Client) (ctx : Context) (opts : List OHLCOption) :
    Except GoError Request :=
  let r := ohlcParamsOf opts
  match NewRequestWithContext ctx (c.baseURL ++ bytes "ohlc.json") with
  | .error err => .error err
  | .ok req =>
    let v := req.URL.Query
    let v := v.Add (bytes "app_id") c.appID
    let v := v.Add (bytes "prettyprint") (FormatBool r.prettyPrint)
    let v := v.Add (bytes "start_date") r.startTime.formatRFC3339
    let v := v.Add (bytes "period") r.period.String
    let v :=
      if r.destinationCurrencies ≠ [] then v.Add (bytes "symbols") r.destinationCurrencies
      else v
    let v := if r.baseCurrency ≠ [] then v.Add (bytes "base") r.baseCurrency else v
    .ok { req with URL := { req.URL with RawQuery := v.Encode } }

/-- The method `Client.OpenHighLowClose`. -/
def Client.OpenHighLowClose (json : Decoder OHLCResponse) (c : Client) (ctx : Context)
    (opts : List OHLCOption) : Run OHLCResponse :=
  finish (c.ohlcRequest ctx opts) c.doer {} (fun body => json body {})

/-- The parameters of `Usage` after its options (`client.go` 332-336). -/
def usageParamsOf (opts : List UsageOption) : usageParams :=
  opts.foldl (fun r opt => opt.apply r) {}

/-- The request `Usage` builds (`client.go` 332-348). -/
def Client.usageRequest (c : Client) (ctx : Context) (opts : List UsageOption) :
    Except GoError Request :=
  let r := usageParamsOf opts
  match NewRequestWithContext ctx (c.baseURL ++ bytes "usage.json") with
  | .error err => .error err
  | .ok req =>
    let v := req.URL.Query
    let v := v.Add (bytes "app_id") c.appID
    let v := v.Add (bytes "prettyprint") (FormatBool r.prettyPrint)
    .ok { req with URL := { req.URL with RawQuery := v.Encode } }

/-- The method `Client.Usage`. -/
def Client.Usage (json : Decoder UsageResponse) (c : Client) (ctx : Context)
    (opts : List UsageOption) : Run UsageResponse :=
  finish (c.usageRequest ctx opts) c.doer {} (fun body => json body {})

/-! ## Observations used to state the properties -/

/-- The request a call handed to the transport, if it reached the transport. -/
def Run.sent {α : Type} (run : Run α) : Option Request :=
  run.events.findSome? fun e =>
    match e with
    | .Do req => some req
    | _ => none

/-- The text of the URL a call handed to the transport (`req.URL.String()`, which is what
the transport of the tests records), if it reached the transport. -/
def Run.sentURL {α : Type} (run : Run α) : Option GoString :=
  run.sent.map fun req => req.URL.String

/-- The text `key=value` of one query parameter, both parts query-escaped. -/
def piece (k x : GoString) : GoString := QueryEscape k ++ 61 :: QueryEscape x

/-- The query made of the given parameters in the given order, joined by `&`. -/
def queryOf (ps : List (GoString × GoString)) : GoString :=
  joinAmp (ps.map fun kv => piece kv.1 kv.2)

/-- The request carries the query parameter `k` with value `x`: its raw query, cut at the
`&` signs, has the part `k=x`, key and value query-escaped. -/
def Request.carries (req : Request) (k x : GoString) : Prop :=
  piece k x ∈ splitOn 38 req.URL.RawQuery

/-- The request has a query parameter with key `k`: its raw query, cut at the `&` signs,
has a part whose text before `=` is the query-escaped key. -/
def Request.hasKey (req : Request) (k : GoString) : Prop :=
  ∃ p ∈ splitOn 38 req.URL.RawQuery, (cut 61 p).1 = QueryEscape k

instance (req : Request) (k x : GoString) : Decidable (req.carries k x) :=
  inferInstanceAs (Decidable (piece k x ∈ splitOn 38 req.URL.RawQuery))

instance (req : Request) (k : GoString) : Decidable (req.hasKey k) :=
  inferInstanceAs (Decidable (∃ p ∈ splitOn 38 req.URL.RawQuery, (cut 61 p).1 = QueryEscape k))

/-- A text parameter sent only when it has a value: with an empty value the request has no
such key, otherwise it carries the value. -/
def Request.optional (req : Request) (k x : GoString) : Prop :=
  if x = [] then ¬ req.hasKey k else req.carries k x

/-- A boolean flag sent as its text `true` or `false`. -/
def Request.flag (req : Request) (k : GoString) (b : Bool) : Prop :=
  req.carries k (if b then bytes "true" else bytes "false")

/-- A byte that `net/url` leaves as it is in a path. -/
def pathSafe (c : Nat) : Prop := shouldEscape c .encodePath = false

instance : DecidablePred pathSafe :=
  fun c => inferInstanceAs (Decidable (shouldEscape c .encodePath = false))

/-- The scheme of `basePath`. -/
def baseScheme : GoString := bytes "https"

/-- The host of `basePath`. -/
def baseHost : GoString := bytes "openexchangerates.org"

/-- The URL that parsing `basePath` followed by an unescaped path `p` yields. -/
def baseURLWith (p : GoString) : URL :=
  { Scheme := baseScheme, Host := baseHost, Path := bytes "/api/" ++ p }

/-- The request for `basePath` followed by the path `p`, with the raw query `q`. -/
def baseRequest (p q : GoString) : Request :=
  { Method := MethodGet, URL := { baseURLWith p with RawQuery := q }, Host := baseHost,
    Body := [] }

/-- The value the last option of a list gives to a field, when `sets o` is the value the
option `o` gives to that field, if it sets the field at all. -/
def lastSet {O β : Type} (sets : O → Option β) (opts : List O) : Option β :=
  opts.reverse.findSome? sets

/-- A transport that answers every request with a nil response and the given error, the
way `http.Client.Do` reports a failure. -/
def failingDoer (e : GoError) : Doer := ⟨fun _ => (none, some e)⟩

/-- A transport that answers every request with the given status code and body. -/
def answeringDoer (code : Int) (body : Body) : Doer :=
  ⟨fun _ => (some ⟨code, some body⟩, none)⟩

/-- The parameters of a Latest request in the order of their keys. -/
def latestPairs (c : Client) (r : latestParams) : List (GoString × GoString) :=
  [(bytes "app_id", c.appID)] ++
    (if r.baseCurrency ≠ [] then [(bytes "base", r.baseCurrency)] else []) ++
    [(bytes "prettyprint", FormatBool r.prettyPrint),
      (bytes "show_alternative", FormatBool r.showAlternative)] ++
    (if r.destinationCurrencies ≠ [] then [(bytes "symbols", r.destinationCurrencies)] else [])

/-- The parameters of a Historical request in the order of their keys. -/
def historicalPairs (c : Client) (r : historicalParams) : List (GoString × GoString) :=
  [(bytes "app_id", c.appID)] ++
    (if r.baseCurrency ≠ [] then [(bytes "base", r.baseCurrency)] else []) ++
    [(bytes "prettyprint", FormatBool r.prettyPrint),
      (bytes "show_alternative", FormatBool r.showAlternative)] ++
    (if r.destinationCurrencies ≠ [] then [(bytes "symbols", r.destinationCurrencies)] else [])

/-- The parameters of a Currencies request in the order of their keys. -/
def currenciesPairs (c : Client) (r : currenciesParams) : List (GoString × GoString) :=
  [(bytes "app_id", c.appID), (bytes "prettyprint", FormatBool r.prettyPrint),
    (bytes "show_alternative", FormatBool r.showAlternative),
    (bytes "show_inactive", FormatBool r.showInactive)]

/-- The parameters of a TimeSeries request in the order of their keys. -/
def timeSeriesPairs (c : Client) (r : timeSeriesParams) : List (GoString × GoString) :=
  [(bytes "app_id", c.appID)] ++
    (if r.baseCurrency ≠ [] then [(bytes "base", r.baseCurrency)] else []) ++
    [(bytes "end", r.endDate.formatDate), (bytes "prettyprint", FormatBool r.prettyPrint),
      (bytes "show_alternative", FormatBool r.showAlternative),
      (bytes "start", r.startDate.formatDate)] ++
    (if r.destinationCurrencies ≠ [] then [(bytes "symbols", r.destinationCurrencies)] else [])

/-- The parameters of a Convert request in the order of their keys. -/
def convertPairs (c : Client) (r : convertParams) : List (GoString × GoString) :=
  [(bytes "app_id", c.appID), (bytes "prettyprint", FormatBool r.prettyPrint)]

/-- The parameters of an OpenHighLowClose request in the order of their keys. -/
def ohlcPairs (c : Client) (r : ohlcParams) : List (GoString × GoString) :=
  [(bytes "app_id", c.appID)] ++
    (if r.baseCurrency ≠ [] then [(bytes "base", r.baseCurrency)] else []) ++
    [(bytes "period", r.period.String), (bytes "prettyprint", FormatBool r.prettyPrint),
      (bytes "start_date", r.startTime.formatRFC3339)] ++
    (if r.destinationCurrencies ≠ [] then [(bytes "symbols", r.destinationCurrencies)] else [])

/-- The parameters of a Usage request in the order of their keys. -/
def usagePairs (c : Client) (r : usageParams) : List (GoString × GoString) :=
  [(bytes "app_id", c.appID), (bytes "prettyprint", FormatBool r.prettyPrint)]

/-- A decimal digit or a minus sign. -/
def isDateByte (c : Nat) : Prop := c = 45 ∨ (48 ≤ c ∧ c ≤ 57)

/-- The path of a Historical request after `basePath`. -/
def historicalPath (r : historicalParams) : GoString :=
  bytes "historical/" ++ r.date.formatDate ++ bytes ".json"

/-- The path of a Convert request after `basePath`. -/
def convertPath (r : convertParams) : GoString :=
  bytes "convert/" ++ r.value.text ++ bytes "/" ++ r.baseCurrency ++ bytes "/" ++
    r.destinationCurrency

/-! ## Which option sets which field -/

/-- The value an option gives to the field `baseCurrency`, if it sets that field. -/
def LatestOption.setsBaseCurrency : LatestOption → Option GoString
  | .LatestForBaseCurrency currency => some (currency)
  | _ => none

/-- The value an option gives to the field `destinationCurrencies`, if it sets that field. -/
def LatestOption.setsDestinationCurrencies : LatestOption → Option GoString
  | .LatestForDestinationCurrencies currencies => some (joinComma currencies)
  | _ => none

/-- The value an option gives to the field `showAlternative`, if it sets that field. -/
def LatestOption.setsShowAlternative : LatestOption → Option Bool
  | .LatestWithAlternatives active => some (active)
  | _ => none

/-- The value an option gives to the field `prettyPrint`, if it sets that field. -/
def LatestOption.setsPrettyPrint : LatestOption → Option Bool
  | .LatestWithPrettyPrint active => some (active)
  | _ => none

/-- The value an option gives to the field `date`, if it sets that field. -/
def HistoricalOption.setsDate : HistoricalOption → Option Time
  | .HistoricalForDate date => some (date)
  | _ => none

/-- The value an option gives to the field `baseCurrency`, if it sets that field. -/
def HistoricalOption.setsBaseCurrency : HistoricalOption → Option GoString
  | .HistoricalForBaseCurrency currency => some (currency)
  | _ => none

/-- The value an option gives to the field `destinationCurrencies`, if it sets that field. -/
def HistoricalOption.setsDestinationCurrencies : HistoricalOption → Option GoString
  | .HistoricalForDestinationCurrencies currencies => some (joinComma currencies)
  | _ => none

/-- The value an option gives to the field `showAlternative`, if it sets that field. -/
def HistoricalOption.setsShowAlternative : HistoricalOption → Option Bool
  | .HistoricalWithAlternatives active => some (active)
  | _ => none

/-- The value an option gives to the field `prettyPrint`, if it sets that field. -/
def HistoricalOption.setsPrettyPrint : HistoricalOption → Option Bool
  | .HistoricalWithPrettyPrint active => some (active)
  | _ => none

/-- The value an option gives to the field `showAlternative`, if it sets that field. -/
def CurrenciesOption.setsShowAlternative : CurrenciesOption → Option Bool
  | .CurrenciesWithAlternatives active => some (active)
  | _ => none

/-- The value an option gives to the field `showInactive`, if it sets that field. -/
def CurrenciesOption.setsShowInactive : CurrenciesOption → Option Bool
  | .CurrenciesWithInactive active => some (active)
  | _ => none

/-- The value an option gives to the field `prettyPrint`, if it sets that field. -/
def CurrenciesOption.setsPrettyPrint : CurrenciesOption → Option Bool
  | .CurrenciesWithPrettyPrint active => some (active)
  | _ => none

/-- The value an option gives to the field `startDate`, if it sets that field. -/
def TimeSeriesOption.setsStartDate : TimeSeriesOption → Option Time
  | .TimeSeriesForStartDate start => some (start)
  | _ => none

/-- The value an option gives to the field `endDate`, if it sets that field. -/
def TimeSeriesOption.setsEndDate : TimeSeriesOption → Option Time
  | .TimeSeriesForEndDate end_ => some (end_)
  | _ => none

/-- The value an option gives to the field `baseCurrency`, if it sets that field. -/
def TimeSeriesOption.setsBaseCurrency : TimeSeriesOption → Option GoString
  | .TimeSeriesForBaseCurrency currency => some (currency)
  | _ => none

/-- The value an option gives to the field `destinationCurrencies`, if it sets that field. -/
def TimeSeriesOption.setsDestinationCurrencies : TimeSeriesOption → Option GoString
  | .TimeSeriesForDestinationCurrencies currencies => some (joinComma currencies)
  | _ => none

/-- The value an option gives to the field `showAlternative`, if it sets that field. -/
def TimeSeriesOption.setsShowAlternative : TimeSeriesOption → Option Bool
  | .TimeSeriesWithAlternatives active => some (active)
  | _ => none

/-- The value an option gives to the field `prettyPrint`, if it sets that field. -/
def TimeSeriesOption.setsPrettyPrint : TimeSeriesOption → Option Bool
  | .TimeSeriesWithPrettyPrint active => some (active)
  | _ => none

/-- The value an option gives to the field `value`, if it sets that field. -/
def ConvertOption.setsValue : ConvertOption → Option Float64
  | .ConvertWithValue value => some (value)
  | _ => none

/-- The value an option gives to the field `baseCurrency`, if it sets that field. -/
def ConvertOption.setsBaseCurrency : ConvertOption → Option GoString
  | .ConvertForBaseCurrency currency => some (currency)
  | _ => none

/-- The value an option gives to the field `destinationCurrency`, if it sets that field. -/
def ConvertOption.setsDestinationCurrency : ConvertOption → Option GoString
  | .ConvertForDestinationCurrency currency => some (currency)
  | _ => none

/-- The value an option gives to the field `prettyPrint`, if it sets that field. -/
def ConvertOption.setsPrettyPrint : ConvertOption → Option Bool
  | .ConvertWithPrettyPrint active => some (active)
  | _ => none

/-- The value an option gives to the field `startTime`, if it sets that field. -/
def OHLCOption.setsStartTime : OHLCOption → Option Time
  | .OHLCForStartTime startTime => some (startTime)
  | _ => none

/-- The value an option gives to the field `period`, if it sets that field. -/
def OHLCOption.setsPeriod : OHLCOption → Option period
  | .OHLCForPeriod period => some (period)
  | _ => none

/-- The value an option gives to the field `baseCurrency`, if it sets that field. -/
def OHLCOption.setsBaseCurrency : OHLCOption → Option GoString
  | .OHLCForBaseCurrency currency => some (currency)
  | _ => none

/-- The value an option gives to the field `destinationCurrencies`, if it sets that field. -/
def OHLCOption.setsDestinationCurrencies : OHLCOption → Option GoString
  | .OHLCForDestinationCurrencies destinationCurrencies => some (joinComma destinationCurrencies)
  | _ => none

/-- The value an option gives to the field `prettyPrint`, if it sets that field. -/
def OHLCOption.setsPrettyPrint : OHLCOption → Option Bool
  | .OHLCWithPrettyPrint active => some (active)
  | _ => none

/-- The value an option gives to the field `prettyPrint`, if it sets that field. -/
def UsageOption.setsPrettyPrint : UsageOption → Option Bool
  | .UsageWithPrettyPrint active => some (active)

/-! ## Sample values and further observations -/

/-- The client of the tests: `New(WithAppID("test"), WithDoer(d))` with a transport that
answers 200 and an empty body. -/
def testClient : Client :=
  New [.WithAppID (bytes "test"), .WithDoer (answeringDoer 200 [])]

instance (t : Time) : Decidable t.valid := by
  unfold Time.valid
  infer_instance

/-- The nine exported periods. -/
def periods : List period :=
  [OneMinute, FiveMinute, FifteenMinute, ThirtyMinute, OneHour, TwelveHour, OneDay, OneWeek,
    OneMonth]

/-- The number a string of decimal digits denotes. -/
def digitsValue (s : GoString) : Nat :=
  s.foldl (fun a c => 10 * a + (c - 48)) 0

/-- The number a decimal text with an optional leading minus sign denotes. -/
def intValue : GoString → Int
  | [] => 0
  | c :: rest => if c = 45 then -(digitsValue rest : Int) else (digitsValue (c :: rest) : Int)

instance : DecidablePred isDateByte :=
  fun c => inferInstanceAs (Decidable (c = 45 ∨ (48 ≤ c ∧ c ≤ 57)))

instance (req : Request) (k x : GoString) : Decidable (req.optional k x) :=
  inferInstanceAs (Decidable (if x = [] then ¬ req.hasKey k else req.carries k x))

instance (req : Request) (k : GoString) (b : Bool) : Decidable (req.flag k b) :=
  inferInstanceAs (Decidable (req.carries k (if b then bytes "true" else bytes "false")))

/-- The values of the query parameter `k` in the request, in the order and in the text in
which the raw query has them: the texts after `=` of the parts of the raw query, cut at the
`&` signs, whose text before `=` is the query-escaped key. -/
def Request.values (req : Request) (k : GoString) : List GoString :=
  (splitOn 38 req.URL.RawQuery).filterMap fun p =>
    if (cut 61 p).1 = QueryEscape k then some (cut 61 p).2.1 else none

/-- The nine short codes of the sampling periods. -/
def periodCodes : List GoString :=
  [bytes "1m", bytes "5m", bytes "15m", bytes "30m", bytes "1h", bytes "12h", bytes "1d",
    bytes "1w", bytes "1mo"]

/-- What a request shows of a text parameter that is sent only when it is set: for a
non-empty text `x` the request has the parameter `k` once, with the value `x`; for the
empty text it has no parameter `k`. -/
def Request.single (req : Request) (k x : GoString) : Prop :=
  if x = [] then ¬ req.hasKey k ∧ req.values k = []
  else req.carries k x ∧ req.values k = [QueryEscape x]

instance (req : Request) (k x : GoString) : Decidable (req.single k x) :=
  inferInstanceAs (Decidable (if x = [] then ¬ req.hasKey k ∧ req.values k = []
    else req.carries k x ∧ req.values k = [QueryEscape x]))

/-- Model of the error values `Decode` gives for a body that does not decode into the value
pointed to: a `*json.SyntaxError`, a `*json.UnmarshalTypeError`, `io.ErrUnexpectedEOF`,
`io.EOF`, a `*time.ParseError`. Each is a value made inside the standard library, with a
text, that wraps nothing. It is represented like the value of an `errors.New`, by an
identity and its text, under an identity other than those of `ErrBadResponse` (0) and of
the nil-context error (1). -/
def decodeFailure (id : Nat) (text : GoString) : GoError := .errorString (id + 2) text

/-- The requests a call handed to the transport, in order: one for each invocation of
`Do`. -/
def Run.calls {α : Type} (run : Run α) : List Request :=
  run.events.filterMap fun e =>
    match e with
    | .Do req => some req
    | _ => none

/-- The call returned to its caller: it did not end in a panic. -/
def Run.returns {α : Type} (run : Run α) : Prop :=
  match run.outcome with
  | .returned _ _ => True
  | .panicked => False

instance {α : Type} (run : Run α) : Decidable run.returns := by
  unfold Run.returns
  split <;> infer_instance

/-- The response body was closed: once, as the last thing the call did. -/
def Run.closed {α : Type} (run : Run α) : Prop :=
  run.events.getLast? = some .Close ∧ run.events.count .Close = 1

instance {α : Type} (run : Run α) : Decidable run.closed :=
  inferInstanceAs (Decidable (run.events.getLast? = some .Close ∧
    run.events.count .Close = 1))

/-- The API key an option gives to the client, if it sets the key. -/
def ClientOption.setsAppID : ClientOption → Option GoString
  | .WithAppID appID => some appID
  | _ => none

/-- The transport an option gives to the client, if it sets the transport. -/
def ClientOption.setsDoer : ClientOption → Option Doer
  | .WithDoer doer => some doer
  | _ => none

/-- The parameters `Values.Encode` writes, in the order in which it writes them: the keys
ascending, the values of one key in their stored order. -/
def Values.pairs (v : Values) : List (GoString × GoString) :=
  v.sortedKeys.flatMap fun k => (v.lookup k).map fun x => (k, x)

/-- The keys of the map, in the order of the entry list. -/
def Values.keys (v : Values) : List GoString := v.entries.map Prod.fst

/-- The keys of the query parameters of the request, in order and as written: the texts
before `=` of the parts of the raw query, cut at the `&` signs. -/
def Request.keys (req : Request) : List GoString :=
  (splitOn 38 req.URL.RawQuery).map fun p => (cut 61 p).1

/-- A call of one of the seven endpoint methods, with the decoder the model gives it, its
context and its options. -/
inductive Call where
  | Latest (json : Decoder LatestRatesResponse) (ctx : Context) (opts : List LatestOption)
  | Historical (json : Decoder HistoricalRatesResponse) (ctx : Context) (opts : List HistoricalOption)
  | Currencies (json : Decoder (GoMap GoString)) (ctx : Context) (opts : List CurrenciesOption)
  | TimeSeries (json : Decoder TimeSeriesResponse) (ctx : Context) (opts : List TimeSeriesOption)
  | Convert (json : Decoder ConversionResponse) (ctx : Context) (opts : List ConvertOption)
  | OpenHighLowClose (json : Decoder OHLCResponse) (ctx : Context) (opts : List OHLCOption)
  | Usage (json : Decoder UsageResponse) (ctx : Context) (opts : List UsageOption)

/-- The request the call builds when it is made on the client `c`, or the error of the
construction. -/
def Call.request (c : Client) : Call → Except GoError Request
  | .Latest _ ctx opts => c.latestRequest ctx opts
  | .Historical _ ctx opts => c.historicalRequest ctx opts
  | .Currencies _ ctx opts => c.currenciesRequest ctx opts
  | .TimeSeries _ ctx opts => c.timeSeriesRequest ctx opts
  | .Convert _ ctx opts => c.convertRequest ctx opts
  | .OpenHighLowClose _ ctx opts => c.ohlcRequest ctx opts
  | .Usage _ ctx opts => c.usageRequest ctx opts

/-- The request the call hands to the transport when it is made on the client `c`, if it
reaches the transport. -/
def Call.sent (c : Client) : Call → Option Request
  | .Latest json ctx opts => (c.Latest json ctx opts).sent
  | .Historical json ctx opts => (c.Historical json ctx opts).sent
  | .Currencies json ctx opts => (c.Currencies json ctx opts).sent
  | .TimeSeries json ctx opts => (c.TimeSeries json ctx opts).sent
  | .Convert json ctx opts => (c.Convert json ctx opts).sent
  | .OpenHighLowClose json ctx opts => (c.OpenHighLowClose json ctx opts).sent
  | .Usage json ctx opts => (c.Usage json ctx opts).sent

/-- The call made on the client `c` returns to its caller: it does not end in a panic. -/
def Call.returns (c : Client) : Call → Prop
  | .Latest json ctx opts => (c.Latest json ctx opts).returns
  | .Historical json ctx opts => (c.Historical json ctx opts).returns
  | .Currencies json ctx opts => (c.Currencies json ctx opts).returns
  | .TimeSeries json ctx opts => (c.TimeSeries json ctx opts).returns
  | .Convert json ctx opts => (c.Convert json ctx opts).returns
  | .OpenHighLowClose json ctx opts => (c.OpenHighLowClose json ctx opts).returns
  | .Usage json ctx opts => (c.Usage json ctx opts).returns

/-- The two calls are calls of the same method with equal option lists. -/
def Call.sameOptions : Call → Call → Prop
  | .Latest _ _ opts, .Latest _ _ opts' => opts = opts'
  | .Historical _ _ opts, .Historical _ _ opts' => opts = opts'
  | .Currencies _ _ opts, .Currencies _ _ opts' => opts = opts'
  | .TimeSeries _ _ opts, .TimeSeries _ _ opts' => opts = opts'
  | .Convert _ _ opts, .Convert _ _ opts' => opts = opts'
  | .OpenHighLowClose _ _ opts, .OpenHighLowClose _ _ opts' => opts = opts'
  | .Usage _ _ opts, .Usage _ _ opts' => opts = opts'
  | _, _ => False

instance (c : Client) (k : Call) : Decidable (k.returns c) := by
  cases k <;> unfold Call.returns <;> infer_instance

instance (k k' : Call) : Decidable (k.sameOptions k') := by
  cases k <;> cases k' <;> unfold Call.sameOptions <;> infer_instance

/-- The field of `latestParams` the closure of the option assigns. -/
def LatestOption.field : LatestOption → String
  | .LatestForBaseCurrency _ => "baseCurrency"
  | .LatestForDestinationCurrencies _ => "destinationCurrencies"
  | .LatestWithAlternatives _ => "showAlternative"
  | .LatestWithPrettyPrint _ => "prettyPrint"

/-- The field of `historicalParams` the closure of the option assigns. -/
def HistoricalOption.field : HistoricalOption → String
  | .HistoricalForDate _ => "date"
  | .HistoricalForBaseCurrency _ => "baseCurrency"
  | .HistoricalForDestinationCurrencies _ => "destinationCurrencies"
  | .HistoricalWithAlternatives _ => "showAlternative"
  | .HistoricalWithPrettyPrint _ => "prettyPrint"

/-- The field of `currenciesParams` the closure of the option assigns. -/
def CurrenciesOption.field : CurrenciesOption → String
  | .CurrenciesWithAlternatives _ => "showAlternative"
  | .CurrenciesWithInactive _ => "showInactive"
  | .CurrenciesWithPrettyPrint _ => "prettyPrint"

/-- The field of `timeSeriesParams` the closure of the option assigns. -/
def TimeSeriesOption.field : TimeSeriesOption → String
  | .TimeSeriesForStartDate _ => "startDate"
  | .TimeSeriesForEndDate _ => "endDate"
  | .TimeSeriesForBaseCurrency _ => "baseCurrency"
  | .TimeSeriesForDestinationCurrencies _ => "destinationCurrencies"
  | .TimeSeriesWithAlternatives _ => "showAlternative"
  | .TimeSeriesWithPrettyPrint _ => "prettyPrint"

/-- The field of `convertParams` the closure of the option assigns. -/
def ConvertOption.field : ConvertOption → String
  | .ConvertWithValue _ => "value"
  | .ConvertForBaseCurrency _ => "baseCurrency"
  | .ConvertForDestinationCurrency _ => "destinationCurrency"
  | .ConvertWithPrettyPrint _ => "prettyPrint"

/-- The field of `ohlcParams` the closure of the option assigns. -/
def OHLCOption.field : OHLCOption → String
  | .OHLCForStartTime _ => "startTime"
  | .OHLCForPeriod _ => "period"
  | .OHLCForBaseCurrency _ => "baseCurrency"
  | .OHLCForDestinationCurrencies _ => "destinationCurrencies"
  | .OHLCWithPrettyPrint _ => "prettyPrint"

/-- The field of `usageParams` the closure of the option assigns. -/
def UsageOption.field : UsageOption → String
  | .UsageWithPrettyPrint _ => "prettyPrint"

/-! ## Option values as the caller holds them, and calls in the caller's memory

The option types above give an option by its builder and the argument the closure works
with when it is applied. A caller can hold two more things: the nil function value, and a
closure of a destination-currencies builder, which captured the caller's slice and reads
what the slice holds only when it is applied. -/

/-- The memory of the caller that a call reaches through its options: for each slice the
caller gave to a destination-currencies builder, identified by an address, the strings the
slice holds at the moment. -/
abbrev Heap := Nat → List GoString

/-- A value of one of the option types (`LatestOption`, ..., `UsageOption`) as a caller can
hold it: the nil function value, the zero value of the type; a closure given by a builder
and the argument it works with; or the closure a destination-currencies builder returned
for a slice of the caller, which joins what the slice holds when the closure is applied
(`latest_opts.go` 25-29). `S` names the builders of the option type that take a slice:
`Unit` for the types with a destination-currencies builder, `Empty` for the others. -/
inductive OptionValue (O S : Type) where
  | nil
  | closure (o : O)
  | onSlice (builder : S) (slice : Nat)
deriving DecidableEq, Repr

/-- Whether the option value is the nil function value. -/
def OptionValue.isNil {O S : Type} : OptionValue O S → Bool
  | .nil => true
  | _ => false

/-- The slice the option value reads when it is applied, if it reads one. -/
def OptionValue.slices {O S : Type} : OptionValue O S → List Nat
  | .onSlice _ slice => [slice]
  | _ => []

/-- The call `opt(&r)` in the memory `h`: the builder result the closure acts as, with
what its slice holds now; `none` when the value is nil, where the call panics. -/
def OptionValue.read {O S : Type} (build : S → List GoString → O) (h : Heap) :
    OptionValue O S → Option O
  | .nil => none
  | .closure o => some o
  | .onSlice builder slice => some (build builder (h slice))

/-- The loop `for _, opt := range opts { opt(&r) }` at the head of every endpoint method
(`client.go` 52-54), in the memory `h`: the options are applied in order and the loop gives
the builder results they act as; `none` when one of them is nil: the loop panics there,
before the request is built. -/
def readOptions {O S : Type} (build : S → List GoString → O) (h : Heap) :
    List (OptionValue O S) → Option (List O)
  | [] => some []
  | v :: vs =>
    match v.read build h with
    | none => none
    | some o =>
      match readOptions build h vs with
      | none => none
      | some os => some (o :: os)

/-- A call of one of the seven endpoint methods as the caller makes it: the decoder the
model gives it, the context, and the option values. -/
inductive GoCall where
  | Latest (json : Decoder LatestRatesResponse) (ctx : Context)
      (opts : List (OptionValue LatestOption Unit))
  | Historical (json : Decoder HistoricalRatesResponse) (ctx : Context)
      (opts : List (OptionValue HistoricalOption Unit))
  | Currencies (json : Decoder (GoMap GoString)) (ctx : Context)
      (opts : List (OptionValue CurrenciesOption Empty))
  | TimeSeries (json : Decoder TimeSeriesResponse) (ctx : Context)
      (opts : List (OptionValue TimeSeriesOption Unit))
  | Convert (json : Decoder ConversionResponse) (ctx : Context)
      (opts : List (OptionValue ConvertOption Empty))
  | OpenHighLowClose (json : Decoder OHLCResponse) (ctx : Context)
      (opts : List (OptionValue OHLCOption Unit))
  | Usage (json : Decoder UsageResponse) (ctx : Context)
      (opts : List (OptionValue UsageOption Empty))

/-- The call after its option loop, in the memory `h`: the method with the builder results
the options act as; `none` when the loop panics on a nil option. -/
def GoCall.read (h : Heap) : GoCall → Option Call
  | .Latest json ctx opts =>
    (readOptions (fun _ => LatestOption.LatestForDestinationCurrencies) h opts).map
      (Call.Latest json ctx)
  | .Historical json ctx opts =>
    (readOptions (fun _ => HistoricalOption.HistoricalForDestinationCurrencies) h opts).map
      (Call.Historical json ctx)
  | .Currencies json ctx opts =>
    (readOptions (fun e => e.elim) h opts).map
      (Call.Currencies json ctx)
  | .TimeSeries json ctx opts =>
    (readOptions (fun _ => TimeSeriesOption.TimeSeriesForDestinationCurrencies) h opts).map
      (Call.TimeSeries json ctx)
  | .Convert json ctx opts =>
    (readOptions (fun e => e.elim) h opts).map
      (Call.Convert json ctx)
  | .OpenHighLowClose json ctx opts =>
    (readOptions (fun _ => OHLCOption.OHLCForDestinationCurrencies) h opts).map
      (Call.OpenHighLowClose json ctx)
  | .Usage json ctx opts =>
    (readOptions (fun e => e.elim) h opts).map
      (Call.Usage json ctx)

/-- Whether one of the options of the call is the nil function value. -/
def GoCall.hasNil : GoCall → Bool
  | .Latest _ _ opts => opts.any OptionValue.isNil
  | .Historical _ _ opts => opts.any OptionValue.isNil
  | .Currencies _ _ opts => opts.any OptionValue.isNil
  | .TimeSeries _ _ opts => opts.any OptionValue.isNil
  | .Convert _ _ opts => opts.any OptionValue.isNil
  | .OpenHighLowClose _ _ opts => opts.any OptionValue.isNil
  | .Usage _ _ opts => opts.any OptionValue.isNil

/-- The slices the options of the call read when they are applied. -/
def GoCall.slices : GoCall → List Nat
  | .Latest _ _ opts => opts.flatMap OptionValue.slices
  | .Historical _ _ opts => opts.flatMap OptionValue.slices
  | .Currencies _ _ opts => opts.flatMap OptionValue.slices
  | .TimeSeries _ _ opts => opts.flatMap OptionValue.slices
  | .Convert _ _ opts => opts.flatMap OptionValue.slices
  | .OpenHighLowClose _ _ opts => opts.flatMap OptionValue.slices
  | .Usage _ _ opts => opts.flatMap OptionValue.slices

/-- The two calls are calls of the same method with equal lists of option values. -/
def GoCall.sameOptions : GoCall → GoCall → Prop
  | .Latest _ _ opts, .Latest _ _ opts' => opts = opts'
  | .Historical _ _ opts, .Historical _ _ opts' => opts = opts'
  | .Currencies _ _ opts, .Currencies _ _ opts' => opts = opts'
  | .TimeSeries _ _ opts, .TimeSeries _ _ opts' => opts = opts'
  | .Convert _ _ opts, .Convert _ _ opts' => opts = opts'
  | .OpenHighLowClose _ _ opts, .OpenHighLowClose _ _ opts' => opts = opts'
  | .Usage _ _ opts, .Usage _ _ opts' => opts = opts'
  | _, _ => False

instance (k k' : GoCall) : Decidable (k.sameOptions k') := by
  cases k <;> cases k' <;> unfold GoCall.sameOptions <;> infer_instance

/-- The request the call hands to the transport when it is made on the client `c` in the
memory `h`, if it reaches the transport. -/
def GoCall.sent (c : Client) (h : Heap) (k : GoCall) : Option Request :=
  match k.read h with
  | none => none
  | some k' => k'.sent c

/-- The call made on the client `c` in the memory `h` returns to its caller: it does not
end in a panic. -/
def GoCall.returns (c : Client) (h : Heap) (k : GoCall) : Prop :=
  match k.read h with
  | none => False
  | some k' => k'.returns c

instance (c : Client) (h : Heap) (k : GoCall) : Decidable (k.returns c h) := by
  unfold GoCall.returns
  split <;> infer_instance

/-- A transport with a state of its own (the transport of the tests records the URL of the
last request): how `Do` answers a request in a state, and the state it leaves. -/
structure Transport (σ : Type) where
  answer : σ → Request → Option Response × Option GoError
  next : σ → Request → σ

/-- What a sequence of calls works in: the client variable of the caller, whose `doer` field
is the reference to the transport; the slices of the caller; the state of the transport. -/
structure World (σ : Type) where
  client : Client
  heap : Heap
  state : σ

/-- The client as a call finds it: the copy the value receiver gets
(`func (c Client) Latest(...)`), with its transport answering as the state makes it
answer. -/
def World.clientNow {σ : Type} (t : Transport σ) (w : World σ) : Client :=
  { w.client with doer := w.client.doer.map fun _ => ⟨t.answer w.state⟩ }

/-- One call in a world: the world after the call and the request handed to the transport,
if the call reaches it. The method works on its copy of the client and only reads the
slices, so the client variable and the slices stay as they are; an invocation of `Do` moves
the transport to its next state. -/
def GoCall.perform {σ : Type} (t : Transport σ) (w : World σ) (k : GoCall) :
    World σ × Option Request :=
  ({ w with
      state :=
        match k.sent (w.clientNow t) w.heap with
        | none => w.state
        | some req => t.next w.state req },
    k.sent (w.clientNow t) w.heap)

/-- What the caller does between and around calls on one client variable: a call of an
endpoint method, or a write into one of its slices. -/
inductive Step where
  | call (k : GoCall)
  | write (slice : Nat) (contents : List GoString)

/-- One step in a world: the world after it and the request handed to the transport. -/
def Step.perform {σ : Type} (t : Transport σ) (w : World σ) : Step → World σ × Option Request
  | .call k => k.perform t w
  | .write slice contents =>
    ({ w with heap := fun a => if a = slice then contents else w.heap a }, none)

/-- A sequence of steps from a world: the world after the last step and the requests handed
to the transport, step by step. -/
def session {σ : Type} (t : Transport σ) :
    World σ → List Step → World σ × List (Option Request)
  | w, [] => (w, [])
  | w, s :: ss =>
    ((session t (s.perform t w).1 ss).1,
      (s.perform t w).2 :: (session t (s.perform t w).1 ss).2)

/-- Whether the step writes into the slice. -/
def Step.writes (slice : Nat) : Step → Bool
  | .write a _ => decide (a = slice)
  | .call _ => false

/-! # Theorems -/

/-! ## The second half of an endpoint method -/

theorem exchange_transport_error {α : Type} (d : Doer) (req : Request) (zero : α)
    (decode : Body → α × Option GoError) (code : Int) (body : Body) (e : GoError)
    (h : d.Do req = (some ⟨code, some body⟩, some e)) :
    exchange (some d) req zero decode = ⟨[.Do req, .Close], .returned zero (some e)⟩ := by
  simp [exchange, h]

theorem exchange_bad_status {α : Type} (d : Doer) (req : Request) (zero : α)
    (decode : Body → α × Option GoError) (code : Int) (body : Body)
    (h : d.Do req = (some ⟨code, some body⟩, none)) (hcode : code ≠ 200) :
    exchange (some d) req zero decode =
      ⟨[.Do req, .Close], .returned zero (some (errStatusReceived code))⟩ := by
  simp [exchange, h, StatusOK, hcode]

theorem exchange_decoded {α : Type} (d : Doer) (req : Request) (zero : α)
    (decode : Body → α × Option GoError) (body : Body) (val : α)
    (h : d.Do req = (some ⟨200, some body⟩, none)) (hdec : decode body = (val, none)) :
    exchange (some d) req zero decode = ⟨[.Do req, .Decode, .Close], .returned val none⟩ := by
  simp [exchange, h, StatusOK, hdec]

theorem exchange_nil_response {α : Type} (d : Doer) (req : Request) (zero : α)
    (decode : Body → α × Option GoError) (err : Option GoError)
    (h : d.Do req = (none, err)) :
    exchange (some d) req zero decode = ⟨[.Do req], .panicked⟩ := by
  simp [exchange, h]

theorem errStatusReceived_is (code : Int) :
    errorsIs (errStatusReceived code) ErrBadResponse = true := by
  simp [errorsIs, errStatusReceived, ErrBadResponse]

theorem errStatusReceived_text (code : Int) :
    (errStatusReceived code).Error =
      some (bytes "status received: " ++ fmtInt code ++
        bytes ": failed to receive successful response") := by
  have h : bytes ": " ++ bytes "failed to receive successful response" =
      bytes ": failed to receive successful response" := by decide
  simp [errStatusReceived, GoError.Error, ← h]

/-! ## Bytes that pass through `net/url` unchanged -/

theorem shouldEscape_ge_128 (c : Nat) (mode : encoding) (h : 128 ≤ c) :
    shouldEscape c mode = true := by
  have h1 : isAlnum c = false := by
    simp [isAlnum]; omega
  have h2 : c ∉ [33, 36, 38, 39, 40, 41, 42, 43, 44, 59, 61, 58, 91, 93, 60, 62, 34] := by
    simp; omega
  have h3 : c ∉ [45, 95, 46, 126] := by simp; omega
  have h4 : c ∉ [36, 38, 43, 44, 47, 58, 59, 61, 63, 64] := by simp; omega
  have h5 : c ∉ [33, 40, 41, 42] := by simp; omega
  simp only [shouldEscape, h1, h2, h3, h4, h5]
  simp

theorem pathSafe_small : ∀ c < 128, shouldEscape c .encodePath = false →
    33 ≤ c ∧ c ≤ 126 ∧ c ≠ 35 ∧ c ≠ 37 ∧ c ≠ 63 := by
  decide

theorem pathSafe_facts (c : Nat) (h : pathSafe c) :
    33 ≤ c ∧ c ≤ 126 ∧ c ≠ 35 ∧ c ≠ 37 ∧ c ≠ 63 := by
  by_cases hc : c < 128
  · exact pathSafe_small c hc h
  · have := shouldEscape_ge_128 c .encodePath (by omega)
    simp [pathSafe, this] at h

theorem cut_of_not_mem (sep : Nat) (s : GoString) (h : sep ∉ s) :
    cut sep s = (s, [], false) := by
  induction s with
  | nil => rfl
  | cons c rest ih =>
    have hc : c ≠ sep := fun e => h (by simp [e])
    have hr : sep ∉ rest := fun e => h (by simp [e])
    simp [cut, hc, ih hr]

theorem unescape_path_of_no_percent (s : GoString) (h : 37 ∉ s) :
    unescape s .encodePath = .ok s := by
  induction s with
  | nil => rfl
  | cons c rest ih =>
    have hc : c ≠ 37 := fun e => h (by simp [e])
    have hr : 37 ∉ rest := fun e => h (by simp [e])
    rw [unescape.eq_def]
    simp [hc, ih hr]
    exact fun e => e.symm

theorem escape_path_of_safe (s : GoString) (h : ∀ c ∈ s, pathSafe c) :
    escape s .encodePath = s := by
  induction s with
  | nil => rfl
  | cons c rest ih =>
    have hc : shouldEscape c .encodePath = false := h c (by simp)
    have hr : ∀ c ∈ rest, pathSafe c := fun x hx => h x (by simp [hx])
    have := ih hr
    simp [escape] at this ⊢
    simp [hc, this]

/-! ## Parsing and printing a URL under `basePath` -/

theorem basePath_append (p : GoString) :
    basePath ++ p =
      104 :: 116 :: 116 :: 112 :: 115 :: 58 :: 47 :: 47 :: 111 :: 112 :: 101 :: 110 :: 101 :: 120 ::
      99 :: 104 :: 97 :: 110 :: 103 :: 101 :: 114 :: 97 :: 116 :: 101 :: 115 :: 46 :: 111 :: 114 ::
      103 :: 47 :: 97 :: 112 :: 105 :: 47 :: p := rfl

theorem parse_basePath_append (p : GoString) (h : ∀ c ∈ p, pathSafe c) :
    parse (basePath ++ p) = .ok (baseURLWith p) := by
  have hf := fun c hc => pathSafe_facts c (h c hc)
  have h63 : 63 ∉ p := fun hm => (hf 63 hm).2.2.2.2 rfl
  have h37 : 37 ∉ p := fun hm => (hf 37 hm).2.2.2.1 rfl
  have hctl : (List.any p fun b => decide (b < 32) || decide (b = 127)) = false := by
    simp only [List.any_eq_false]
    intro c hc
    have := hf c hc
    simp; omega
  have hsch : getScheme
      (104 :: 116 :: 116 :: 112 :: 115 :: 58 :: 47 :: 47 :: 111 :: 112 :: 101 :: 110 :: 101 :: 120 ::
        99 :: 104 :: 97 :: 110 :: 103 :: 101 :: 114 :: 97 :: 116 :: 101 :: 115 :: 46 :: 111 :: 114 ::
        103 :: 47 :: 97 :: 112 :: 105 :: 47 :: p)
      = .ok ([104, 116, 116, 112, 115],
        47 :: 47 :: 111 :: 112 :: 101 :: 110 :: 101 :: 120 :: 99 :: 104 :: 97 :: 110 :: 103 :: 101 ::
        114 :: 97 :: 116 :: 101 :: 115 :: 46 :: 111 :: 114 :: 103 :: 47 :: 97 :: 112 :: 105 :: 47 :: p) := by
    simp [getScheme, getSchemeLoop, isAlpha, isDigit]
  have hcut : cut 63
      (47 :: 47 :: 111 :: 112 :: 101 :: 110 :: 101 :: 120 :: 99 :: 104 :: 97 :: 110 :: 103 :: 101 ::
        114 :: 97 :: 116 :: 101 :: 115 :: 46 :: 111 :: 114 :: 103 :: 47 :: 97 :: 112 :: 105 :: 47 :: p)
      = (47 :: 47 :: 111 :: 112 :: 101 :: 110 :: 101 :: 120 :: 99 :: 104 :: 97 :: 110 :: 103 :: 101 ::
        114 :: 97 :: 116 :: 101 :: 115 :: 46 :: 111 :: 114 :: 103 :: 47 :: 97 :: 112 :: 105 :: 47 :: p,
        [], false) := by
    apply cut_of_not_mem
    simp [h63]
  have hcount : List.count 63
      (47 :: 47 :: 111 :: 112 :: 101 :: 110 :: 101 :: 120 :: 99 :: 104 :: 97 :: 110 :: 103 :: 101 ::
        114 :: 97 :: 116 :: 101 :: 115 :: 46 :: 111 :: 114 :: 103 :: 47 :: 97 :: 112 :: 105 :: 47 :: p) = 0 := by
    apply List.count_eq_zero_of_not_mem
    simp [h63]
  have hsplit : splitAtFirst 47
      (111 :: 112 :: 101 :: 110 :: 101 :: 120 :: 99 :: 104 :: 97 :: 110 :: 103 :: 101 :: 114 :: 97 ::
        116 :: 101 :: 115 :: 46 :: 111 :: 114 :: 103 :: 47 :: 97 :: 112 :: 105 :: 47 :: p)
      = some ([111, 112, 101, 110, 101, 120, 99, 104, 97, 110, 103, 101, 114, 97, 116, 101, 115, 46, 111, 114, 103], 47 :: 97 :: 112 :: 105 :: 47 :: p) := by
    simp [splitAtFirst]
  have hauth : parseAuthority [111, 112, 101, 110, 101, 120, 99, 104, 97, 110, 103, 101, 114, 97, 116, 101, 115, 46, 111, 114, 103] = .ok baseHost := by
    rfl
  have hun : unescape (47 :: 97 :: 112 :: 105 :: 47 :: p) .encodePath
      = .ok (47 :: 97 :: 112 :: 105 :: 47 :: p) := by
    apply unescape_path_of_no_percent
    simp [h37]
  have hesc : escape (47 :: 97 :: 112 :: 105 :: 47 :: p) .encodePath
      = 47 :: 97 :: 112 :: 105 :: 47 :: p := by
    apply escape_path_of_safe
    intro c hc
    simp at hc
    rcases hc with hc | hc | hc | hc | hc | hc
    · subst hc; rfl
    · subst hc; rfl
    · subst hc; rfl
    · subst hc; rfl
    · subst hc; rfl
    · exact h c hc
  rw [basePath_append]
  unfold parse
  simp [stringContainsCTLByte, hctl, hsch, hcount, hcut, hsplit, hauth, URL.setPath, hun, hesc]
  rfl

theorem Parse_basePath_append (p : GoString) (h : ∀ c ∈ p, pathSafe c) :
    Parse (basePath ++ p) = .ok (baseURLWith p) := by
  have h35 : 35 ∉ basePath ++ p := by
    rw [basePath_append]
    have : 35 ∉ p := fun hm => (pathSafe_facts 35 (h 35 hm)).2.2.1 rfl
    simp [this]
  simp [Parse, cut_of_not_mem 35 _ h35, parse_basePath_append p h]

theorem NewRequestWithContext_basePath_append (p : GoString) (h : ∀ c ∈ p, pathSafe c) :
    NewRequestWithContext .live (basePath ++ p) = .ok (baseRequest p []) := by
  simp [NewRequestWithContext, Parse_basePath_append p h]
  rfl

theorem baseURLWith_Query (p : GoString) : (baseURLWith p).Query = {} := rfl

theorem baseRequest_String (p q : GoString) (h : ∀ c ∈ p, pathSafe c) (hq : q ≠ []) :
    (baseRequest p q).URL.String = basePath ++ p ++ 63 :: q := by
  have hesc : escape (47 :: 97 :: 112 :: 105 :: 47 :: p) .encodePath
      = 47 :: 97 :: 112 :: 105 :: 47 :: p := by
    apply escape_path_of_safe
    intro c hc
    simp at hc
    rcases hc with hc | hc | hc | hc | hc | hc
    · subst hc; rfl
    · subst hc; rfl
    · subst hc; rfl
    · subst hc; rfl
    · subst hc; rfl
    · exact h c hc
  have hb : bytes "/api/" ++ p = 47 :: 97 :: 112 :: 105 :: 47 :: p := rfl
  have hs : baseScheme = [104, 116, 116, 112, 115] := rfl
  have hh : escape baseHost .encodeHost = baseHost := rfl
  have hh2 : baseHost = [111, 112, 101, 110, 101, 120, 99, 104, 97, 110, 103, 101, 114, 97,
      116, 101, 115, 46, 111, 114, 103] := rfl
  rw [basePath_append]
  simp [baseRequest, URL.String, URL.EscapedPath, baseURLWith, hb, hesc, hs, hq, hh]
  simp [hh2]

/-! ## The names of the query parameters as bytes -/

theorem bytes_app_id : bytes "app_id" = [97, 112, 112, 95, 105, 100] := rfl

theorem bytes_prettyprint :
    bytes "prettyprint" = [112, 114, 101, 116, 116, 121, 112, 114, 105, 110, 116] := rfl

theorem bytes_base : bytes "base" = [98, 97, 115, 101] := rfl

theorem bytes_symbols : bytes "symbols" = [115, 121, 109, 98, 111, 108, 115] := rfl

theorem bytes_show_alternative :
    bytes "show_alternative" =
      [115, 104, 111, 119, 95, 97, 108, 116, 101, 114, 110, 97, 116, 105, 118, 101] := rfl

theorem bytes_show_inactive :
    bytes "show_inactive" = [115, 104, 111, 119, 95, 105, 110, 97, 99, 116, 105, 118, 101] := rfl

theorem bytes_start : bytes "start" = [115, 116, 97, 114, 116] := rfl

theorem bytes_end : bytes "end" = [101, 110, 100] := rfl

theorem bytes_start_date :
    bytes "start_date" = [115, 116, 97, 114, 116, 95, 100, 97, 116, 101] := rfl

theorem bytes_period : bytes "period" = [112, 101, 114, 105, 111, 100] := rfl

/-! ## Query values: what `Add` stores and what `Encode` writes -/

theorem upperhex_ne (n c : Nat) (h1 : c < 48) : upperhex n ≠ c := by
  unfold upperhex
  split <;> omega

theorem upperhex_ne_61 (n : Nat) : upperhex n ≠ 61 := by
  unfold upperhex
  split <;> omega

theorem shouldEscape_query_38 : shouldEscape 38 .encodeQueryComponent = true := by decide

theorem shouldEscape_query_61 : shouldEscape 61 .encodeQueryComponent = true := by decide

theorem mem_QueryEscape (s : GoString) (b : Nat) (h : b ∈ QueryEscape s) :
    b = 43 ∨ b = 37 ∨ (∃ n, b = upperhex n) ∨ shouldEscape b .encodeQueryComponent = false := by
  simp only [QueryEscape, escape, List.mem_flatMap] at h
  obtain ⟨c, _, hm⟩ := h
  split_ifs at hm with h1 h2
  · simp at hm; exact Or.inl hm
  · simp at hm
    rcases hm with hm | hm | hm
    · exact Or.inr (Or.inl hm)
    · exact Or.inr (Or.inr (Or.inl ⟨_, hm⟩))
    · exact Or.inr (Or.inr (Or.inl ⟨_, hm⟩))
  · simp at hm
    subst hm
    simp at h2
    exact Or.inr (Or.inr (Or.inr h2))

theorem not_mem_QueryEscape_38 (s : GoString) : 38 ∉ QueryEscape s := by
  intro h
  rcases mem_QueryEscape s 38 h with h | h | ⟨n, h⟩ | h
  · omega
  · omega
  · exact upperhex_ne n 38 (by omega) h.symm
  · simp [shouldEscape_query_38] at h

theorem not_mem_QueryEscape_61 (s : GoString) : 61 ∉ QueryEscape s := by
  intro h
  rcases mem_QueryEscape s 61 h with h | h | ⟨n, h⟩ | h
  · omega
  · omega
  · exact upperhex_ne_61 n h.symm
  · simp [shouldEscape_query_61] at h

theorem not_mem_piece_38 (k x : GoString) : 38 ∉ piece k x := by
  simp [piece, not_mem_QueryEscape_38]

theorem cut_piece (k x : GoString) : cut 61 (piece k x) = (QueryEscape k, QueryEscape x, true) := by
  unfold piece
  have h := not_mem_QueryEscape_61 k
  generalize QueryEscape k = a at h
  generalize QueryEscape x = b
  induction a with
  | nil => simp [cut]
  | cons c rest ih =>
    have hc : c ≠ 61 := fun e => h (by simp [e])
    have hr : 61 ∉ rest := fun e => h (by simp [e])
    simp [cut, hc, ih hr]

theorem splitOn_append_sep (sep : Nat) (a b : GoString) (h : sep ∉ a) :
    splitOn sep (a ++ sep :: b) = a :: splitOn sep b := by
  induction a with
  | nil => simp [splitOn]
  | cons c rest ih =>
    have hc : c ≠ sep := fun e => h (by simp [e])
    have hr : sep ∉ rest := fun e => h (by simp [e])
    simp [splitOn, hc, ih hr]

theorem splitOn_of_not_mem (sep : Nat) (a : GoString) (h : sep ∉ a) :
    splitOn sep a = [a] := by
  induction a with
  | nil => simp [splitOn]
  | cons c rest ih =>
    have hc : c ≠ sep := fun e => h (by simp [e])
    have hr : sep ∉ rest := fun e => h (by simp [e])
    simp [splitOn, hc, ih hr]

theorem splitOn_joinAmp (segs : List GoString) (hne : segs ≠ [])
    (h : ∀ s ∈ segs, 38 ∉ s) : splitOn 38 (joinAmp segs) = segs := by
  induction segs with
  | nil => exact absurd rfl hne
  | cons a rest ih =>
    cases rest with
    | nil => simpa [joinAmp] using splitOn_of_not_mem 38 a (h a (by simp))
    | cons b rest2 =>
      have ha : 38 ∉ a := h a (by simp)
      have hr : ∀ s ∈ b :: rest2, 38 ∉ s := fun s hs => h s (by simp [hs])
      simp only [joinAmp]
      rw [splitOn_append_sep 38 a _ ha, ih (by simp) hr]

theorem splitOn_queryOf (ps : List (GoString × GoString)) (hne : ps ≠ []) :
    splitOn 38 (queryOf ps) = ps.map fun kv => piece kv.1 kv.2 := by
  unfold queryOf
  apply splitOn_joinAmp
  · simpa using hne
  · intro s hs
    simp only [List.mem_map] at hs
    obtain ⟨kv, _, rfl⟩ := hs
    exact not_mem_piece_38 _ _

theorem lookup_addEntry_self (k x : GoString) (es : List (GoString × List GoString)) :
    x ∈ (Values.mk (addEntry k x es)).lookup k := by
  induction es with
  | nil => simp [addEntry, Values.lookup]
  | cons e rest ih =>
    by_cases h : e.1 = k
    · simp [addEntry, Values.lookup, h]
    · simpa [addEntry, Values.lookup, h] using ih

theorem lookup_addEntry_mono (k x k' y : GoString) (es : List (GoString × List GoString))
    (hy : y ∈ (Values.mk es).lookup k') : y ∈ (Values.mk (addEntry k x es)).lookup k' := by
  induction es with
  | nil => simp [Values.lookup] at hy
  | cons e rest ih =>
    obtain ⟨ek, ev⟩ := e
    by_cases h : ek = k
    · subst h
      by_cases h' : ek = k'
      · subst h'
        simp [Values.lookup] at hy
        simp [addEntry, Values.lookup, hy]
      · simp [Values.lookup, h'] at hy
        simpa [addEntry, Values.lookup, h'] using hy
    · by_cases h' : ek = k'
      · subst h'
        simp [Values.lookup] at hy
        simp [addEntry, Values.lookup, h, hy]
      · simp [Values.lookup, h'] at hy
        have := ih (by simpa [Values.lookup] using hy)
        simpa [addEntry, Values.lookup, h, h'] using this

theorem lookup_Add_self (v : Values) (k x : GoString) : x ∈ (v.Add k x).lookup k :=
  lookup_addEntry_self k x v.entries

theorem lookup_Add_mono (v : Values) (k x k' y : GoString) (hy : y ∈ v.lookup k') :
    y ∈ (v.Add k x).lookup k' :=
  lookup_addEntry_mono k x k' y v.entries hy

theorem lookup_ite_Add_mono (v : Values) (cond : Prop) [Decidable cond] (k x k' y : GoString)
    (hy : y ∈ v.lookup k') : y ∈ (if cond then v.Add k x else v).lookup k' := by
  split
  · exact lookup_Add_mono v k x k' y hy
  · exact hy

theorem mem_keys_of_lookup (v : Values) (k y : GoString) (hy : y ∈ v.lookup k) :
    k ∈ v.entries.map Prod.fst := by
  unfold Values.lookup at hy
  cases hf : v.entries.find? (fun e => decide (e.1 = k)) with
  | none => simp [hf] at hy
  | some e =>
    have h1 := List.find?_some hf
    have h2 := List.mem_of_find?_eq_some hf
    simp at h1
    exact List.mem_map.mpr ⟨e, h2, h1⟩

theorem mem_segments (v : Values) (k y : GoString) (hy : y ∈ v.lookup k) :
    piece k y ∈ v.segments := by
  unfold Values.segments
  rw [List.mem_flatMap]
  refine ⟨k, ?_, ?_⟩
  · unfold Values.sortedKeys
    rw [List.mem_insertionSort]
    exact mem_keys_of_lookup v k y hy
  · exact List.mem_map.mpr ⟨y, hy, rfl⟩

theorem not_mem_segments_38 (v : Values) : ∀ s ∈ v.segments, 38 ∉ s := by
  intro s hs
  unfold Values.segments at hs
  rw [List.mem_flatMap] at hs
  obtain ⟨k, _, hk⟩ := hs
  rw [List.mem_map] at hk
  obtain ⟨x, _, rfl⟩ := hk
  exact not_mem_piece_38 k x

theorem splitOn_Encode (v : Values) (hne : v.segments ≠ []) :
    splitOn 38 v.Encode = v.segments :=
  splitOn_joinAmp v.segments hne (not_mem_segments_38 v)

theorem carries_Encode (req : Request) (v : Values) (k y : GoString) (hy : y ∈ v.lookup k) :
    Request.carries { req with URL := { req.URL with RawQuery := v.Encode } } k y := by
  have hm := mem_segments v k y hy
  have hne : v.segments ≠ [] := List.ne_nil_of_mem hm
  simp only [Request.carries]
  rw [splitOn_Encode v hne]
  exact hm

/-! ## Digits and dates -/

theorem natDigitsAux_digits (fuel n : Nat) (acc : GoString)
    (hacc : ∀ c ∈ acc, 48 ≤ c ∧ c ≤ 57) : ∀ c ∈ natDigitsAux fuel n acc, 48 ≤ c ∧ c ≤ 57 := by
  induction fuel generalizing n acc with
  | zero => simpa [natDigitsAux] using hacc
  | succ f ih =>
    have hstep : ∀ c ∈ (48 + n % 10) :: acc, 48 ≤ c ∧ c ≤ 57 := by
      intro c hc
      rcases List.mem_cons.mp hc with h | h
      · subst h; omega
      · exact hacc c h
    unfold natDigitsAux
    split
    · exact hstep
    · exact ih _ _ hstep

theorem natDigits_digits (n : Nat) : ∀ c ∈ natDigits n, 48 ≤ c ∧ c ≤ 57 :=
  natDigitsAux_digits _ _ [] (by simp)

theorem appendInt_dateBytes (x : Int) (w : Nat) : ∀ c ∈ appendInt x w, isDateByte c := by
  intro c hc
  unfold appendInt at hc
  simp only [List.mem_append] at hc
  rcases hc with hc | hc
  · split at hc
    · simp at hc; exact Or.inl hc
    · simp at hc
  · right
    split at hc
    · rename_i h
      simp at hc
      rcases hc with hc | hc <;> subst hc <;> omega
    · split at hc
      · rename_i h
        simp at hc
        rcases hc with hc | hc | hc | hc <;> subst hc <;> omega
      · simp only [List.mem_append, List.mem_replicate] at hc
        rcases hc with hc | hc
        · omega
        · exact natDigits_digits _ c hc

theorem formatDate_dateBytes (t : Time) : ∀ c ∈ t.formatDate, isDateByte c := by
  intro c hc
  unfold Time.formatDate at hc
  simp only [List.mem_append, List.mem_cons] at hc
  rcases hc with (hc | hc | hc) | hc | hc
  · exact appendInt_dateBytes _ _ c hc
  · exact Or.inl hc
  · exact appendInt_dateBytes _ _ c hc
  · exact Or.inl hc
  · exact appendInt_dateBytes _ _ c hc

theorem dateByte_small : ∀ c < 58, isDateByte c →
    shouldEscape c .encodePath = false ∧ shouldEscape c .encodeQueryComponent = false := by
  unfold isDateByte
  decide

theorem pathSafe_of_dateByte (c : Nat) (h : isDateByte c) : pathSafe c :=
  (dateByte_small c (by unfold isDateByte at h; omega) h).1

theorem queryKept_of_dateByte (c : Nat) (h : isDateByte c) :
    shouldEscape c .encodeQueryComponent = false :=
  (dateByte_small c (by unfold isDateByte at h; omega) h).2

theorem escape_append (a b : GoString) (mode : encoding) :
    escape (a ++ b) mode = escape a mode ++ escape b mode := by
  simp [escape]

theorem QueryEscape_of_kept (s : GoString)
    (h : ∀ c ∈ s, shouldEscape c .encodeQueryComponent = false) : QueryEscape s = s := by
  induction s with
  | nil => rfl
  | cons c rest ih =>
    have hc : shouldEscape c .encodeQueryComponent = false := h c (by simp)
    have h32 : c ≠ 32 := by
      intro e
      subst e
      exact absurd hc (by decide)
    have hr := ih (fun x hx => h x (by simp [hx]))
    simp only [QueryEscape, escape, List.flatMap_cons] at hr ⊢
    rw [hr]
    simp [hc, h32]

theorem QueryEscape_formatDate (t : Time) : QueryEscape t.formatDate = t.formatDate :=
  QueryEscape_of_kept _ (fun c hc => queryKept_of_dateByte c (formatDate_dateBytes t c hc))

theorem formatDate_zero : Time.zero.formatDate = bytes "0001-01-01" := by decide

/-! ## The request each endpoint method builds -/

theorem latestRequest_eq (c : Client) (hc : c.baseURL = basePath) (opts : List LatestOption) :
    c.latestRequest .live opts =
      .ok (baseRequest (bytes "latest.json") (queryOf (latestPairs c (latestParamsOf opts)))) := by
  have hsafe : ∀ x ∈ bytes "latest.json", pathSafe x := by decide
  simp only [Client.latestRequest, hc, NewRequestWithContext_basePath_append _ hsafe]
  generalize latestParamsOf opts = r
  simp only [baseRequest, baseURLWith_Query]
  by_cases hb : r.baseCurrency = [] <;> by_cases hs : r.destinationCurrencies = [] <;>
    simp [hb, hs, latestPairs, queryOf, piece, Values.Encode, Values.segments, Values.sortedKeys,
      Values.lookup, Values.Add, addEntry, List.insertionSort, List.orderedInsert, strLE,
      joinAmp, bytes_app_id, bytes_prettyprint, bytes_base, bytes_symbols,
      bytes_show_alternative, bytes_show_inactive, bytes_start, bytes_end, bytes_start_date,
      bytes_period]

theorem currenciesRequest_eq (c : Client) (hc : c.baseURL = basePath)
    (opts : List CurrenciesOption) :
    c.currenciesRequest .live opts =
      .ok (baseRequest (bytes "currencies.json")
        (queryOf (currenciesPairs c (currenciesParamsOf opts)))) := by
  have hsafe : ∀ x ∈ bytes "currencies.json", pathSafe x := by decide
  simp only [Client.currenciesRequest, hc, NewRequestWithContext_basePath_append _ hsafe]
  generalize currenciesParamsOf opts = r
  simp only [baseRequest, baseURLWith_Query]
  simp [currenciesPairs, queryOf, piece, Values.Encode, Values.segments, Values.sortedKeys,
      Values.lookup, Values.Add, addEntry, List.insertionSort, List.orderedInsert, strLE,
      joinAmp, bytes_app_id, bytes_prettyprint, bytes_base, bytes_symbols,
      bytes_show_alternative, bytes_show_inactive, bytes_start, bytes_end, bytes_start_date,
      bytes_period]

theorem timeSeriesRequest_eq (c : Client) (hc : c.baseURL = basePath)
    (opts : List TimeSeriesOption) :
    c.timeSeriesRequest .live opts =
      .ok (baseRequest (bytes "time-series.json")
        (queryOf (timeSeriesPairs c (timeSeriesParamsOf opts)))) := by
  have hsafe : ∀ x ∈ bytes "time-series.json", pathSafe x := by decide
  simp only [Client.timeSeriesRequest, hc, NewRequestWithContext_basePath_append _ hsafe]
  generalize timeSeriesParamsOf opts = r
  simp only [baseRequest, baseURLWith_Query]
  by_cases hb : r.baseCurrency = [] <;> by_cases hs : r.destinationCurrencies = [] <;>
    simp [hb, hs, timeSeriesPairs,
      queryOf, piece, Values.Encode, Values.segments, Values.sortedKeys,
      Values.lookup, Values.Add, addEntry, List.insertionSort, List.orderedInsert, strLE,
      joinAmp, bytes_app_id, bytes_prettyprint, bytes_base, bytes_symbols,
      bytes_show_alternative, bytes_show_inactive, bytes_start, bytes_end, bytes_start_date,
      bytes_period]

theorem ohlcRequest_eq (c : Client) (hc : c.baseURL = basePath) (opts : List OHLCOption) :
    c.ohlcRequest .live opts =
      .ok (baseRequest (bytes "ohlc.json") (queryOf (ohlcPairs c (ohlcParamsOf opts)))) := by
  have hsafe : ∀ x ∈ bytes "ohlc.json", pathSafe x := by decide
  simp only [Client.ohlcRequest, hc, NewRequestWithContext_basePath_append _ hsafe]
  generalize ohlcParamsOf opts = r
  simp only [baseRequest, baseURLWith_Query]
  by_cases hb : r.baseCurrency = [] <;> by_cases hs : r.destinationCurrencies = [] <;>
    simp [hb, hs, ohlcPairs, queryOf, piece, Values.Encode, Values.segments, Values.sortedKeys,
      Values.lookup, Values.Add, addEntry, List.insertionSort, List.orderedInsert, strLE,
      joinAmp, bytes_app_id, bytes_prettyprint, bytes_base, bytes_symbols,
      bytes_show_alternative, bytes_show_inactive, bytes_start, bytes_end, bytes_start_date,
      bytes_period]

theorem usageRequest_eq (c : Client) (hc : c.baseURL = basePath) (opts : List UsageOption) :
    c.usageRequest .live opts =
      .ok (baseRequest (bytes "usage.json") (queryOf (usagePairs c (usageParamsOf opts)))) := by
  have hsafe : ∀ x ∈ bytes "usage.json", pathSafe x := by decide
  simp only [Client.usageRequest, hc, NewRequestWithContext_basePath_append _ hsafe]
  generalize usageParamsOf opts = r
  simp only [baseRequest, baseURLWith_Query]
  simp [usagePairs, queryOf, piece, Values.Encode, Values.segments, Values.sortedKeys,
      Values.lookup, Values.Add, addEntry, List.insertionSort, List.orderedInsert, strLE,
      joinAmp, bytes_app_id, bytes_prettyprint, bytes_base, bytes_symbols,
      bytes_show_alternative, bytes_show_inactive, bytes_start, bytes_end, bytes_start_date,
      bytes_period]

theorem historicalPath_safe (r : historicalParams) : ∀ x ∈ historicalPath r, pathSafe x := by
  intro x hx
  simp only [historicalPath, List.mem_append] at hx
  rcases hx with (hx | hx) | hx
  · exact (by decide : ∀ x ∈ bytes "historical/", pathSafe x) x hx
  · exact pathSafe_of_dateByte x (formatDate_dateBytes _ x hx)
  · exact (by decide : ∀ x ∈ bytes ".json", pathSafe x) x hx

theorem historicalRequest_eq (c : Client) (hc : c.baseURL = basePath)
    (opts : List HistoricalOption) :
    c.historicalRequest .live opts =
      .ok (baseRequest (historicalPath (historicalParamsOf opts))
        (queryOf (historicalPairs c (historicalParamsOf opts)))) := by
  simp only [Client.historicalRequest, hc]
  generalize historicalParamsOf opts = r
  have hp : basePath ++ bytes "historical/" ++ r.date.formatDate ++ bytes ".json" =
      basePath ++ historicalPath r := by
    simp [historicalPath, List.append_assoc]
  rw [hp, NewRequestWithContext_basePath_append _ (historicalPath_safe r)]
  simp only [baseRequest, baseURLWith_Query]
  by_cases hb : r.baseCurrency = [] <;> by_cases hs : r.destinationCurrencies = [] <;>
    simp [hb, hs, historicalPairs,
      queryOf, piece, Values.Encode, Values.segments, Values.sortedKeys,
      Values.lookup, Values.Add, addEntry, List.insertionSort, List.orderedInsert, strLE,
      joinAmp, bytes_app_id, bytes_prettyprint, bytes_base, bytes_symbols,
      bytes_show_alternative, bytes_show_inactive, bytes_start, bytes_end, bytes_start_date,
      bytes_period]

theorem convertPath_safe (r : convertParams)
    (h : ∀ x ∈ r.value.text ++ r.baseCurrency ++ r.destinationCurrency, pathSafe x) :
    ∀ x ∈ convertPath r, pathSafe x := by
  intro x hx
  simp only [convertPath, List.mem_append] at hx
  simp only [List.mem_append] at h
  rcases hx with ((((hx | hx) | hx) | hx) | hx) | hx
  · exact (by decide : ∀ x ∈ bytes "convert/", pathSafe x) x hx
  · exact h x (Or.inl (Or.inl hx))
  · exact (by decide : ∀ x ∈ bytes "/", pathSafe x) x hx
  · exact h x (Or.inl (Or.inr hx))
  · exact (by decide : ∀ x ∈ bytes "/", pathSafe x) x hx
  · exact h x (Or.inr hx)

theorem convertRequest_eq (c : Client) (hc : c.baseURL = basePath) (opts : List ConvertOption)
    (h : ∀ x ∈ (convertParamsOf opts).value.text ++ (convertParamsOf opts).baseCurrency ++
      (convertParamsOf opts).destinationCurrency, pathSafe x) :
    c.convertRequest .live opts =
      .ok (baseRequest (convertPath (convertParamsOf opts))
        (queryOf (convertPairs c (convertParamsOf opts)))) := by
  simp only [Client.convertRequest, hc]
  generalize convertParamsOf opts = r at h
  have hp : basePath ++ bytes "convert/" ++ r.value.text ++ bytes "/" ++ r.baseCurrency ++
      bytes "/" ++ r.destinationCurrency = basePath ++ convertPath r := by
    simp [convertPath, List.append_assoc]
  rw [hp, NewRequestWithContext_basePath_append _ (convertPath_safe r h)]
  simp only [baseRequest, baseURLWith_Query]
  simp [convertPairs, queryOf, piece, Values.Encode, Values.segments, Values.sortedKeys,
      Values.lookup, Values.Add, addEntry, List.insertionSort, List.orderedInsert, strLE,
      joinAmp, bytes_app_id, bytes_prettyprint, bytes_base, bytes_symbols,
      bytes_show_alternative, bytes_show_inactive, bytes_start, bytes_end, bytes_start_date,
      bytes_period]

/-! ## What a call hands to the transport -/

theorem sent_exchange {α : Type} (d : Doer) (req : Request) (zero : α)
    (decode : Body → α × Option GoError) :
    (exchange (some d) req zero decode).sent = some req := by
  unfold exchange
  simp only
  split
  · rfl
  · split
    · rfl
    · split
      · rfl
      · split
        · rfl
        · split <;> rfl

theorem sent_finish_ok {α : Type} (d : Doer) (req : Request) (zero : α)
    (decode : Body → α × Option GoError) :
    (finish (.ok req) (some d) zero decode).sent = some req :=
  sent_exchange d req zero decode

theorem sent_finish_some {α : Type} (built : Except GoError Request) (doer : Option Doer)
    (zero : α) (decode : Body → α × Option GoError) (req : Request)
    (h : (finish built doer zero decode).sent = some req) : built = .ok req := by
  cases built with
  | error e => simp [finish, Run.sent] at h
  | ok r =>
    cases doer with
    | none => simp [finish, exchange, Run.sent] at h
    | some d =>
      rw [sent_finish_ok] at h
      simp at h
      rw [h]

/-! ## The value the last option gives to a field -/

theorem lastSet_nil {O β : Type} (sets : O → Option β) : lastSet sets [] = none := rfl

theorem lastSet_append_singleton {O β : Type} (sets : O → Option β) (opts : List O) (o : O) :
    lastSet sets (opts ++ [o]) = (sets o).or (lastSet sets opts) := by
  simp [lastSet, List.findSome?_cons]
  cases sets o <;> simp

theorem foldl_field {O P β : Type} (apply : O → P → P) (f : P → β) (sets : O → Option β)
    (h : ∀ o p, f (apply o p) = (sets o).getD (f p)) (opts : List O) (z : P) :
    f (opts.foldl (fun r o => apply o r) z) = (lastSet sets opts).getD (f z) := by
  induction opts using List.reverseRecOn with
  | nil => rfl
  | append_singleton opts o ih =>
    rw [List.foldl_append, lastSet_append_singleton]
    simp only [List.foldl_cons, List.foldl_nil]
    rw [h, ih]
    cases sets o <;> simp

theorem lastSet_eq_none {O β : Type} (sets : O → Option β) (opts : List O)
    (h : ∀ o ∈ opts, sets o = none) : lastSet sets opts = none := by
  unfold lastSet
  rw [List.findSome?_eq_none_iff]
  intro o ho
  exact h o (List.mem_reverse.mp ho)

/-! ## Parameters every built request carries, whatever the URL parsed to -/

theorem latestRequest_carries (c : Client) (ctx : Context) (opts : List LatestOption)
    (req : Request) (h : c.latestRequest ctx opts = .ok req) :
    req.carries (bytes "app_id") c.appID ∧
      req.carries (bytes "prettyprint") (FormatBool (latestParamsOf opts).prettyPrint) := by
  unfold Client.latestRequest at h
  simp only at h
  split at h
  · cases h
  · injection h with h
    subst h
    constructor
    · apply carries_Encode
      apply lookup_Add_mono
      apply lookup_ite_Add_mono
      apply lookup_ite_Add_mono
      apply lookup_Add_mono
      apply lookup_Add_self
    · apply carries_Encode
      apply lookup_Add_mono
      apply lookup_ite_Add_mono
      apply lookup_ite_Add_mono
      apply lookup_Add_self

theorem historicalRequest_carries (c : Client) (ctx : Context) (opts : List HistoricalOption)
    (req : Request) (h : c.historicalRequest ctx opts = .ok req) :
    req.carries (bytes "app_id") c.appID ∧
      req.carries (bytes "prettyprint") (FormatBool (historicalParamsOf opts).prettyPrint) := by
  unfold Client.historicalRequest at h
  simp only at h
  split at h
  · cases h
  · injection h with h
    subst h
    constructor
    · apply carries_Encode
      apply lookup_ite_Add_mono
      apply lookup_ite_Add_mono
      apply lookup_Add_mono
      apply lookup_Add_mono
      apply lookup_Add_self
    · apply carries_Encode
      apply lookup_ite_Add_mono
      apply lookup_ite_Add_mono
      apply lookup_Add_mono
      apply lookup_Add_self

theorem currenciesRequest_carries (c : Client) (ctx : Context) (opts : List CurrenciesOption)
    (req : Request) (h : c.currenciesRequest ctx opts = .ok req) :
    req.carries (bytes "app_id") c.appID ∧
      req.carries (bytes "prettyprint") (FormatBool (currenciesParamsOf opts).prettyPrint) := by
  unfold Client.currenciesRequest at h
  simp only at h
  split at h
  · cases h
  · injection h with h
    subst h
    constructor
    · apply carries_Encode
      apply lookup_Add_mono
      apply lookup_Add_mono
      apply lookup_Add_mono
      apply lookup_Add_self
    · apply carries_Encode
      apply lookup_Add_mono
      apply lookup_Add_self

theorem timeSeriesRequest_carries (c : Client) (ctx : Context) (opts : List TimeSeriesOption)
    (req : Request) (h : c.timeSeriesRequest ctx opts = .ok req) :
    (req.carries (bytes "app_id") c.appID ∧
      req.carries (bytes "prettyprint") (FormatBool (timeSeriesParamsOf opts).prettyPrint)) ∧
    req.carries (bytes "start") (timeSeriesParamsOf opts).startDate.formatDate ∧
    req.carries (bytes "end") (timeSeriesParamsOf opts).endDate.formatDate := by
  unfold Client.timeSeriesRequest at h
  simp only at h
  split at h
  · cases h
  · injection h with h
    subst h
    refine ⟨⟨?_, ?_⟩, ?_, ?_⟩
    · apply carries_Encode
      apply lookup_ite_Add_mono
      apply lookup_ite_Add_mono
      apply lookup_Add_mono
      apply lookup_Add_mono
      apply lookup_Add_mono
      apply lookup_Add_mono
      apply lookup_Add_self
    · apply carries_Encode
      apply lookup_ite_Add_mono
      apply lookup_ite_Add_mono
      apply lookup_Add_mono
      apply lookup_Add_mono
      apply lookup_Add_mono
      apply lookup_Add_self
    · apply carries_Encode
      apply lookup_ite_Add_mono
      apply lookup_ite_Add_mono
      apply lookup_Add_mono
      apply lookup_Add_self
    · apply carries_Encode
      apply lookup_ite_Add_mono
      apply lookup_ite_Add_mono
      apply lookup_Add_self

theorem convertRequest_carries (c : Client) (ctx : Context) (opts : List ConvertOption)
    (req : Request) (h : c.convertRequest ctx opts = .ok req) :
    req.carries (bytes "app_id") c.appID ∧
      req.carries (bytes "prettyprint") (FormatBool (convertParamsOf opts).prettyPrint) := by
  unfold Client.convertRequest at h
  simp only at h
  split at h
  · cases h
  · injection h with h
    subst h
    constructor
    · apply carries_Encode
      apply lookup_Add_mono
      apply lookup_Add_self
    · apply carries_Encode
      apply lookup_Add_self

theorem ohlcRequest_carries (c : Client) (ctx : Context) (opts : List OHLCOption)
    (req : Request) (h : c.ohlcRequest ctx opts = .ok req) :
    (req.carries (bytes "app_id") c.appID ∧
      req.carries (bytes "prettyprint") (FormatBool (ohlcParamsOf opts).prettyPrint)) ∧
    req.carries (bytes "start_date") (ohlcParamsOf opts).startTime.formatRFC3339 ∧
    req.carries (bytes "period") (ohlcParamsOf opts).period := by
  unfold Client.ohlcRequest at h
  simp only at h
  split at h
  · cases h
  · injection h with h
    subst h
    refine ⟨⟨?_, ?_⟩, ?_, ?_⟩
    · apply carries_Encode
      apply lookup_ite_Add_mono
      apply lookup_ite_Add_mono
      apply lookup_Add_mono
      apply lookup_Add_mono
      apply lookup_Add_mono
      apply lookup_Add_self
    · apply carries_Encode
      apply lookup_ite_Add_mono
      apply lookup_ite_Add_mono
      apply lookup_Add_mono
      apply lookup_Add_mono
      apply lookup_Add_self
    · apply carries_Encode
      apply lookup_ite_Add_mono
      apply lookup_ite_Add_mono
      apply lookup_Add_mono
      apply lookup_Add_self
    · apply carries_Encode
      apply lookup_ite_Add_mono
      apply lookup_ite_Add_mono
      exact lookup_Add_self _ _ _

theorem usageRequest_carries (c : Client) (ctx : Context) (opts : List UsageOption)
    (req : Request) (h : c.usageRequest ctx opts = .ok req) :
    req.carries (bytes "app_id") c.appID ∧
      req.carries (bytes "prettyprint") (FormatBool (usageParamsOf opts).prettyPrint) := by
  unfold Client.usageRequest at h
  simp only at h
  split at h
  · cases h
  · injection h with h
    subst h
    constructor
    · apply carries_Encode
      apply lookup_Add_mono
      apply lookup_Add_self
    · apply carries_Encode
      apply lookup_Add_self

/-! ## Reading a query written by `queryOf` -/

theorem carries_baseRequest (p : GoString) (ps : List (GoString × GoString)) (k x : GoString)
    (hm : (k, x) ∈ ps) : (baseRequest p (queryOf ps)).carries k x := by
  have hne : ps ≠ [] := List.ne_nil_of_mem hm
  simp only [Request.carries, baseRequest]
  rw [splitOn_queryOf ps hne]
  exact List.mem_map.mpr ⟨(k, x), hm, rfl⟩

theorem hasKey_baseRequest (p : GoString) (ps : List (GoString × GoString)) (k : GoString)
    (hne : ps ≠ []) :
    (baseRequest p (queryOf ps)).hasKey k ↔ ∃ kv ∈ ps, QueryEscape kv.1 = QueryEscape k := by
  simp only [Request.hasKey, baseRequest]
  rw [splitOn_queryOf ps hne]
  constructor
  · rintro ⟨q, hq, he⟩
    obtain ⟨kv, hkv, rfl⟩ := List.mem_map.mp hq
    rw [cut_piece] at he
    exact ⟨kv, hkv, he⟩
  · rintro ⟨kv, hkv, he⟩
    refine ⟨piece kv.1 kv.2, List.mem_map.mpr ⟨kv, hkv, rfl⟩, ?_⟩
    rw [cut_piece]
    exact he

/-! ## Optional parameters and flags of the requests under `basePath` -/

theorem optional_of_pairs (p : GoString) (ps : List (GoString × GoString)) (k x : GoString)
    (hne : ps ≠ []) (h1 : x ≠ [] → (k, x) ∈ ps)
    (h2 : x = [] → ∀ kv ∈ ps, QueryEscape kv.1 ≠ QueryEscape k) :
    (baseRequest p (queryOf ps)).optional k x := by
  unfold Request.optional
  split
  · rename_i hx
    rw [hasKey_baseRequest p ps k hne]
    rintro ⟨kv, hkv, he⟩
    exact h2 hx kv hkv he
  · rename_i hx
    exact carries_baseRequest p ps k x (h1 hx)

theorem flag_of_pairs (p : GoString) (ps : List (GoString × GoString)) (k : GoString)
    (b : Bool) (h : (k, FormatBool b) ∈ ps) : (baseRequest p (queryOf ps)).flag k b := by
  unfold Request.flag
  have := carries_baseRequest p ps k (FormatBool b) h
  simpa [FormatBool] using this

theorem latestPairs_facts (c : Client) (r : latestParams) (p : GoString) :
    (baseRequest p (queryOf (latestPairs c r))).optional (bytes "base") r.baseCurrency ∧
    (baseRequest p (queryOf (latestPairs c r))).optional (bytes "symbols")
      r.destinationCurrencies ∧
    (baseRequest p (queryOf (latestPairs c r))).flag (bytes "prettyprint") r.prettyPrint ∧
    (baseRequest p (queryOf (latestPairs c r))).flag (bytes "show_alternative")
      r.showAlternative := by
  have hne : latestPairs c r ≠ [] := by simp [latestPairs]
  refine ⟨?_, ?_, ?_, ?_⟩
  · apply optional_of_pairs _ _ _ _ hne
    · intro hx; simp [latestPairs, hx]
    · intro hx kv hkv
      simp only [latestPairs, hx, ne_eq, not_true_eq_false, if_false, List.append_nil,
        List.mem_append, List.mem_cons, List.mem_singleton, List.not_mem_nil, or_false,
        List.nil_append] at hkv
      rcases hkv with (rfl | rfl | rfl) | hkv
      · dsimp only; decide
      · dsimp only; decide
      · dsimp only; decide
      · split at hkv
        · simp at hkv; subst hkv; dsimp only; decide
        · simp at hkv
  · apply optional_of_pairs _ _ _ _ hne
    · intro hx; simp [latestPairs, hx]
    · intro hx kv hkv
      simp only [latestPairs, hx, ne_eq, not_true_eq_false, if_false, List.append_nil,
        List.mem_append, List.mem_cons, List.mem_singleton, List.not_mem_nil, or_false,
        List.nil_append] at hkv
      rcases hkv with (rfl | hkv) | rfl | rfl
      · dsimp only; decide
      · split at hkv
        · simp at hkv; subst hkv; dsimp only; decide
        · simp at hkv
      · dsimp only; decide
      · dsimp only; decide
  · apply flag_of_pairs; simp [latestPairs]
  · apply flag_of_pairs; simp [latestPairs]

theorem historicalPairs_facts (c : Client) (r : historicalParams) (p : GoString) :
    (baseRequest p (queryOf (historicalPairs c r))).optional (bytes "base") r.baseCurrency ∧
    (baseRequest p (queryOf (historicalPairs c r))).optional (bytes "symbols")
      r.destinationCurrencies ∧
    (baseRequest p (queryOf (historicalPairs c r))).flag (bytes "prettyprint") r.prettyPrint ∧
    (baseRequest p (queryOf (historicalPairs c r))).flag (bytes "show_alternative")
      r.showAlternative := by
  have hne : historicalPairs c r ≠ [] := by simp [historicalPairs]
  refine ⟨?_, ?_, ?_, ?_⟩
  · apply optional_of_pairs _ _ _ _ hne
    · intro hx; simp [historicalPairs, hx]
    · intro hx kv hkv
      simp only [historicalPairs, hx, ne_eq, not_true_eq_false, if_false, List.append_nil,
        List.mem_append, List.mem_cons, List.mem_singleton, List.not_mem_nil, or_false,
        List.nil_append] at hkv
      rcases hkv with (rfl | rfl | rfl) | hkv
      · dsimp only; decide
      · dsimp only; decide
      · dsimp only; decide
      · split at hkv
        · simp at hkv; subst hkv; dsimp only; decide
        · simp at hkv
  · apply optional_of_pairs _ _ _ _ hne
    · intro hx; simp [historicalPairs, hx]
    · intro hx kv hkv
      simp only [historicalPairs, hx, ne_eq, not_true_eq_false, if_false, List.append_nil,
        List.mem_append, List.mem_cons, List.mem_singleton, List.not_mem_nil, or_false,
        List.nil_append] at hkv
      rcases hkv with (rfl | hkv) | rfl | rfl
      · dsimp only; decide
      · split at hkv
        · simp at hkv; subst hkv; dsimp only; decide
        · simp at hkv
      · dsimp only; decide
      · dsimp only; decide
  · apply flag_of_pairs; simp [historicalPairs]
  · apply flag_of_pairs; simp [historicalPairs]

theorem timeSeriesPairs_facts (c : Client) (r : timeSeriesParams) (p : GoString) :
    (baseRequest p (queryOf (timeSeriesPairs c r))).optional (bytes "base") r.baseCurrency ∧
    (baseRequest p (queryOf (timeSeriesPairs c r))).optional (bytes "symbols")
      r.destinationCurrencies ∧
    (baseRequest p (queryOf (timeSeriesPairs c r))).flag (bytes "prettyprint") r.prettyPrint ∧
    (baseRequest p (queryOf (timeSeriesPairs c r))).flag (bytes "show_alternative")
      r.showAlternative ∧
    (baseRequest p (queryOf (timeSeriesPairs c r))).carries (bytes "start")
      r.startDate.formatDate ∧
    (baseRequest p (queryOf (timeSeriesPairs c r))).carries (bytes "end")
      r.endDate.formatDate := by
  have hne : timeSeriesPairs c r ≠ [] := by simp [timeSeriesPairs]
  refine ⟨?_, ?_, ?_, ?_, ?_, ?_⟩
  · apply optional_of_pairs _ _ _ _ hne
    · intro hx; simp [timeSeriesPairs, hx]
    · intro hx kv hkv
      simp only [timeSeriesPairs, hx, ne_eq, not_true_eq_false, if_false, List.append_nil,
        List.mem_append, List.mem_cons, List.mem_singleton, List.not_mem_nil, or_false,
        List.nil_append] at hkv
      rcases hkv with (rfl | rfl | rfl | rfl | rfl) | hkv
      · dsimp only; decide
      · dsimp only; decide
      · dsimp only; decide
      · dsimp only; decide
      · dsimp only; decide
      · split at hkv
        · simp at hkv; subst hkv; dsimp only; decide
        · simp at hkv
  · apply optional_of_pairs _ _ _ _ hne
    · intro hx; simp [timeSeriesPairs, hx]
    · intro hx kv hkv
      simp only [timeSeriesPairs, hx, ne_eq, not_true_eq_false, if_false, List.append_nil,
        List.mem_append, List.mem_cons, List.mem_singleton, List.not_mem_nil, or_false,
        List.nil_append] at hkv
      rcases hkv with (rfl | hkv) | rfl | rfl | rfl | rfl
      · dsimp only; decide
      · split at hkv
        · simp at hkv; subst hkv; dsimp only; decide
        · simp at hkv
      · dsimp only; decide
      · dsimp only; decide
      · dsimp only; decide
      · dsimp only; decide
  · apply flag_of_pairs; simp [timeSeriesPairs]
  · apply flag_of_pairs; simp [timeSeriesPairs]
  · apply carries_baseRequest; simp [timeSeriesPairs]
  · apply carries_baseRequest; simp [timeSeriesPairs]

theorem ohlcPairs_facts (c : Client) (r : ohlcParams) (p : GoString) :
    (baseRequest p (queryOf (ohlcPairs c r))).optional (bytes "base") r.baseCurrency ∧
    (baseRequest p (queryOf (ohlcPairs c r))).optional (bytes "symbols")
      r.destinationCurrencies ∧
    (baseRequest p (queryOf (ohlcPairs c r))).flag (bytes "prettyprint") r.prettyPrint ∧
    (baseRequest p (queryOf (ohlcPairs c r))).carries (bytes "start_date")
      r.startTime.formatRFC3339 ∧
    (baseRequest p (queryOf (ohlcPairs c r))).carries (bytes "period")
      r.period := by
  have hne : ohlcPairs c r ≠ [] := by simp [ohlcPairs]
  refine ⟨?_, ?_, ?_, ?_, ?_⟩
  · apply optional_of_pairs _ _ _ _ hne
    · intro hx; simp [ohlcPairs, hx]
    · intro hx kv hkv
      simp only [ohlcPairs, hx, ne_eq, not_true_eq_false, if_false, List.append_nil,
        List.mem_append, List.mem_cons, List.mem_singleton, List.not_mem_nil, or_false,
        List.nil_append] at hkv
      rcases hkv with (rfl | rfl | rfl | rfl) | hkv
      · dsimp only; decide
      · dsimp only; decide
      · dsimp only; decide
      · dsimp only; decide
      · split at hkv
        · simp at hkv; subst hkv; dsimp only; decide
        · simp at hkv
  · apply optional_of_pairs _ _ _ _ hne
    · intro hx; simp [ohlcPairs, hx]
    · intro hx kv hkv
      simp only [ohlcPairs, hx, ne_eq, not_true_eq_false, if_false, List.append_nil,
        List.mem_append, List.mem_cons, List.mem_singleton, List.not_mem_nil, or_false,
        List.nil_append] at hkv
      rcases hkv with (rfl | hkv) | rfl | rfl | rfl
      · dsimp only; decide
      · split at hkv
        · simp at hkv; subst hkv; dsimp only; decide
        · simp at hkv
      · dsimp only; decide
      · dsimp only; decide
      · dsimp only; decide
  · apply flag_of_pairs; simp [ohlcPairs]
  · apply carries_baseRequest; simp [ohlcPairs, period.String]
  · apply carries_baseRequest; simp [ohlcPairs, period.String]

theorem currenciesPairs_facts (c : Client) (r : currenciesParams) (p : GoString) :
    (baseRequest p (queryOf (currenciesPairs c r))).flag (bytes "show_inactive") r.showInactive ∧
    (baseRequest p (queryOf (currenciesPairs c r))).flag (bytes "prettyprint") r.prettyPrint ∧
    (baseRequest p (queryOf (currenciesPairs c r))).flag (bytes "show_alternative")
      r.showAlternative := by
  refine ⟨?_, ?_, ?_⟩
  · apply flag_of_pairs; simp [currenciesPairs]
  · apply flag_of_pairs; simp [currenciesPairs]
  · apply flag_of_pairs; simp [currenciesPairs]

theorem FormatBool_eq (b : Bool) :
    FormatBool b = if b then bytes "true" else bytes "false" := by
  cases b <;> rfl

/-! ## The last option that sets a field decides it -/

theorem latest_baseCurrency_last (opts : List LatestOption) :
    (latestParamsOf opts).baseCurrency = (lastSet LatestOption.setsBaseCurrency opts).getD [] :=
  foldl_field LatestOption.apply (fun p => p.baseCurrency) LatestOption.setsBaseCurrency
    (fun o p => by cases o <;> rfl) opts {}

theorem latest_destinationCurrencies_last (opts : List LatestOption) :
    (latestParamsOf opts).destinationCurrencies =
      (lastSet LatestOption.setsDestinationCurrencies opts).getD [] :=
  foldl_field LatestOption.apply (fun p => p.destinationCurrencies)
    LatestOption.setsDestinationCurrencies
    (fun o p => by cases o <;> rfl) opts {}

theorem latest_showAlternative_last (opts : List LatestOption) :
    (latestParamsOf opts).showAlternative =
      (lastSet LatestOption.setsShowAlternative opts).getD false :=
  foldl_field LatestOption.apply (fun p => p.showAlternative) LatestOption.setsShowAlternative
    (fun o p => by cases o <;> rfl) opts {}

theorem latest_prettyPrint_last (opts : List LatestOption) :
    (latestParamsOf opts).prettyPrint = (lastSet LatestOption.setsPrettyPrint opts).getD false :=
  foldl_field LatestOption.apply (fun p => p.prettyPrint) LatestOption.setsPrettyPrint
    (fun o p => by cases o <;> rfl) opts {}

theorem historical_date_last (opts : List HistoricalOption) :
    (historicalParamsOf opts).date = (lastSet HistoricalOption.setsDate opts).getD Time.zero :=
  foldl_field HistoricalOption.apply (fun p => p.date) HistoricalOption.setsDate
    (fun o p => by cases o <;> rfl) opts {}

theorem historical_baseCurrency_last (opts : List HistoricalOption) :
    (historicalParamsOf opts).baseCurrency =
      (lastSet HistoricalOption.setsBaseCurrency opts).getD [] :=
  foldl_field HistoricalOption.apply (fun p => p.baseCurrency) HistoricalOption.setsBaseCurrency
    (fun o p => by cases o <;> rfl) opts {}

theorem historical_destinationCurrencies_last (opts : List HistoricalOption) :
    (historicalParamsOf opts).destinationCurrencies =
      (lastSet HistoricalOption.setsDestinationCurrencies opts).getD [] :=
  foldl_field HistoricalOption.apply (fun p => p.destinationCurrencies)
    HistoricalOption.setsDestinationCurrencies
    (fun o p => by cases o <;> rfl) opts {}

theorem historical_showAlternative_last (opts : List HistoricalOption) :
    (historicalParamsOf opts).showAlternative =
      (lastSet HistoricalOption.setsShowAlternative opts).getD false :=
  foldl_field HistoricalOption.apply (fun p => p.showAlternative)
    HistoricalOption.setsShowAlternative
    (fun o p => by cases o <;> rfl) opts {}

theorem historical_prettyPrint_last (opts : List HistoricalOption) :
    (historicalParamsOf opts).prettyPrint =
      (lastSet HistoricalOption.setsPrettyPrint opts).getD false :=
  foldl_field HistoricalOption.apply (fun p => p.prettyPrint) HistoricalOption.setsPrettyPrint
    (fun o p => by cases o <;> rfl) opts {}

theorem currencies_showAlternative_last (opts : List CurrenciesOption) :
    (currenciesParamsOf opts).showAlternative =
      (lastSet CurrenciesOption.setsShowAlternative opts).getD false :=
  foldl_field CurrenciesOption.apply (fun p => p.showAlternative)
    CurrenciesOption.setsShowAlternative
    (fun o p => by cases o <;> rfl) opts {}

theorem currencies_showInactive_last (opts : List CurrenciesOption) :
    (currenciesParamsOf opts).showInactive =
      (lastSet CurrenciesOption.setsShowInactive opts).getD false :=
  foldl_field CurrenciesOption.apply (fun p => p.showInactive) CurrenciesOption.setsShowInactive
    (fun o p => by cases o <;> rfl) opts {}

theorem currencies_prettyPrint_last (opts : List CurrenciesOption) :
    (currenciesParamsOf opts).prettyPrint =
      (lastSet CurrenciesOption.setsPrettyPrint opts).getD false :=
  foldl_field CurrenciesOption.apply (fun p => p.prettyPrint) CurrenciesOption.setsPrettyPrint
    (fun o p => by cases o <;> rfl) opts {}

theorem timeSeries_startDate_last (opts : List TimeSeriesOption) :
    (timeSeriesParamsOf opts).startDate =
      (lastSet TimeSeriesOption.setsStartDate opts).getD Time.zero :=
  foldl_field TimeSeriesOption.apply (fun p => p.startDate) TimeSeriesOption.setsStartDate
    (fun o p => by cases o <;> rfl) opts {}

theorem timeSeries_endDate_last (opts : List TimeSeriesOption) :
    (timeSeriesParamsOf opts).endDate =
      (lastSet TimeSeriesOption.setsEndDate opts).getD Time.zero :=
  foldl_field TimeSeriesOption.apply (fun p => p.endDate) TimeSeriesOption.setsEndDate
    (fun o p => by cases o <;> rfl) opts {}

theorem timeSeries_baseCurrency_last (opts : List TimeSeriesOption) :
    (timeSeriesParamsOf opts).baseCurrency =
      (lastSet TimeSeriesOption.setsBaseCurrency opts).getD [] :=
  foldl_field TimeSeriesOption.apply (fun p => p.baseCurrency) TimeSeriesOption.setsBaseCurrency
    (fun o p => by cases o <;> rfl) opts {}

theorem timeSeries_destinationCurrencies_last (opts : List TimeSeriesOption) :
    (timeSeriesParamsOf opts).destinationCurrencies =
      (lastSet TimeSeriesOption.setsDestinationCurrencies opts).getD [] :=
  foldl_field TimeSeriesOption.apply (fun p => p.destinationCurrencies)
    TimeSeriesOption.setsDestinationCurrencies
    (fun o p => by cases o <;> rfl) opts {}

theorem timeSeries_showAlternative_last (opts : List TimeSeriesOption) :
    (timeSeriesParamsOf opts).showAlternative =
      (lastSet TimeSeriesOption.setsShowAlternative opts).getD false :=
  foldl_field TimeSeriesOption.apply (fun p => p.showAlternative)
    TimeSeriesOption.setsShowAlternative
    (fun o p => by cases o <;> rfl) opts {}

theorem timeSeries_prettyPrint_last (opts : List TimeSeriesOption) :
    (timeSeriesParamsOf opts).prettyPrint =
      (lastSet TimeSeriesOption.setsPrettyPrint opts).getD false :=
  foldl_field TimeSeriesOption.apply (fun p => p.prettyPrint) TimeSeriesOption.setsPrettyPrint
    (fun o p => by cases o <;> rfl) opts {}

theorem convert_value_last (opts : List ConvertOption) :
    (convertParamsOf opts).value = (lastSet ConvertOption.setsValue opts).getD Float64.zero :=
  foldl_field ConvertOption.apply (fun p => p.value) ConvertOption.setsValue
    (fun o p => by cases o <;> rfl) opts {}

theorem convert_baseCurrency_last (opts : List ConvertOption) :
    (convertParamsOf opts).baseCurrency = (lastSet ConvertOption.setsBaseCurrency opts).getD [] :=
  foldl_field ConvertOption.apply (fun p => p.baseCurrency) ConvertOption.setsBaseCurrency
    (fun o p => by cases o <;> rfl) opts {}

theorem convert_destinationCurrency_last (opts : List ConvertOption) :
    (convertParamsOf opts).destinationCurrency =
      (lastSet ConvertOption.setsDestinationCurrency opts).getD [] :=
  foldl_field ConvertOption.apply (fun p => p.destinationCurrency)
    ConvertOption.setsDestinationCurrency
    (fun o p => by cases o <;> rfl) opts {}

theorem convert_prettyPrint_last (opts : List ConvertOption) :
    (convertParamsOf opts).prettyPrint = (lastSet ConvertOption.setsPrettyPrint opts).getD false :=
  foldl_field ConvertOption.apply (fun p => p.prettyPrint) ConvertOption.setsPrettyPrint
    (fun o p => by cases o <;> rfl) opts {}

theorem ohlc_startTime_last (opts : List OHLCOption) :
    (ohlcParamsOf opts).startTime = (lastSet OHLCOption.setsStartTime opts).getD Time.zero :=
  foldl_field OHLCOption.apply (fun p => p.startTime) OHLCOption.setsStartTime
    (fun o p => by cases o <;> rfl) opts {}

theorem ohlc_period_last (opts : List OHLCOption) :
    (ohlcParamsOf opts).period = (lastSet OHLCOption.setsPeriod opts).getD [] :=
  foldl_field OHLCOption.apply (fun p => p.period) OHLCOption.setsPeriod
    (fun o p => by cases o <;> rfl) opts {}

theorem ohlc_baseCurrency_last (opts : List OHLCOption) :
    (ohlcParamsOf opts).baseCurrency = (lastSet OHLCOption.setsBaseCurrency opts).getD [] :=
  foldl_field OHLCOption.apply (fun p => p.baseCurrency) OHLCOption.setsBaseCurrency
    (fun o p => by cases o <;> rfl) opts {}

theorem ohlc_destinationCurrencies_last (opts : List OHLCOption) :
    (ohlcParamsOf opts).destinationCurrencies =
      (lastSet OHLCOption.setsDestinationCurrencies opts).getD [] :=
  foldl_field OHLCOption.apply (fun p => p.destinationCurrencies)
    OHLCOption.setsDestinationCurrencies
    (fun o p => by cases o <;> rfl) opts {}

theorem ohlc_prettyPrint_last (opts : List OHLCOption) :
    (ohlcParamsOf opts).prettyPrint = (lastSet OHLCOption.setsPrettyPrint opts).getD false :=
  foldl_field OHLCOption.apply (fun p => p.prettyPrint) OHLCOption.setsPrettyPrint
    (fun o p => by cases o <;> rfl) opts {}

theorem usage_prettyPrint_last (opts : List UsageOption) :
    (usageParamsOf opts).prettyPrint = (lastSet UsageOption.setsPrettyPrint opts).getD false :=
  foldl_field UsageOption.apply (fun p => p.prettyPrint) UsageOption.setsPrettyPrint
    (fun o p => by cases o; rfl) opts {}

theorem latest_prettyPrint_unset (opts : List LatestOption)
    (h : ∀ o ∈ opts, LatestOption.setsPrettyPrint o = none) :
    (latestParamsOf opts).prettyPrint = false := by
  rw [latest_prettyPrint_last, lastSet_eq_none _ _ h]
  rfl

theorem historical_prettyPrint_unset (opts : List HistoricalOption)
    (h : ∀ o ∈ opts, HistoricalOption.setsPrettyPrint o = none) :
    (historicalParamsOf opts).prettyPrint = false := by
  rw [historical_prettyPrint_last, lastSet_eq_none _ _ h]
  rfl

theorem currencies_prettyPrint_unset (opts : List CurrenciesOption)
    (h : ∀ o ∈ opts, CurrenciesOption.setsPrettyPrint o = none) :
    (currenciesParamsOf opts).prettyPrint = false := by
  rw [currencies_prettyPrint_last, lastSet_eq_none _ _ h]
  rfl

theorem timeSeries_prettyPrint_unset (opts : List TimeSeriesOption)
    (h : ∀ o ∈ opts, TimeSeriesOption.setsPrettyPrint o = none) :
    (timeSeriesParamsOf opts).prettyPrint = false := by
  rw [timeSeries_prettyPrint_last, lastSet_eq_none _ _ h]
  rfl

theorem convert_prettyPrint_unset (opts : List ConvertOption)
    (h : ∀ o ∈ opts, ConvertOption.setsPrettyPrint o = none) :
    (convertParamsOf opts).prettyPrint = false := by
  rw [convert_prettyPrint_last, lastSet_eq_none _ _ h]
  rfl

theorem ohlc_prettyPrint_unset (opts : List OHLCOption)
    (h : ∀ o ∈ opts, OHLCOption.setsPrettyPrint o = none) :
    (ohlcParamsOf opts).prettyPrint = false := by
  rw [ohlc_prettyPrint_last, lastSet_eq_none _ _ h]
  rfl

theorem usage_prettyPrint_unset (opts : List UsageOption)
    (h : ∀ o ∈ opts, UsageOption.setsPrettyPrint o = none) :
    (usageParamsOf opts).prettyPrint = false := by
  rw [usage_prettyPrint_last, lastSet_eq_none _ _ h]
  rfl

theorem queryOf_key_and_flag (k : GoString) (b : Bool) :
    queryOf [(bytes "app_id", k), (bytes "prettyprint", FormatBool b)] =
      bytes "app_id=" ++ QueryEscape k ++ bytes "&prettyprint=" ++
        (if b then bytes "true" else bytes "false") := by
  have h1 : QueryEscape (bytes "app_id") = bytes "app_id" := rfl
  have h2 : QueryEscape (bytes "prettyprint") = bytes "prettyprint" := rfl
  have h3 : ∀ s : GoString, bytes "app_id" ++ 61 :: s = bytes "app_id=" ++ s := fun _ => rfl
  have h4 : ∀ s : GoString, 38 :: (bytes "prettyprint" ++ 61 :: s) = bytes "&prettyprint=" ++ s :=
    fun _ => rfl
  cases b
  · have h5 : QueryEscape (FormatBool false) = bytes "false" := rfl
    simp only [queryOf, piece, List.map, joinAmp, h1, h2, h3, h4, h5, List.append_assoc]
    rfl
  · have h5 : QueryEscape (FormatBool true) = bytes "true" := rfl
    simp only [queryOf, piece, List.map, joinAmp, h1, h2, h3, h4, h5, List.append_assoc]
    rfl

theorem appendInt_two (n : Nat) (h : n < 100) :
    appendInt (n : Int) 2 = [48 + n / 10, 48 + n % 10] := by
  have h0 : ¬ ((n : Int) < 0) := by omega
  simp [appendInt, h0, h]

theorem appendInt_four (x : Int) (h0 : 0 ≤ x) (h : x ≤ 9999) :
    appendInt x 4 =
      [48 + x.toNat / 1000, 48 + x.toNat / 100 % 10, 48 + x.toNat / 10 % 10, 48 + x.toNat % 10] := by
  have hn : ¬ (x < 0) := by omega
  have ha : x.natAbs = x.toNat := by omega
  have hl : x.toNat < 10000 := by omega
  simp [appendInt, hn, ha, hl]

theorem formatDate_digits (t : Time) (hv : t.valid) (h0 : 0 ≤ t.year) (h : t.year ≤ 9999) :
    t.formatDate =
      [48 + t.year.toNat / 1000, 48 + t.year.toNat / 100 % 10, 48 + t.year.toNat / 10 % 10,
        48 + t.year.toNat % 10, 45, 48 + t.month / 10, 48 + t.month % 10, 45,
        48 + t.day / 10, 48 + t.day % 10] := by
  obtain ⟨_, hm, _, hd, _⟩ := hv
  simp [Time.formatDate, appendInt_four t.year h0 h, appendInt_two t.month (by omega),
    appendInt_two t.day (by omega)]

theorem piece_ne_nil (k x : GoString) : piece k x ≠ [] := by
  simp [piece]

theorem queryOf_ne_nil (ps : List (GoString × GoString)) (h : ps ≠ []) : queryOf ps ≠ [] := by
  cases ps with
  | nil => exact absurd rfl h
  | cons kv rest =>
    cases rest with
    | nil => simpa [queryOf, joinAmp] using piece_ne_nil kv.1 kv.2
    | cons kv2 rest2 => simp [queryOf, joinAmp]

theorem historicalPairs_ne_nil (c : Client) (r : historicalParams) :
    historicalPairs c r ≠ [] := by
  simp [historicalPairs]

theorem QueryEscape_append (a b : GoString) :
    QueryEscape (a ++ b) = QueryEscape a ++ QueryEscape b :=
  escape_append a b _

theorem QueryEscape_cons (c : Nat) (s : GoString) :
    QueryEscape (c :: s) = QueryEscape [c] ++ QueryEscape s :=
  QueryEscape_append [c] s

theorem QueryEscape_dateBytes (s : GoString) (h : ∀ c ∈ s, isDateByte c) : QueryEscape s = s :=
  QueryEscape_of_kept s (fun c hc => queryKept_of_dateByte c (h c hc))

theorem piece_start (s : GoString) (h : ∀ c ∈ s, isDateByte c) :
    piece (bytes "start") s = bytes "start=" ++ s := by
  rw [piece, QueryEscape_dateBytes s h]
  rfl

theorem piece_end (s : GoString) (h : ∀ c ∈ s, isDateByte c) :
    piece (bytes "end") s = bytes "end=" ++ s := by
  rw [piece, QueryEscape_dateBytes s h]
  rfl

theorem QueryEscape_period : ∀ p ∈ periods, QueryEscape p = p := by decide

theorem formatRFC3339_utc (t : Time) (h : t.offset = 0) :
    t.formatRFC3339 =
      t.formatDate ++ bytes "T" ++ appendInt t.hour 2 ++ bytes ":" ++ appendInt t.minute 2 ++
        bytes ":" ++ appendInt t.second 2 ++ bytes "Z" := by
  simp [Time.formatRFC3339, formatZone, h, bytes, List.append_assoc]

theorem QueryEscape_formatRFC3339_utc (t : Time) (h : t.offset = 0) :
    QueryEscape t.formatRFC3339 =
      t.formatDate ++ bytes "T" ++ appendInt t.hour 2 ++ bytes "%3A" ++ appendInt t.minute 2 ++
        bytes "%3A" ++ appendInt t.second 2 ++ bytes "Z" := by
  have hT : QueryEscape (bytes "T") = bytes "T" := rfl
  have hC : QueryEscape (bytes ":") = bytes "%3A" := rfl
  have hZ : QueryEscape (bytes "Z") = bytes "Z" := rfl
  rw [formatRFC3339_utc t h]
  simp only [QueryEscape_append, hT, hC, hZ, QueryEscape_formatDate,
    QueryEscape_dateBytes _ (appendInt_dateBytes _ 2)]

theorem foldl_digits (s : GoString) (a : Nat) :
    s.foldl (fun a c => 10 * a + (c - 48)) a = a * 10 ^ s.length + digitsValue s := by
  induction s generalizing a with
  | nil => simp [digitsValue]
  | cons c rest ih =>
    simp only [List.foldl_cons, List.length_cons, digitsValue]
    rw [ih, ih (10 * 0 + (c - 48))]
    ring

theorem digitsValue_cons (c : Nat) (s : GoString) :
    digitsValue (c :: s) = (c - 48) * 10 ^ s.length + digitsValue s := by
  simp only [digitsValue, List.foldl_cons]
  rw [foldl_digits]
  simp [digitsValue]

theorem natDigitsAux_value (fuel n : Nat) (acc : GoString) (h : n < fuel) :
    digitsValue (natDigitsAux fuel n acc) = n * 10 ^ acc.length + digitsValue acc := by
  induction fuel generalizing n acc with
  | zero => omega
  | succ f ih =>
    unfold natDigitsAux
    split
    · rename_i h0
      rw [digitsValue_cons]
      have : n % 10 = n := by omega
      simp [this]
    · rename_i h0
      rw [ih (n / 10) _ (by omega), digitsValue_cons]
      simp only [List.length_cons, Nat.add_sub_cancel_left]
      have hn : n = 10 * (n / 10) + n % 10 := by omega
      conv_rhs => rw [hn]
      ring

theorem natDigits_value (n : Nat) : digitsValue (natDigits n) = n := by
  rw [natDigits, natDigitsAux_value _ _ _ (by omega)]
  simp [digitsValue]

theorem fmtInt_value (x : Int) : intValue (fmtInt x) = x := by
  unfold fmtInt
  split
  · simp only [intValue, natDigits_value, if_true]
    omega
  · have hd := natDigits_digits x.natAbs
    have hv := natDigits_value x.natAbs
    cases hs : natDigits x.natAbs with
    | nil =>
      rw [hs] at hv
      simp only [intValue]
      simp [digitsValue] at hv
      omega
    | cons c rest =>
      rw [hs] at hv hd
      have hc : c ≠ 45 := by
        have := hd c (by simp)
        omega
      simp only [intValue, hc, if_false, hv]
      omega

/-! ## The values of a key in a query written by `queryOf` -/

theorem values_baseRequest (p : GoString) (ps : List (GoString × GoString)) (k : GoString)
    (hne : ps ≠ []) :
    (baseRequest p (queryOf ps)).values k =
      ps.filterMap fun kv =>
        if QueryEscape kv.1 = QueryEscape k then some (QueryEscape kv.2) else none := by
  simp only [Request.values, baseRequest]
  rw [splitOn_queryOf ps hne, List.filterMap_map]
  congr 1
  funext kv
  simp [cut_piece]

theorem QueryEscape_key_app_id :
    QueryEscape (bytes "app_id") = [97, 112, 112, 95, 105, 100] := by decide

theorem QueryEscape_key_base : QueryEscape (bytes "base") = [98, 97, 115, 101] := by decide

theorem QueryEscape_key_prettyprint :
    QueryEscape (bytes "prettyprint") =
      [112, 114, 101, 116, 116, 121, 112, 114, 105, 110, 116] := by decide

theorem QueryEscape_key_show_alternative :
    QueryEscape (bytes "show_alternative") =
      [115, 104, 111, 119, 95, 97, 108, 116, 101, 114, 110, 97, 116, 105, 118, 101] := by
  decide

theorem QueryEscape_key_symbols :
    QueryEscape (bytes "symbols") = [115, 121, 109, 98, 111, 108, 115] := by decide

theorem QueryEscape_key_start : QueryEscape (bytes "start") = [115, 116, 97, 114, 116] := by
  decide

theorem QueryEscape_key_end : QueryEscape (bytes "end") = [101, 110, 100] := by decide

theorem QueryEscape_key_period :
    QueryEscape (bytes "period") = [112, 101, 114, 105, 111, 100] := by decide

theorem QueryEscape_key_start_date :
    QueryEscape (bytes "start_date") = [115, 116, 97, 114, 116, 95, 100, 97, 116, 101] := by
  decide

theorem latest_values (c : Client) (r : latestParams) (p : GoString) :
    (baseRequest p (queryOf (latestPairs c r))).values (bytes "base") =
      (if r.baseCurrency = [] then [] else [QueryEscape r.baseCurrency]) ∧
    (baseRequest p (queryOf (latestPairs c r))).values (bytes "symbols") =
      (if r.destinationCurrencies = [] then [] else [QueryEscape r.destinationCurrencies]) := by
  have hne : latestPairs c r ≠ [] := by simp [latestPairs]
  rw [values_baseRequest _ _ _ hne, values_baseRequest _ _ _ hne]
  by_cases hb : r.baseCurrency = [] <;> by_cases hs : r.destinationCurrencies = [] <;>
    simp [latestPairs, hb, hs, QueryEscape_key_app_id, QueryEscape_key_base,
      QueryEscape_key_prettyprint, QueryEscape_key_show_alternative, QueryEscape_key_symbols]

theorem historical_values (c : Client) (r : historicalParams) (p : GoString) :
    (baseRequest p (queryOf (historicalPairs c r))).values (bytes "base") =
      (if r.baseCurrency = [] then [] else [QueryEscape r.baseCurrency]) ∧
    (baseRequest p (queryOf (historicalPairs c r))).values (bytes "symbols") =
      (if r.destinationCurrencies = [] then [] else [QueryEscape r.destinationCurrencies]) := by
  have hne : historicalPairs c r ≠ [] := by simp [historicalPairs]
  rw [values_baseRequest _ _ _ hne, values_baseRequest _ _ _ hne]
  by_cases hb : r.baseCurrency = [] <;> by_cases hs : r.destinationCurrencies = [] <;>
    simp [historicalPairs, hb, hs, QueryEscape_key_app_id, QueryEscape_key_base,
      QueryEscape_key_prettyprint, QueryEscape_key_show_alternative, QueryEscape_key_symbols]

theorem timeSeries_values (c : Client) (r : timeSeriesParams) (p : GoString) :
    (baseRequest p (queryOf (timeSeriesPairs c r))).values (bytes "base") =
      (if r.baseCurrency = [] then [] else [QueryEscape r.baseCurrency]) ∧
    (baseRequest p (queryOf (timeSeriesPairs c r))).values (bytes "symbols") =
      (if r.destinationCurrencies = [] then [] else [QueryEscape r.destinationCurrencies]) := by
  have hne : timeSeriesPairs c r ≠ [] := by simp [timeSeriesPairs]
  rw [values_baseRequest _ _ _ hne, values_baseRequest _ _ _ hne]
  by_cases hb : r.baseCurrency = [] <;> by_cases hs : r.destinationCurrencies = [] <;>
    simp [timeSeriesPairs, hb, hs, QueryEscape_key_app_id, QueryEscape_key_base,
      QueryEscape_key_prettyprint, QueryEscape_key_show_alternative, QueryEscape_key_symbols,
      QueryEscape_key_start, QueryEscape_key_end]

theorem ohlc_values (c : Client) (r : ohlcParams) (p : GoString) :
    (baseRequest p (queryOf (ohlcPairs c r))).values (bytes "base") =
      (if r.baseCurrency = [] then [] else [QueryEscape r.baseCurrency]) ∧
    (baseRequest p (queryOf (ohlcPairs c r))).values (bytes "symbols") =
      (if r.destinationCurrencies = [] then [] else [QueryEscape r.destinationCurrencies]) ∧
    (baseRequest p (queryOf (ohlcPairs c r))).values (bytes "period") =
      [QueryEscape r.period] := by
  have hne : ohlcPairs c r ≠ [] := by simp [ohlcPairs]
  rw [values_baseRequest _ _ _ hne, values_baseRequest _ _ _ hne, values_baseRequest _ _ _ hne]
  by_cases hb : r.baseCurrency = [] <;> by_cases hs : r.destinationCurrencies = [] <;>
    simp [ohlcPairs, hb, hs, period.String, QueryEscape_key_app_id, QueryEscape_key_base,
      QueryEscape_key_prettyprint, QueryEscape_key_symbols, QueryEscape_key_period,
      QueryEscape_key_start_date]

/-! ## The request a call under `basePath` hands to the transport -/

theorem NewRequestWithContext_nil (url : GoString) :
    NewRequestWithContext .nil url = .error errNilContext := rfl

theorem latest_sent_eq (c : Client) (hc : c.baseURL = basePath)
    (json : Decoder LatestRatesResponse) (ctx : Context) (opts : List LatestOption)
    (req : Request) (h : (c.Latest json ctx opts).sent = some req) :
    req = baseRequest (bytes "latest.json") (queryOf (latestPairs c (latestParamsOf opts))) := by
  have hb := sent_finish_some _ _ _ _ req h
  cases ctx with
  | nil => simp [Client.latestRequest, NewRequestWithContext] at hb
  | live =>
    rw [latestRequest_eq c hc opts] at hb
    injection hb with hb
    exact hb.symm

theorem historical_sent_eq (c : Client) (hc : c.baseURL = basePath)
    (json : Decoder HistoricalRatesResponse) (ctx : Context) (opts : List HistoricalOption)
    (req : Request) (h : (c.Historical json ctx opts).sent = some req) :
    req = baseRequest (historicalPath (historicalParamsOf opts))
      (queryOf (historicalPairs c (historicalParamsOf opts))) := by
  have hb := sent_finish_some _ _ _ _ req h
  cases ctx with
  | nil => simp [Client.historicalRequest, NewRequestWithContext] at hb
  | live =>
    rw [historicalRequest_eq c hc opts] at hb
    injection hb with hb
    exact hb.symm

theorem currencies_sent_eq (c : Client) (hc : c.baseURL = basePath)
    (json : Decoder (GoMap GoString)) (ctx : Context) (opts : List CurrenciesOption)
    (req : Request) (h : (c.Currencies json ctx opts).sent = some req) :
    req = baseRequest (bytes "currencies.json")
      (queryOf (currenciesPairs c (currenciesParamsOf opts))) := by
  have hb := sent_finish_some _ _ _ _ req h
  cases ctx with
  | nil => simp [Client.currenciesRequest, NewRequestWithContext] at hb
  | live =>
    rw [currenciesRequest_eq c hc opts] at hb
    injection hb with hb
    exact hb.symm

theorem timeSeries_sent_eq (c : Client) (hc : c.baseURL = basePath)
    (json : Decoder TimeSeriesResponse) (ctx : Context) (opts : List TimeSeriesOption)
    (req : Request) (h : (c.TimeSeries json ctx opts).sent = some req) :
    req = baseRequest (bytes "time-series.json")
      (queryOf (timeSeriesPairs c (timeSeriesParamsOf opts))) := by
  have hb := sent_finish_some _ _ _ _ req h
  cases ctx with
  | nil => simp [Client.timeSeriesRequest, NewRequestWithContext] at hb
  | live =>
    rw [timeSeriesRequest_eq c hc opts] at hb
    injection hb with hb
    exact hb.symm

theorem ohlc_sent_eq (c : Client) (hc : c.baseURL = basePath)
    (json : Decoder OHLCResponse) (ctx : Context) (opts : List OHLCOption)
    (req : Request) (h : (c.OpenHighLowClose json ctx opts).sent = some req) :
    req = baseRequest (bytes "ohlc.json") (queryOf (ohlcPairs c (ohlcParamsOf opts))) := by
  have hb := sent_finish_some _ _ _ _ req h
  cases ctx with
  | nil => simp [Client.ohlcRequest, NewRequestWithContext] at hb
  | live =>
    rw [ohlcRequest_eq c hc opts] at hb
    injection hb with hb
    exact hb.symm

/-! ## Parameters sent only when set -/

theorem hasKey_of_carries (req : Request) (k x : GoString) (h : req.carries k x) :
    req.hasKey k :=
  ⟨piece k x, h, by rw [cut_piece]⟩

theorem single_of (req : Request) (k x : GoString) (ho : req.optional k x)
    (hv : req.values k = if x = [] then [] else [QueryEscape x]) : req.single k x := by
  unfold Request.single
  unfold Request.optional at ho
  by_cases hx : x = []
  · rw [if_pos hx] at ho hv ⊢
    exact ⟨ho, hv⟩
  · rw [if_neg hx] at ho hv ⊢
    exact ⟨ho, hv⟩

theorem hasKey_iff_of_single (req : Request) (k x : GoString) (h : req.single k x) :
    req.hasKey k ↔ x ≠ [] := by
  unfold Request.single at h
  by_cases hx : x = []
  · rw [if_pos hx] at h
    exact ⟨fun hk => absurd hk h.1, fun hne => absurd hx hne⟩
  · rw [if_neg hx] at h
    exact ⟨fun _ => hx, fun _ => hasKey_of_carries req k x h.1⟩

theorem joinComma_eq_nil (l : List GoString) : joinComma l = [] ↔ l = [] ∨ l = [[]] := by
  match l with
  | [] => simp [joinComma]
  | [a] => simp [joinComma]
  | a :: b :: rest => simp [joinComma]

theorem getD_eq_nil_of_none {O : Type} (sets : O → Option GoString) (opts : List O)
    (h : ∀ o ∈ opts, sets o = none) : (lastSet sets opts).getD [] = [] := by
  rw [lastSet_eq_none sets opts h]
  rfl

theorem latest_single (c : Client) (r : latestParams) (p : GoString) :
    (baseRequest p (queryOf (latestPairs c r))).single (bytes "base") r.baseCurrency ∧
    (baseRequest p (queryOf (latestPairs c r))).single (bytes "symbols")
      r.destinationCurrencies :=
  ⟨single_of _ _ _ (latestPairs_facts c r p).1 (latest_values c r p).1,
    single_of _ _ _ (latestPairs_facts c r p).2.1 (latest_values c r p).2⟩

theorem historical_single (c : Client) (r : historicalParams) (p : GoString) :
    (baseRequest p (queryOf (historicalPairs c r))).single (bytes "base") r.baseCurrency ∧
    (baseRequest p (queryOf (historicalPairs c r))).single (bytes "symbols")
      r.destinationCurrencies :=
  ⟨single_of _ _ _ (historicalPairs_facts c r p).1 (historical_values c r p).1,
    single_of _ _ _ (historicalPairs_facts c r p).2.1 (historical_values c r p).2⟩

theorem timeSeries_single (c : Client) (r : timeSeriesParams) (p : GoString) :
    (baseRequest p (queryOf (timeSeriesPairs c r))).single (bytes "base") r.baseCurrency ∧
    (baseRequest p (queryOf (timeSeriesPairs c r))).single (bytes "symbols")
      r.destinationCurrencies :=
  ⟨single_of _ _ _ (timeSeriesPairs_facts c r p).1 (timeSeries_values c r p).1,
    single_of _ _ _ (timeSeriesPairs_facts c r p).2.1 (timeSeries_values c r p).2⟩

theorem ohlc_single (c : Client) (r : ohlcParams) (p : GoString) :
    (baseRequest p (queryOf (ohlcPairs c r))).single (bytes "base") r.baseCurrency ∧
    (baseRequest p (queryOf (ohlcPairs c r))).single (bytes "symbols")
      r.destinationCurrencies :=
  ⟨single_of _ _ _ (ohlcPairs_facts c r p).1 (ohlc_values c r p).1,
    single_of _ _ _ (ohlcPairs_facts c r p).2.1 (ohlc_values c r p).2.1⟩

/-! ## Decode failures, zero results, closing, and the number of calls -/

theorem exchange_decode_failed {α : Type} (d : Doer) (req : Request) (zero : α)
    (decode : Body → α × Option GoError) (body : Body) (part : α) (e : GoError)
    (h : d.Do req = (some ⟨200, some body⟩, none)) (hdec : decode body = (part, some e)) :
    exchange (some d) req zero decode =
      ⟨[.Do req, .Decode, .Close], .returned zero (some e)⟩ := by
  simp [exchange, h, StatusOK, hdec]

theorem decodeFailure_not_bad_response (id : Nat) (text : GoString) :
    errorsIs (decodeFailure id text) ErrBadResponse = false := by
  simp [decodeFailure, ErrBadResponse, errorsIs]

theorem exchange_error_zero {α : Type} (doer : Option Doer) (req : Request) (zero : α)
    (decode : Body → α × Option GoError) (v : α) (e : GoError)
    (h : (exchange doer req zero decode).outcome = .returned v (some e)) : v = zero := by
  unfold exchange at h
  split at h
  · simp at h
  · split at h
    · simp at h
    · split at h
      · simp at h
      · split at h
        · simp at h; exact h.1.symm
        · split at h
          · simp at h; exact h.1.symm
          · split at h
            · simp at h; exact h.1.symm
            · simp at h

theorem finish_error_zero {α : Type} (built : Except GoError Request) (doer : Option Doer)
    (zero : α) (decode : Body → α × Option GoError) (v : α) (e : GoError)
    (h : (finish built doer zero decode).outcome = .returned v (some e)) : v = zero := by
  cases built with
  | error err => simp [finish] at h; exact h.1.symm
  | ok req => exact exchange_error_zero doer req zero decode v e h

theorem exchange_closed {α : Type} (doer : Option Doer) (req : Request) (zero : α)
    (decode : Body → α × Option GoError)
    (h : (exchange doer req zero decode).returns) :
    (exchange doer req zero decode).closed ∧
      (exchange doer req zero decode).calls = [req] := by
  unfold exchange at h ⊢
  split
  · simp [exchange, Run.returns] at h
  · rename_i d
    split
    · rename_i hdo
      simp [Run.returns, hdo] at h
    · rename_i res err hdo
      split
      · rename_i hbody
        simp [Run.returns, hdo, hbody] at h
      · split
        · simp [Run.closed, Run.calls]
        · split
          · simp [Run.closed, Run.calls]
          · split <;> simp [Run.closed, Run.calls]

theorem finish_closed {α : Type} (built : Except GoError Request) (doer : Option Doer)
    (zero : α) (decode : Body → α × Option GoError)
    (h : (finish built doer zero decode).returns)
    (hc : (finish built doer zero decode).calls ≠ []) :
    (finish built doer zero decode).closed := by
  cases built with
  | error err => simp [finish, Run.calls] at hc
  | ok req => exact (exchange_closed doer req zero decode h).1

theorem exchange_body_returns {α : Type} (d : Doer) (req : Request) (zero : α)
    (decode : Body → α × Option GoError) (code : Int) (body : Body) (err : Option GoError)
    (h : d.Do req = (some ⟨code, some body⟩, err)) :
    (exchange (some d) req zero decode).returns := by
  unfold exchange
  simp only [h]
  split
  · simp [Run.returns]
  · split
    · simp [Run.returns]
    · split <;> simp [Run.returns]

theorem exchange_calls {α : Type} (d : Doer) (req : Request) (zero : α)
    (decode : Body → α × Option GoError) :
    (exchange (some d) req zero decode).calls = [req] := by
  unfold exchange
  simp only
  split
  · rfl
  · split
    · rfl
    · split
      · rfl
      · split
        · rfl
        · split <;> rfl

theorem foldl_doer (opts : List ClientOption) (c : Client) :
    (opts.foldl (fun c opt => opt.apply c) c).doer =
      (lastSet ClientOption.setsDoer opts).or c.doer := by
  induction opts using List.reverseRecOn with
  | nil => rfl
  | append_singleton opts o ih =>
    rw [List.foldl_append, lastSet_append_singleton]
    simp only [List.foldl_cons, List.foldl_nil]
    cases o with
    | WithAppID a => simpa [ClientOption.apply, ClientOption.setsDoer] using ih
    | WithDoer d => simp [ClientOption.apply, ClientOption.setsDoer]

theorem foldl_baseURL (opts : List ClientOption) (c : Client) :
    (opts.foldl (fun c opt => opt.apply c) c).baseURL = c.baseURL := by
  induction opts generalizing c with
  | nil => rfl
  | cons o opts ih =>
    rw [List.foldl_cons, ih]
    cases o <;> rfl

/-! ## The order of the parameters `Values.Encode` writes -/

theorem strLE_refl (a : GoString) : strLE a a = true := by
  induction a with
  | nil => rfl
  | cons x xs ih => simp [strLE, ih]

theorem strLE_total (a b : GoString) : strLE a b = true ∨ strLE b a = true := by
  induction a generalizing b with
  | nil => left; rfl
  | cons x xs ih =>
    cases b with
    | nil => right; rfl
    | cons y ys =>
      simp only [strLE, Bool.or_eq_true, Bool.and_eq_true, decide_eq_true_eq]
      rcases Nat.lt_trichotomy x y with h | h | h
      · left; left; exact h
      · rcases ih ys with h2 | h2
        · left; right; exact ⟨h, h2⟩
        · right; right; exact ⟨h.symm, h2⟩
      · right; left; exact h

theorem strLE_trans (a b c : GoString) (h1 : strLE a b = true) (h2 : strLE b c = true) :
    strLE a c = true := by
  induction a generalizing b c with
  | nil => rfl
  | cons x xs ih =>
    cases b with
    | nil => simp [strLE] at h1
    | cons y ys =>
      cases c with
      | nil => simp [strLE] at h2
      | cons z zs =>
        simp only [strLE, Bool.or_eq_true, Bool.and_eq_true, decide_eq_true_eq] at h1 h2 ⊢
        rcases h1 with h1 | ⟨h1, h1'⟩
        · rcases h2 with h2 | ⟨h2, _⟩
          · left; omega
          · left; omega
        · rcases h2 with h2 | ⟨h2, h2'⟩
          · left; omega
          · right; exact ⟨by omega, ih ys zs h1' h2'⟩

theorem strLE_antisymm (a b : GoString) (h1 : strLE a b = true) (h2 : strLE b a = true) :
    a = b := by
  induction a generalizing b with
  | nil =>
    cases b with
    | nil => rfl
    | cons y ys => simp [strLE] at h2
  | cons x xs ih =>
    cases b with
    | nil => simp [strLE] at h1
    | cons y ys =>
      simp only [strLE, Bool.or_eq_true, Bool.and_eq_true, decide_eq_true_eq] at h1 h2
      rcases h1 with h1 | ⟨h1, h1'⟩
      · rcases h2 with h2 | ⟨h2, _⟩
        · omega
        · omega
      · rcases h2 with h2 | ⟨_, h2'⟩
        · omega
        · rw [h1, ih ys h1' h2']

theorem strLE_isTotal : IsTotal GoString (fun a b => strLE a b = true) := ⟨strLE_total⟩

theorem strLE_isTrans : IsTrans GoString (fun a b => strLE a b = true) := ⟨strLE_trans⟩

theorem strLE_isAntisymm : IsAntisymm GoString (fun a b => strLE a b = true) :=
  ⟨strLE_antisymm⟩

theorem sortedKeys_sorted (v : Values) :
    v.sortedKeys.Sorted (fun a b => strLE a b = true) := by
  haveI := strLE_isTotal
  haveI := strLE_isTrans
  exact List.sorted_insertionSort _ _

theorem segments_eq_map_pairs (v : Values) :
    v.segments = v.pairs.map fun kv => piece kv.1 kv.2 := by
  simp only [Values.segments, Values.pairs, List.map_flatMap, List.map_map]
  rfl

theorem Encode_eq_queryOf (v : Values) : v.Encode = queryOf v.pairs := by
  rw [Values.Encode, segments_eq_map_pairs, queryOf]

theorem flatMap_keys_sorted (lookup : GoString → List GoString) (ks : List GoString)
    (h : ks.Sorted (fun a b => strLE a b = true)) :
    ((ks.flatMap fun k => (lookup k).map fun x => (k, x)).map Prod.fst).Sorted
      (fun a b => strLE a b = true) := by
  induction ks with
  | nil => simp
  | cons k ks ih =>
    rw [List.sorted_cons] at h
    simp only [List.flatMap_cons, List.map_append, List.map_map]
    unfold List.Sorted
    rw [List.pairwise_append]
    refine ⟨?_, ih h.2, ?_⟩
    · rw [List.pairwise_map]
      exact List.pairwise_of_forall (fun _ _ => strLE_refl k)
    · intro a ha b hb
      rw [List.mem_map] at ha
      obtain ⟨_, _, rfl⟩ := ha
      rw [List.mem_map] at hb
      obtain ⟨⟨k', x'⟩, hb, rfl⟩ := hb
      rw [List.mem_flatMap] at hb
      obtain ⟨k'', hk'', hm⟩ := hb
      rw [List.mem_map] at hm
      obtain ⟨_, _, he⟩ := hm
      injection he with he1 he2
      subst he1
      exact h.1 _ hk''

theorem pairs_keys_sorted (v : Values) :
    (v.pairs.map Prod.fst).Sorted (fun a b => strLE a b = true) :=
  flatMap_keys_sorted v.lookup v.sortedKeys (sortedKeys_sorted v)

/-! ## `Values.Encode` does not depend on the order in which the keys were added -/

theorem lookup_Add (v : Values) (k x k' : GoString) :
    (v.Add k x).lookup k' = if k' = k then v.lookup k ++ [x] else v.lookup k' := by
  obtain ⟨es⟩ := v
  simp only [Values.Add, Values.lookup]
  induction es with
  | nil =>
    by_cases h : k' = k
    · simp [addEntry, h]
    · simp [addEntry, h, Ne.symm h]
  | cons e es ih =>
    obtain ⟨ek, ev⟩ := e
    by_cases he : ek = k
    · subst he
      by_cases h : k' = ek
      · simp [addEntry, h]
      · simp [addEntry, h, Ne.symm h]
    · by_cases h : k' = k
      · subst h
        simp only [addEntry, he, if_false, List.find?_cons, decide_False, if_true]
        simpa using ih
      · by_cases h2 : ek = k'
        · simp [addEntry, he, h, h2]
        · simp only [addEntry, he, if_false, List.find?_cons, h2, decide_False, h]
          simpa [h] using ih

theorem keys_Add (v : Values) (k x : GoString) :
    (v.Add k x).keys = if k ∈ v.keys then v.keys else v.keys ++ [k] := by
  obtain ⟨es⟩ := v
  simp only [Values.Add, Values.keys]
  induction es with
  | nil => simp [addEntry]
  | cons e es ih =>
    obtain ⟨ek, ev⟩ := e
    by_cases he : ek = k
    · simp [addEntry, he]
    · have hne : ¬ k = ek := fun h => he h.symm
      simp only [addEntry, he, if_false, List.map_cons, List.mem_cons, hne, false_or, ih]
      split <;> simp

theorem keys_Add_comm (v : Values) (k1 x1 k2 x2 : GoString) (h : k1 ≠ k2) :
    ((v.Add k1 x1).Add k2 x2).keys.Perm ((v.Add k2 x2).Add k1 x1).keys := by
  rw [keys_Add, keys_Add, keys_Add, keys_Add]
  by_cases h1 : k1 ∈ v.keys <;> by_cases h2 : k2 ∈ v.keys <;>
    simp [h1, h2, h, Ne.symm h]
  exact List.Perm.append_left _ (List.Perm.swap _ _ _)

theorem sortedKeys_of_perm (v w : Values) (h : v.keys.Perm w.keys) :
    v.sortedKeys = w.sortedKeys := by
  haveI := strLE_isAntisymm
  apply List.eq_of_perm_of_sorted _ (sortedKeys_sorted v) (sortedKeys_sorted w)
  exact ((List.perm_insertionSort _ _).trans h).trans (List.perm_insertionSort _ _).symm

theorem Encode_Add_comm (v : Values) (k1 x1 k2 x2 : GoString) (h : k1 ≠ k2) :
    ((v.Add k1 x1).Add k2 x2).Encode = ((v.Add k2 x2).Add k1 x1).Encode := by
  have hl : ((v.Add k1 x1).Add k2 x2).lookup = ((v.Add k2 x2).Add k1 x1).lookup := by
    funext k
    simp only [lookup_Add]
    by_cases h1 : k = k1
    · subst h1
      simp [h, Ne.symm h]
    · by_cases h2 : k = k2
      · subst h2
        simp [h, Ne.symm h]
      · simp [h1, h2]
  simp only [Values.Encode, Values.segments, hl,
    sortedKeys_of_perm _ _ (keys_Add_comm v k1 x1 k2 x2 h)]

/-! ## Method, body and query of every built request -/

theorem NewRequestWithContext_get (ctx : Context) (url : GoString) (req : Request)
    (h : NewRequestWithContext ctx url = .ok req) : req.Method = MethodGet ∧ req.Body = [] := by
  unfold NewRequestWithContext at h
  split at h
  · cases h
  · split at h
    · cases h
    · injection h with h
      subst h
      exact ⟨rfl, rfl⟩

theorem latestRequest_shape (c : Client) (ctx : Context) (opts : List LatestOption)
    (req : Request) (h : c.latestRequest ctx opts = .ok req) :
    req.Method = MethodGet ∧ req.Body = [] ∧ ∃ v : Values, req.URL.RawQuery = v.Encode := by
  unfold Client.latestRequest at h
  simp only at h
  split at h
  · cases h
  · rename_i req0 hn
    injection h with h
    subst h
    exact ⟨(NewRequestWithContext_get _ _ _ hn).1, (NewRequestWithContext_get _ _ _ hn).2,
      _, rfl⟩

theorem historicalRequest_shape (c : Client) (ctx : Context) (opts : List HistoricalOption)
    (req : Request) (h : c.historicalRequest ctx opts = .ok req) :
    req.Method = MethodGet ∧ req.Body = [] ∧ ∃ v : Values, req.URL.RawQuery = v.Encode := by
  unfold Client.historicalRequest at h
  simp only at h
  split at h
  · cases h
  · rename_i req0 hn
    injection h with h
    subst h
    exact ⟨(NewRequestWithContext_get _ _ _ hn).1, (NewRequestWithContext_get _ _ _ hn).2,
      _, rfl⟩

theorem currenciesRequest_shape (c : Client) (ctx : Context) (opts : List CurrenciesOption)
    (req : Request) (h : c.currenciesRequest ctx opts = .ok req) :
    req.Method = MethodGet ∧ req.Body = [] ∧ ∃ v : Values, req.URL.RawQuery = v.Encode := by
  unfold Client.currenciesRequest at h
  simp only at h
  split at h
  · cases h
  · rename_i req0 hn
    injection h with h
    subst h
    exact ⟨(NewRequestWithContext_get _ _ _ hn).1, (NewRequestWithContext_get _ _ _ hn).2,
      _, rfl⟩

theorem timeSeriesRequest_shape (c : Client) (ctx : Context) (opts : List TimeSeriesOption)
    (req : Request) (h : c.timeSeriesRequest ctx opts = .ok req) :
    req.Method = MethodGet ∧ req.Body = [] ∧ ∃ v : Values, req.URL.RawQuery = v.Encode := by
  unfold Client.timeSeriesRequest at h
  simp only at h
  split at h
  · cases h
  · rename_i req0 hn
    injection h with h
    subst h
    exact ⟨(NewRequestWithContext_get _ _ _ hn).1, (NewRequestWithContext_get _ _ _ hn).2,
      _, rfl⟩

theorem convertRequest_shape (c : Client) (ctx : Context) (opts : List ConvertOption)
    (req : Request) (h : c.convertRequest ctx opts = .ok req) :
    req.Method = MethodGet ∧ req.Body = [] ∧ ∃ v : Values, req.URL.RawQuery = v.Encode := by
  unfold Client.convertRequest at h
  simp only at h
  split at h
  · cases h
  · rename_i req0 hn
    injection h with h
    subst h
    exact ⟨(NewRequestWithContext_get _ _ _ hn).1, (NewRequestWithContext_get _ _ _ hn).2,
      _, rfl⟩

theorem ohlcRequest_shape (c : Client) (ctx : Context) (opts : List OHLCOption)
    (req : Request) (h : c.ohlcRequest ctx opts = .ok req) :
    req.Method = MethodGet ∧ req.Body = [] ∧ ∃ v : Values, req.URL.RawQuery = v.Encode := by
  unfold Client.ohlcRequest at h
  simp only at h
  split at h
  · cases h
  · rename_i req0 hn
    injection h with h
    subst h
    exact ⟨(NewRequestWithContext_get _ _ _ hn).1, (NewRequestWithContext_get _ _ _ hn).2,
      _, rfl⟩

theorem usageRequest_shape (c : Client) (ctx : Context) (opts : List UsageOption)
    (req : Request) (h : c.usageRequest ctx opts = .ok req) :
    req.Method = MethodGet ∧ req.Body = [] ∧ ∃ v : Values, req.URL.RawQuery = v.Encode := by
  unfold Client.usageRequest at h
  simp only at h
  split at h
  · cases h
  · rename_i req0 hn
    injection h with h
    subst h
    exact ⟨(NewRequestWithContext_get _ _ _ hn).1, (NewRequestWithContext_get _ _ _ hn).2,
      _, rfl⟩

/-! ## A URL text without `?` parses to a URL without a query -/

theorem mem_cut_fst (sep : Nat) (s : GoString) (b : Nat) (h : b ∈ (cut sep s).1) : b ∈ s := by
  induction s with
  | nil => simp [cut] at h
  | cons c rest ih =>
    rw [cut] at h
    split at h
    · simp at h
    · simp only [List.mem_cons] at h ⊢
      rcases h with h | h
      · exact Or.inl h
      · exact Or.inr (ih h)

theorem getSchemeLoop_rest (rawURL : GoString) (s seen scheme rest : GoString)
    (h : getSchemeLoop rawURL seen s = .ok (scheme, rest)) :
    ∀ b ∈ rest, b ∈ rawURL ∨ b ∈ s := by
  induction s generalizing seen with
  | nil =>
    simp only [getSchemeLoop] at h
    injection h with h
    injection h with _ h
    subst h
    exact fun b hb => Or.inl hb
  | cons c s ih =>
    rw [getSchemeLoop] at h
    split at h
    · intro b hb
      rcases ih _ h b hb with h1 | h1
      · exact Or.inl h1
      · exact Or.inr (List.mem_cons_of_mem _ h1)
    · split at h
      · split at h
        · injection h with h
          injection h with _ h
          subst h
          exact fun b hb => Or.inl hb
        · intro b hb
          rcases ih _ h b hb with h1 | h1
          · exact Or.inl h1
          · exact Or.inr (List.mem_cons_of_mem _ h1)
      · split at h
        · split at h
          · cases h
          · injection h with h
            injection h with _ h
            subst h
            exact fun b hb => Or.inr (List.mem_cons_of_mem _ hb)
        · injection h with h
          injection h with _ h
          subst h
          exact fun b hb => Or.inl hb

theorem getScheme_rest (rawURL scheme rest : GoString)
    (h : getScheme rawURL = .ok (scheme, rest)) : ∀ b ∈ rest, b ∈ rawURL := by
  intro b hb
  rcases getSchemeLoop_rest rawURL rawURL [] scheme rest h b hb with h1 | h1 <;> exact h1

theorem setPath_RawQuery (u u' : URL) (p : GoString) (h : u.setPath p = .ok u') :
    u'.RawQuery = u.RawQuery ∧ u'.ForceQuery = u.ForceQuery := by
  unfold URL.setPath at h
  split at h
  · cases h
  · split at h <;>
    · injection h with h
      subst h
      exact ⟨rfl, rfl⟩

theorem setFragment_RawQuery (u u' : URL) (f : GoString) (h : u.setFragment f = .ok u') :
    u'.RawQuery = u.RawQuery ∧ u'.ForceQuery = u.ForceQuery := by
  unfold URL.setFragment at h
  split at h
  · cases h
  · split at h <;>
    · injection h with h
      subst h
      exact ⟨rfl, rfl⟩

theorem parse_no_question (s : GoString) (u : URL) (h : parse s = .ok u) (hq : 63 ∉ s) :
    u.RawQuery = [] := by
  unfold parse at h
  split at h
  · cases h
  · split at h
    · injection h with h
      subst h
      rfl
    · split at h
      · cases h
      · rename_i scheme rest0 hs
        have hr : 63 ∉ rest0 := fun hm => hq (getScheme_rest _ _ _ hs 63 hm)
        have hlast : rest0.getLast? ≠ some 63 := by
          intro hl
          exact hr (List.mem_of_mem_getLast? hl)
        have hcut := cut_of_not_mem 63 rest0 hr
        simp only [hlast, hcut, decide_False, Bool.false_and, Bool.false_eq_true, if_false]
          at h
        split at h
        · injection h with h
          subst h
          rfl
        · split at h
          · cases h
          · split at h
            · split at h
              · split at h
                · cases h
                · exact (setPath_RawQuery _ _ _ h).1
              · exact (setPath_RawQuery _ _ _ h).1
            · split at h
              · exact (setPath_RawQuery _ _ _ h).1
              · exact (setPath_RawQuery _ _ _ h).1

theorem Parse_no_question (s : GoString) (u : URL) (h : Parse s = .ok u) (hq : 63 ∉ s) :
    u.RawQuery = [] := by
  unfold Parse at h
  simp only at h
  have hq1 : 63 ∉ (cut 35 s).1 := fun hm => hq (mem_cut_fst _ _ _ hm)
  split at h
  · cases h
  · rename_i url hp
    have hu := parse_no_question _ _ hp hq1
    split at h
    · injection h with h
      subst h
      exact hu
    · split at h
      · cases h
      · rename_i url' hf
        injection h with h
        subst h
        rw [(setFragment_RawQuery _ _ _ hf).1, hu]

theorem NewRequestWithContext_no_question (ctx : Context) (s : GoString) (req : Request)
    (h : NewRequestWithContext ctx s = .ok req) (hq : 63 ∉ s) : req.URL.Query = {} := by
  unfold NewRequestWithContext at h
  split at h
  · cases h
  · split at h
    · cases h
    · rename_i u hp
      injection h with h
      subst h
      have hu := Parse_no_question _ _ hp hq
      simp only [URL.Query, hu]
      rfl

/-! ## Keys of the requests: each once -/

theorem keys_baseRequest (p : GoString) (ps : List (GoString × GoString)) (hne : ps ≠ []) :
    (baseRequest p (queryOf ps)).keys = ps.map fun kv => QueryEscape kv.1 := by
  simp only [Request.keys, baseRequest]
  rw [splitOn_queryOf ps hne, List.map_map]
  congr 1
  funext kv
  simp [cut_piece]

theorem QueryEscape_key_show_inactive :
    QueryEscape (bytes "show_inactive") =
      [115, 104, 111, 119, 95, 105, 110, 97, 99, 116, 105, 118, 101] := by decide

theorem QueryEscape_FormatBool (b : Bool) : QueryEscape (FormatBool b) = FormatBool b := by
  cases b <;> decide

theorem latest_keys (c : Client) (r : latestParams) (p : GoString) :
    (baseRequest p (queryOf (latestPairs c r))).keys.Nodup ∧
    (baseRequest p (queryOf (latestPairs c r))).values (bytes "app_id") =
      [QueryEscape c.appID] ∧
    (baseRequest p (queryOf (latestPairs c r))).values (bytes "show_alternative") =
      [FormatBool r.showAlternative] := by
  have hne : latestPairs c r ≠ [] := by simp [latestPairs]
  rw [keys_baseRequest _ _ hne, values_baseRequest _ _ _ hne, values_baseRequest _ _ _ hne]
  by_cases hb : r.baseCurrency = [] <;> by_cases hs : r.destinationCurrencies = [] <;>
    simp [latestPairs, hb, hs, QueryEscape_key_app_id, QueryEscape_key_base,
      QueryEscape_key_prettyprint, QueryEscape_key_show_alternative, QueryEscape_key_symbols,
      QueryEscape_FormatBool]

theorem historical_keys (c : Client) (r : historicalParams) (p : GoString) :
    (baseRequest p (queryOf (historicalPairs c r))).keys.Nodup ∧
    (baseRequest p (queryOf (historicalPairs c r))).values (bytes "app_id") =
      [QueryEscape c.appID] ∧
    (baseRequest p (queryOf (historicalPairs c r))).values (bytes "show_alternative") =
      [FormatBool r.showAlternative] := by
  have hne : historicalPairs c r ≠ [] := by simp [historicalPairs]
  rw [keys_baseRequest _ _ hne, values_baseRequest _ _ _ hne, values_baseRequest _ _ _ hne]
  by_cases hb : r.baseCurrency = [] <;> by_cases hs : r.destinationCurrencies = [] <;>
    simp [historicalPairs, hb, hs, QueryEscape_key_app_id, QueryEscape_key_base,
      QueryEscape_key_prettyprint, QueryEscape_key_show_alternative, QueryEscape_key_symbols,
      QueryEscape_FormatBool]

theorem currencies_keys (c : Client) (r : currenciesParams) (p : GoString) :
    (baseRequest p (queryOf (currenciesPairs c r))).keys.Nodup ∧
    (baseRequest p (queryOf (currenciesPairs c r))).values (bytes "app_id") =
      [QueryEscape c.appID] ∧
    (baseRequest p (queryOf (currenciesPairs c r))).values (bytes "show_alternative") =
      [FormatBool r.showAlternative] := by
  have hne : currenciesPairs c r ≠ [] := by simp [currenciesPairs]
  rw [keys_baseRequest _ _ hne, values_baseRequest _ _ _ hne, values_baseRequest _ _ _ hne]
  simp [currenciesPairs, QueryEscape_key_app_id, QueryEscape_key_show_inactive,
    QueryEscape_key_prettyprint, QueryEscape_key_show_alternative, QueryEscape_FormatBool]

theorem timeSeries_keys (c : Client) (r : timeSeriesParams) (p : GoString) :
    (baseRequest p (queryOf (timeSeriesPairs c r))).keys.Nodup ∧
    (baseRequest p (queryOf (timeSeriesPairs c r))).values (bytes "app_id") =
      [QueryEscape c.appID] ∧
    (baseRequest p (queryOf (timeSeriesPairs c r))).values (bytes "show_alternative") =
      [FormatBool r.showAlternative] := by
  have hne : timeSeriesPairs c r ≠ [] := by simp [timeSeriesPairs]
  rw [keys_baseRequest _ _ hne, values_baseRequest _ _ _ hne, values_baseRequest _ _ _ hne]
  by_cases hb : r.baseCurrency = [] <;> by_cases hs : r.destinationCurrencies = [] <;>
    simp [timeSeriesPairs, hb, hs, QueryEscape_key_app_id, QueryEscape_key_base,
      QueryEscape_key_prettyprint, QueryEscape_key_show_alternative, QueryEscape_key_symbols,
      QueryEscape_key_start, QueryEscape_key_end, QueryEscape_FormatBool]

theorem convert_keys (c : Client) (r : convertParams) (p : GoString) :
    (baseRequest p (queryOf (convertPairs c r))).keys.Nodup ∧
    (baseRequest p (queryOf (convertPairs c r))).values (bytes "app_id") =
      [QueryEscape c.appID] ∧
    ¬ (baseRequest p (queryOf (convertPairs c r))).hasKey (bytes "show_alternative") := by
  have hne : convertPairs c r ≠ [] := by simp [convertPairs]
  rw [keys_baseRequest _ _ hne, values_baseRequest _ _ _ hne, hasKey_baseRequest _ _ _ hne]
  simp [convertPairs, QueryEscape_key_app_id, QueryEscape_key_prettyprint,
    QueryEscape_key_show_alternative]

theorem ohlc_keys (c : Client) (r : ohlcParams) (p : GoString) :
    (baseRequest p (queryOf (ohlcPairs c r))).keys.Nodup ∧
    (baseRequest p (queryOf (ohlcPairs c r))).values (bytes "app_id") =
      [QueryEscape c.appID] ∧
    ¬ (baseRequest p (queryOf (ohlcPairs c r))).hasKey (bytes "show_alternative") := by
  have hne : ohlcPairs c r ≠ [] := by simp [ohlcPairs]
  rw [keys_baseRequest _ _ hne, values_baseRequest _ _ _ hne, hasKey_baseRequest _ _ _ hne]
  by_cases hb : r.baseCurrency = [] <;> by_cases hs : r.destinationCurrencies = [] <;>
    simp [ohlcPairs, hb, hs, QueryEscape_key_app_id, QueryEscape_key_base,
      QueryEscape_key_prettyprint, QueryEscape_key_show_alternative, QueryEscape_key_symbols,
      QueryEscape_key_period, QueryEscape_key_start_date]

theorem usage_keys (c : Client) (r : usageParams) (p : GoString) :
    (baseRequest p (queryOf (usagePairs c r))).keys.Nodup ∧
    (baseRequest p (queryOf (usagePairs c r))).values (bytes "app_id") =
      [QueryEscape c.appID] ∧
    ¬ (baseRequest p (queryOf (usagePairs c r))).hasKey (bytes "show_alternative") := by
  have hne : usagePairs c r ≠ [] := by simp [usagePairs]
  rw [keys_baseRequest _ _ hne, values_baseRequest _ _ _ hne, hasKey_baseRequest _ _ _ hne]
  simp [usagePairs, QueryEscape_key_app_id, QueryEscape_key_prettyprint,
    QueryEscape_key_show_alternative]

theorem usage_sent_eq (c : Client) (hc : c.baseURL = basePath)
    (json : Decoder UsageResponse) (ctx : Context) (opts : List UsageOption)
    (req : Request) (h : (c.Usage json ctx opts).sent = some req) :
    req = baseRequest (bytes "usage.json") (queryOf (usagePairs c (usageParamsOf opts))) := by
  have hb := sent_finish_some _ _ _ _ req h
  cases ctx with
  | nil => simp [Client.usageRequest, NewRequestWithContext] at hb
  | live =>
    rw [usageRequest_eq c hc opts] at hb
    injection hb with hb
    exact hb.symm

/-! ## The query of a Convert request whose URL text has no `?` -/

theorem convertRequest_query (c : Client) (ctx : Context) (opts : List ConvertOption)
    (req : Request) (h : c.convertRequest ctx opts = .ok req)
    (hq : 63 ∉ c.baseURL ++ (convertParamsOf opts).value.text ++
      (convertParamsOf opts).baseCurrency ++ (convertParamsOf opts).destinationCurrency) :
    req.URL.RawQuery = queryOf (convertPairs c (convertParamsOf opts)) := by
  unfold Client.convertRequest at h
  simp only at h
  generalize convertParamsOf opts = r at h hq
  split at h
  · cases h
  · rename_i req0 hn
    injection h with h
    subst h
    have h63 : 63 ∉ bytes "convert/" := by decide
    have h63' : 63 ∉ bytes "/" := by decide
    have hQ := NewRequestWithContext_no_question _ _ _ hn (by
      simp only [List.mem_append, not_or] at hq ⊢
      exact ⟨⟨⟨⟨⟨⟨hq.1.1.1, h63⟩, hq.1.1.2⟩, h63'⟩, hq.1.2⟩, h63'⟩, hq.2⟩)
    simp only [hQ]
    simp [convertPairs, queryOf, piece, Values.Encode, Values.segments, Values.sortedKeys,
      Values.lookup, Values.Add, addEntry, List.insertionSort, List.orderedInsert, strLE,
      joinAmp, bytes_app_id, bytes_prettyprint, bytes_base, bytes_symbols,
      bytes_show_alternative, bytes_show_inactive, bytes_start, bytes_end, bytes_start_date,
      bytes_period]

theorem keys_congr (req req' : Request) (h : req.URL.RawQuery = req'.URL.RawQuery) :
    req.keys = req'.keys ∧ (∀ k, req.values k = req'.values k) ∧
      (∀ k, req.hasKey k ↔ req'.hasKey k) := by
  unfold Request.keys Request.values Request.hasKey
  rw [h]
  exact ⟨rfl, fun _ => rfl, fun _ => Iff.rfl⟩

theorem convert_sent_keys (c : Client) (json : Decoder ConversionResponse) (ctx : Context)
    (opts : List ConvertOption) (req : Request)
    (h : (c.Convert json ctx opts).sent = some req)
    (hq : 63 ∉ c.baseURL ++ (convertParamsOf opts).value.text ++
      (convertParamsOf opts).baseCurrency ++ (convertParamsOf opts).destinationCurrency) :
    req.keys.Nodup ∧ req.values (bytes "app_id") = [QueryEscape c.appID] ∧
      ¬ req.hasKey (bytes "show_alternative") := by
  have hb := sent_finish_some _ _ _ _ req h
  have hr := convertRequest_query c ctx opts req hb hq
  have hk := keys_congr req (baseRequest [] (queryOf (convertPairs c (convertParamsOf opts)))) hr
  have hf := convert_keys c (convertParamsOf opts) []
  rw [hk.1, hk.2.1, hk.2.2]
  exact hf

/-! ## Calls: what they send depends on the key, the base URL and the options -/

theorem sent_finish_eq {α : Type} (built : Except GoError Request) (doer : Option Doer)
    (zero : α) (decode : Body → α × Option GoError) :
    (finish built doer zero decode).sent =
      match built with
      | .ok req => if doer.isSome then some req else none
      | .error _ => none := by
  cases built with
  | error e => rfl
  | ok req =>
    cases doer with
    | none => rfl
    | some d => simpa using sent_finish_ok d req zero decode

theorem latestRequest_congr (c c' : Client) (ha : c.appID = c'.appID)
    (hb : c.baseURL = c'.baseURL) (ctx : Context) (opts : List LatestOption) :
    c.latestRequest ctx opts = c'.latestRequest ctx opts := by
  obtain ⟨a, d, b⟩ := c
  obtain ⟨a', d', b'⟩ := c'
  simp only at ha hb
  subst ha hb
  rfl

theorem latestRequest_live (c : Client) (ctx : Context) (opts : List LatestOption) (req : Request)
    (h : c.latestRequest ctx opts = .ok req) : ctx = .live := by
  cases ctx with
  | nil => simp [Client.latestRequest, NewRequestWithContext] at h
  | live => rfl

theorem historicalRequest_congr (c c' : Client) (ha : c.appID = c'.appID)
    (hb : c.baseURL = c'.baseURL) (ctx : Context) (opts : List HistoricalOption) :
    c.historicalRequest ctx opts = c'.historicalRequest ctx opts := by
  obtain ⟨a, d, b⟩ := c
  obtain ⟨a', d', b'⟩ := c'
  simp only at ha hb
  subst ha hb
  rfl

theorem historicalRequest_live (c : Client) (ctx : Context) (opts : List HistoricalOption) (req : Request)
    (h : c.historicalRequest ctx opts = .ok req) : ctx = .live := by
  cases ctx with
  | nil => simp [Client.historicalRequest, NewRequestWithContext] at h
  | live => rfl

theorem currenciesRequest_congr (c c' : Client) (ha : c.appID = c'.appID)
    (hb : c.baseURL = c'.baseURL) (ctx : Context) (opts : List CurrenciesOption) :
    c.currenciesRequest ctx opts = c'.currenciesRequest ctx opts := by
  obtain ⟨a, d, b⟩ := c
  obtain ⟨a', d', b'⟩ := c'
  simp only at ha hb
  subst ha hb
  rfl

theorem currenciesRequest_live (c : Client) (ctx : Context) (opts : List CurrenciesOption) (req : Request)
    (h : c.currenciesRequest ctx opts = .ok req) : ctx = .live := by
  cases ctx with
  | nil => simp [Client.currenciesRequest, NewRequestWithContext] at h
  | live => rfl

theorem timeSeriesRequest_congr (c c' : Client) (ha : c.appID = c'.appID)
    (hb : c.baseURL = c'.baseURL) (ctx : Context) (opts : List TimeSeriesOption) :
    c.timeSeriesRequest ctx opts = c'.timeSeriesRequest ctx opts := by
  obtain ⟨a, d, b⟩ := c
  obtain ⟨a', d', b'⟩ := c'
  simp only at ha hb
  subst ha hb
  rfl

theorem timeSeriesRequest_live (c : Client) (ctx : Context) (opts : List TimeSeriesOption) (req : Request)
    (h : c.timeSeriesRequest ctx opts = .ok req) : ctx = .live := by
  cases ctx with
  | nil => simp [Client.timeSeriesRequest, NewRequestWithContext] at h
  | live => rfl

theorem convertRequest_congr (c c' : Client) (ha : c.appID = c'.appID)
    (hb : c.baseURL = c'.baseURL) (ctx : Context) (opts : List ConvertOption) :
    c.convertRequest ctx opts = c'.convertRequest ctx opts := by
  obtain ⟨a, d, b⟩ := c
  obtain ⟨a', d', b'⟩ := c'
  simp only at ha hb
  subst ha hb
  rfl

theorem convertRequest_live (c : Client) (ctx : Context) (opts : List ConvertOption) (req : Request)
    (h : c.convertRequest ctx opts = .ok req) : ctx = .live := by
  cases ctx with
  | nil => simp [Client.convertRequest, NewRequestWithContext] at h
  | live => rfl

theorem ohlcRequest_congr (c c' : Client) (ha : c.appID = c'.appID)
    (hb : c.baseURL = c'.baseURL) (ctx : Context) (opts : List OHLCOption) :
    c.ohlcRequest ctx opts = c'.ohlcRequest ctx opts := by
  obtain ⟨a, d, b⟩ := c
  obtain ⟨a', d', b'⟩ := c'
  simp only at ha hb
  subst ha hb
  rfl

theorem ohlcRequest_live (c : Client) (ctx : Context) (opts : List OHLCOption) (req : Request)
    (h : c.ohlcRequest ctx opts = .ok req) : ctx = .live := by
  cases ctx with
  | nil => simp [Client.ohlcRequest, NewRequestWithContext] at h
  | live => rfl

theorem usageRequest_congr (c c' : Client) (ha : c.appID = c'.appID)
    (hb : c.baseURL = c'.baseURL) (ctx : Context) (opts : List UsageOption) :
    c.usageRequest ctx opts = c'.usageRequest ctx opts := by
  obtain ⟨a, d, b⟩ := c
  obtain ⟨a', d', b'⟩ := c'
  simp only at ha hb
  subst ha hb
  rfl

theorem usageRequest_live (c : Client) (ctx : Context) (opts : List UsageOption) (req : Request)
    (h : c.usageRequest ctx opts = .ok req) : ctx = .live := by
  cases ctx with
  | nil => simp [Client.usageRequest, NewRequestWithContext] at h
  | live => rfl

theorem Call.request_of_sent (c : Client) (k : Call) (req : Request)
    (h : k.sent c = some req) : k.request c = .ok req := by
  cases k <;> exact sent_finish_some _ _ _ _ req h

theorem Call.request_congr (c c' : Client) (ha : c.appID = c'.appID)
    (hb : c.baseURL = c'.baseURL) (k : Call) : k.request c = k.request c' := by
  cases k with
  | Latest json ctx opts => exact latestRequest_congr c c' ha hb ctx opts
  | Historical json ctx opts => exact historicalRequest_congr c c' ha hb ctx opts
  | Currencies json ctx opts => exact currenciesRequest_congr c c' ha hb ctx opts
  | TimeSeries json ctx opts => exact timeSeriesRequest_congr c c' ha hb ctx opts
  | Convert json ctx opts => exact convertRequest_congr c c' ha hb ctx opts
  | OpenHighLowClose json ctx opts => exact ohlcRequest_congr c c' ha hb ctx opts
  | Usage json ctx opts => exact usageRequest_congr c c' ha hb ctx opts

theorem Call.sent_eq (c : Client) (k : Call) :
    k.sent c =
      match k.request c with
      | .ok req => if c.doer.isSome then some req else none
      | .error _ => none := by
  cases k <;> exact sent_finish_eq _ _ _ _

theorem Call.sent_congr (c c' : Client) (ha : c.appID = c'.appID)
    (hb : c.baseURL = c'.baseURL) (hd : c.doer.isSome = c'.doer.isSome) (k : Call) :
    k.sent c = k.sent c' := by
  rw [Call.sent_eq, Call.sent_eq, Call.request_congr c c' ha hb k, hd]

theorem Call.request_sameOptions (c c' : Client) (ha : c.appID = c'.appID)
    (hb : c.baseURL = c'.baseURL) (k k' : Call) (hk : k.sameOptions k') (r r' : Request)
    (h : k.request c = .ok r) (h' : k'.request c' = .ok r') : r = r' := by
  cases k with
  | Latest json ctx opts =>
    cases k' with
    | Latest json' ctx' opts' =>
      simp only [Call.sameOptions] at hk
      subst hk
      simp only [Call.request] at h h'
      have h1 := latestRequest_live _ _ _ _ h
      have h2 := latestRequest_live _ _ _ _ h'
      subst h1 h2
      rw [latestRequest_congr c c' ha hb] at h
      rw [h] at h'
      injection h'
    | _ => simp [Call.sameOptions] at hk
  | Historical json ctx opts =>
    cases k' with
    | Historical json' ctx' opts' =>
      simp only [Call.sameOptions] at hk
      subst hk
      simp only [Call.request] at h h'
      have h1 := historicalRequest_live _ _ _ _ h
      have h2 := historicalRequest_live _ _ _ _ h'
      subst h1 h2
      rw [historicalRequest_congr c c' ha hb] at h
      rw [h] at h'
      injection h'
    | _ => simp [Call.sameOptions] at hk
  | Currencies json ctx opts =>
    cases k' with
    | Currencies json' ctx' opts' =>
      simp only [Call.sameOptions] at hk
      subst hk
      simp only [Call.request] at h h'
      have h1 := currenciesRequest_live _ _ _ _ h
      have h2 := currenciesRequest_live _ _ _ _ h'
      subst h1 h2
      rw [currenciesRequest_congr c c' ha hb] at h
      rw [h] at h'
      injection h'
    | _ => simp [Call.sameOptions] at hk
  | TimeSeries json ctx opts =>
    cases k' with
    | TimeSeries json' ctx' opts' =>
      simp only [Call.sameOptions] at hk
      subst hk
      simp only [Call.request] at h h'
      have h1 := timeSeriesRequest_live _ _ _ _ h
      have h2 := timeSeriesRequest_live _ _ _ _ h'
      subst h1 h2
      rw [timeSeriesRequest_congr c c' ha hb] at h
      rw [h] at h'
      injection h'
    | _ => simp [Call.sameOptions] at hk
  | Convert json ctx opts =>
    cases k' with
    | Convert json' ctx' opts' =>
      simp only [Call.sameOptions] at hk
      subst hk
      simp only [Call.request] at h h'
      have h1 := convertRequest_live _ _ _ _ h
      have h2 := convertRequest_live _ _ _ _ h'
      subst h1 h2
      rw [convertRequest_congr c c' ha hb] at h
      rw [h] at h'
      injection h'
    | _ => simp [Call.sameOptions] at hk
  | OpenHighLowClose json ctx opts =>
    cases k' with
    | OpenHighLowClose json' ctx' opts' =>
      simp only [Call.sameOptions] at hk
      subst hk
      simp only [Call.request] at h h'
      have h1 := ohlcRequest_live _ _ _ _ h
      have h2 := ohlcRequest_live _ _ _ _ h'
      subst h1 h2
      rw [ohlcRequest_congr c c' ha hb] at h
      rw [h] at h'
      injection h'
    | _ => simp [Call.sameOptions] at hk
  | Usage json ctx opts =>
    cases k' with
    | Usage json' ctx' opts' =>
      simp only [Call.sameOptions] at hk
      subst hk
      simp only [Call.request] at h h'
      have h1 := usageRequest_live _ _ _ _ h
      have h2 := usageRequest_live _ _ _ _ h'
      subst h1 h2
      rw [usageRequest_congr c c' ha hb] at h
      rw [h] at h'
      injection h'
    | _ => simp [Call.sameOptions] at hk

theorem Call.shape (c : Client) (k : Call) (req : Request) (h : k.request c = .ok req) :
    req.Method = MethodGet ∧ req.Body = [] ∧ ∃ v : Values, req.URL.RawQuery = v.Encode := by
  cases k with
  | Latest json ctx opts => exact latestRequest_shape c ctx opts req h
  | Historical json ctx opts => exact historicalRequest_shape c ctx opts req h
  | Currencies json ctx opts => exact currenciesRequest_shape c ctx opts req h
  | TimeSeries json ctx opts => exact timeSeriesRequest_shape c ctx opts req h
  | Convert json ctx opts => exact convertRequest_shape c ctx opts req h
  | OpenHighLowClose json ctx opts => exact ohlcRequest_shape c ctx opts req h
  | Usage json ctx opts => exact usageRequest_shape c ctx opts req h

theorem Call.returns_of_body (c : Client) (d : Doer) (hd : c.doer = some d) (k : Call)
    (h : ∀ req, k.request c = .ok req →
      ∃ code body err, d.Do req = (some ⟨code, some body⟩, err)) : k.returns c := by
  cases k with
  | Latest json ctx opts =>
    simp only [Call.returns, Client.Latest, hd]
    simp only [Call.request] at h
    cases hb : c.latestRequest ctx opts with
    | error err => simp [finish, Run.returns]
    | ok req =>
      obtain ⟨code, body, err, hdo⟩ := h req hb
      exact exchange_body_returns d req _ _ code body err hdo
  | Historical json ctx opts =>
    simp only [Call.returns, Client.Historical, hd]
    simp only [Call.request] at h
    cases hb : c.historicalRequest ctx opts with
    | error err => simp [finish, Run.returns]
    | ok req =>
      obtain ⟨code, body, err, hdo⟩ := h req hb
      exact exchange_body_returns d req _ _ code body err hdo
  | Currencies json ctx opts =>
    simp only [Call.returns, Client.Currencies, hd]
    simp only [Call.request] at h
    cases hb : c.currenciesRequest ctx opts with
    | error err => simp [finish, Run.returns]
    | ok req =>
      obtain ⟨code, body, err, hdo⟩ := h req hb
      exact exchange_body_returns d req _ _ code body err hdo
  | TimeSeries json ctx opts =>
    simp only [Call.returns, Client.TimeSeries, hd]
    simp only [Call.request] at h
    cases hb : c.timeSeriesRequest ctx opts with
    | error err => simp [finish, Run.returns]
    | ok req =>
      obtain ⟨code, body, err, hdo⟩ := h req hb
      exact exchange_body_returns d req _ _ code body err hdo
  | Convert json ctx opts =>
    simp only [Call.returns, Client.Convert, hd]
    simp only [Call.request] at h
    cases hb : c.convertRequest ctx opts with
    | error err => simp [finish, Run.returns]
    | ok req =>
      obtain ⟨code, body, err, hdo⟩ := h req hb
      exact exchange_body_returns d req _ _ code body err hdo
  | OpenHighLowClose json ctx opts =>
    simp only [Call.returns, Client.OpenHighLowClose, hd]
    simp only [Call.request] at h
    cases hb : c.ohlcRequest ctx opts with
    | error err => simp [finish, Run.returns]
    | ok req =>
      obtain ⟨code, body, err, hdo⟩ := h req hb
      exact exchange_body_returns d req _ _ code body err hdo
  | Usage json ctx opts =>
    simp only [Call.returns, Client.Usage, hd]
    simp only [Call.request] at h
    cases hb : c.usageRequest ctx opts with
    | error err => simp [finish, Run.returns]
    | ok req =>
      obtain ⟨code, body, err, hdo⟩ := h req hb
      exact exchange_body_returns d req _ _ code body err hdo

/-! ## Options that assign different fields commute -/

theorem latest_apply_comm (o1 o2 : LatestOption) (h : o1.field ≠ o2.field)
    (p : latestParams) :
    o1.apply (o2.apply p) = o2.apply (o1.apply p) := by
  cases o1 <;> cases o2 <;> first | rfl | exact absurd rfl h

theorem latestParamsOf_swap (pre post : List LatestOption) (o1 o2 : LatestOption)
    (h : o1.field ≠ o2.field) :
    latestParamsOf (pre ++ o1 :: o2 :: post) = latestParamsOf (pre ++ o2 :: o1 :: post) := by
  simp only [latestParamsOf, List.foldl_append, List.foldl_cons]
  rw [latest_apply_comm o2 o1 (Ne.symm h)]

theorem historical_apply_comm (o1 o2 : HistoricalOption) (h : o1.field ≠ o2.field)
    (p : historicalParams) :
    o1.apply (o2.apply p) = o2.apply (o1.apply p) := by
  cases o1 <;> cases o2 <;> first | rfl | exact absurd rfl h

theorem historicalParamsOf_swap (pre post : List HistoricalOption) (o1 o2 : HistoricalOption)
    (h : o1.field ≠ o2.field) :
    historicalParamsOf (pre ++ o1 :: o2 :: post) = historicalParamsOf (pre ++ o2 :: o1 :: post) := by
  simp only [historicalParamsOf, List.foldl_append, List.foldl_cons]
  rw [historical_apply_comm o2 o1 (Ne.symm h)]

theorem currencies_apply_comm (o1 o2 : CurrenciesOption) (h : o1.field ≠ o2.field)
    (p : currenciesParams) :
    o1.apply (o2.apply p) = o2.apply (o1.apply p) := by
  cases o1 <;> cases o2 <;> first | rfl | exact absurd rfl h

theorem currenciesParamsOf_swap (pre post : List CurrenciesOption) (o1 o2 : CurrenciesOption)
    (h : o1.field ≠ o2.field) :
    currenciesParamsOf (pre ++ o1 :: o2 :: post) = currenciesParamsOf (pre ++ o2 :: o1 :: post) := by
  simp only [currenciesParamsOf, List.foldl_append, List.foldl_cons]
  rw [currencies_apply_comm o2 o1 (Ne.symm h)]

theorem timeSeries_apply_comm (o1 o2 : TimeSeriesOption) (h : o1.field ≠ o2.field)
    (p : timeSeriesParams) :
    o1.apply (o2.apply p) = o2.apply (o1.apply p) := by
  cases o1 <;> cases o2 <;> first | rfl | exact absurd rfl h

theorem timeSeriesParamsOf_swap (pre post : List TimeSeriesOption) (o1 o2 : TimeSeriesOption)
    (h : o1.field ≠ o2.field) :
    timeSeriesParamsOf (pre ++ o1 :: o2 :: post) = timeSeriesParamsOf (pre ++ o2 :: o1 :: post) := by
  simp only [timeSeriesParamsOf, List.foldl_append, List.foldl_cons]
  rw [timeSeries_apply_comm o2 o1 (Ne.symm h)]

theorem convert_apply_comm (o1 o2 : ConvertOption) (h : o1.field ≠ o2.field)
    (p : convertParams) :
    o1.apply (o2.apply p) = o2.apply (o1.apply p) := by
  cases o1 <;> cases o2 <;> first | rfl | exact absurd rfl h

theorem convertParamsOf_swap (pre post : List ConvertOption) (o1 o2 : ConvertOption)
    (h : o1.field ≠ o2.field) :
    convertParamsOf (pre ++ o1 :: o2 :: post) = convertParamsOf (pre ++ o2 :: o1 :: post) := by
  simp only [convertParamsOf, List.foldl_append, List.foldl_cons]
  rw [convert_apply_comm o2 o1 (Ne.symm h)]

theorem ohlc_apply_comm (o1 o2 : OHLCOption) (h : o1.field ≠ o2.field)
    (p : ohlcParams) :
    o1.apply (o2.apply p) = o2.apply (o1.apply p) := by
  cases o1 <;> cases o2 <;> first | rfl | exact absurd rfl h

theorem ohlcParamsOf_swap (pre post : List OHLCOption) (o1 o2 : OHLCOption)
    (h : o1.field ≠ o2.field) :
    ohlcParamsOf (pre ++ o1 :: o2 :: post) = ohlcParamsOf (pre ++ o2 :: o1 :: post) := by
  simp only [ohlcParamsOf, List.foldl_append, List.foldl_cons]
  rw [ohlc_apply_comm o2 o1 (Ne.symm h)]


/-! ## Option values: nil options and slices read when applied -/

theorem readOptions_none_iff {O S : Type} (build : S → List GoString → O) (h : Heap)
    (opts : List (OptionValue O S)) :
    readOptions build h opts = none ↔ opts.any OptionValue.isNil = true := by
  induction opts with
  | nil => simp [readOptions]
  | cons v vs ih =>
    cases v with
    | nil => simp [readOptions, OptionValue.read, OptionValue.isNil]
    | closure o =>
      simp only [readOptions, OptionValue.read, List.any_cons, OptionValue.isNil,
        Bool.false_or]
      rw [← ih]
      cases readOptions build h vs <;> simp
    | onSlice b a =>
      simp only [readOptions, OptionValue.read, List.any_cons, OptionValue.isNil,
        Bool.false_or]
      rw [← ih]
      cases readOptions build h vs <;> simp

theorem readOptions_congr {O S : Type} (build : S → List GoString → O) (h h' : Heap)
    (opts : List (OptionValue O S))
    (hs : ∀ a ∈ opts.flatMap OptionValue.slices, h a = h' a) :
    readOptions build h opts = readOptions build h' opts := by
  induction opts with
  | nil => rfl
  | cons v vs ih =>
    have hvs : ∀ a ∈ vs.flatMap OptionValue.slices, h a = h' a := fun a ha =>
      hs a (by simp only [List.flatMap_cons, List.mem_append]; exact Or.inr ha)
    have hv : v.read build h = v.read build h' := by
      cases v with
      | nil => rfl
      | closure o => rfl
      | onSlice b a =>
        simp only [OptionValue.read]
        rw [hs a (by simp [OptionValue.slices])]
    simp only [readOptions, hv, ih hvs]

theorem GoCall.read_none_iff (h : Heap) (k : GoCall) :
    k.read h = none ↔ k.hasNil = true := by
  cases k <;> simp only [GoCall.read, GoCall.hasNil, Option.map_eq_none'] <;>
    exact readOptions_none_iff _ h _

theorem GoCall.read_congr (h h' : Heap) (k : GoCall) (hs : ∀ a ∈ k.slices, h a = h' a) :
    k.read h = k.read h' := by
  cases k <;> simp only [GoCall.read, GoCall.slices] at hs ⊢ <;>
    rw [readOptions_congr _ h h' _ hs]

theorem GoCall.sent_of_same_memory (c c' : Client) (ha : c.appID = c'.appID)
    (hb : c.baseURL = c'.baseURL) (hd : c.doer.isSome = c'.doer.isSome) (h h' : Heap)
    (k : GoCall) (hs : ∀ a ∈ k.slices, h a = h' a) : k.sent c h = k.sent c' h' := by
  unfold GoCall.sent
  rw [GoCall.read_congr h h' k hs]
  cases k.read h' with
  | none => rfl
  | some k' => exact Call.sent_congr c c' ha hb hd k'

theorem GoCall.slices_sameOptions (k k' : GoCall) (hk : k.sameOptions k') :
    k.slices = k'.slices := by
  cases k <;> cases k' <;> simp only [GoCall.sameOptions] at hk <;>
    first
    | exact absurd hk id
    | (subst hk; rfl)

theorem GoCall.read_sameOptions (h : Heap) (k k' : GoCall) (hk : k.sameOptions k')
    (kc kc' : Call) (hr : k.read h = some kc) (hr' : k'.read h = some kc') :
    kc.sameOptions kc' := by
  cases k with
  | Latest json ctx opts =>
    cases k' with
    | Latest json' ctx' opts' =>
      simp only [GoCall.sameOptions] at hk
      subst hk
      simp only [GoCall.read, Option.map_eq_some'] at hr hr'
      obtain ⟨os, hos, rfl⟩ := hr
      obtain ⟨os', hos', rfl⟩ := hr'
      rw [hos] at hos'
      exact Option.some.inj hos'
    | _ => simp [GoCall.sameOptions] at hk
  | Historical json ctx opts =>
    cases k' with
    | Historical json' ctx' opts' =>
      simp only [GoCall.sameOptions] at hk
      subst hk
      simp only [GoCall.read, Option.map_eq_some'] at hr hr'
      obtain ⟨os, hos, rfl⟩ := hr
      obtain ⟨os', hos', rfl⟩ := hr'
      rw [hos] at hos'
      exact Option.some.inj hos'
    | _ => simp [GoCall.sameOptions] at hk
  | Currencies json ctx opts =>
    cases k' with
    | Currencies json' ctx' opts' =>
      simp only [GoCall.sameOptions] at hk
      subst hk
      simp only [GoCall.read, Option.map_eq_some'] at hr hr'
      obtain ⟨os, hos, rfl⟩ := hr
      obtain ⟨os', hos', rfl⟩ := hr'
      rw [hos] at hos'
      exact Option.some.inj hos'
    | _ => simp [GoCall.sameOptions] at hk
  | TimeSeries json ctx opts =>
    cases k' with
    | TimeSeries json' ctx' opts' =>
      simp only [GoCall.sameOptions] at hk
      subst hk
      simp only [GoCall.read, Option.map_eq_some'] at hr hr'
      obtain ⟨os, hos, rfl⟩ := hr
      obtain ⟨os', hos', rfl⟩ := hr'
      rw [hos] at hos'
      exact Option.some.inj hos'
    | _ => simp [GoCall.sameOptions] at hk
  | Convert json ctx opts =>
    cases k' with
    | Convert json' ctx' opts' =>
      simp only [GoCall.sameOptions] at hk
      subst hk
      simp only [GoCall.read, Option.map_eq_some'] at hr hr'
      obtain ⟨os, hos, rfl⟩ := hr
      obtain ⟨os', hos', rfl⟩ := hr'
      rw [hos] at hos'
      exact Option.some.inj hos'
    | _ => simp [GoCall.sameOptions] at hk
  | OpenHighLowClose json ctx opts =>
    cases k' with
    | OpenHighLowClose json' ctx' opts' =>
      simp only [GoCall.sameOptions] at hk
      subst hk
      simp only [GoCall.read, Option.map_eq_some'] at hr hr'
      obtain ⟨os, hos, rfl⟩ := hr
      obtain ⟨os', hos', rfl⟩ := hr'
      rw [hos] at hos'
      exact Option.some.inj hos'
    | _ => simp [GoCall.sameOptions] at hk
  | Usage json ctx opts =>
    cases k' with
    | Usage json' ctx' opts' =>
      simp only [GoCall.sameOptions] at hk
      subst hk
      simp only [GoCall.read, Option.map_eq_some'] at hr hr'
      obtain ⟨os, hos, rfl⟩ := hr
      obtain ⟨os', hos', rfl⟩ := hr'
      rw [hos] at hos'
      exact Option.some.inj hos'
    | _ => simp [GoCall.sameOptions] at hk

theorem GoCall.sent_sameOptions (c c' : Client) (ha : c.appID = c'.appID)
    (hb : c.baseURL = c'.baseURL) (h : Heap) (k k' : GoCall) (hk : k.sameOptions k')
    (r r' : Request) (hs : k.sent c h = some r) (hs' : k'.sent c' h = some r') : r = r' := by
  unfold GoCall.sent at hs hs'
  cases hr : k.read h with
  | none => simp [hr] at hs
  | some kc =>
    cases hr' : k'.read h with
    | none => simp [hr'] at hs'
    | some kc' =>
      simp only [hr] at hs
      simp only [hr'] at hs'
      exact Call.request_sameOptions c c' ha hb kc kc'
        (GoCall.read_sameOptions h k k' hk kc kc' hr hr') r r'
        (Call.request_of_sent c kc r hs) (Call.request_of_sent c' kc' r' hs')

theorem GoCall.returns_iff (c : Client) (d : Doer) (hd : c.doer = some d) (h : Heap)
    (k : GoCall)
    (hbody : ∀ k' req, k.read h = some k' → k'.request c = .ok req →
      ∃ code body err, d.Do req = (some ⟨code, some body⟩, err)) :
    k.returns c h ↔ k.hasNil = false := by
  unfold GoCall.returns
  cases hr : k.read h with
  | none =>
    have := (GoCall.read_none_iff h k).mp hr
    simp [this]
  | some k' =>
    have hn : k.hasNil ≠ true := fun hn => by
      rw [(GoCall.read_none_iff h k).mpr hn] at hr
      cases hr
    simp only [Bool.not_eq_true] at hn
    simp only [hn, iff_true]
    exact Call.returns_of_body c d hd k' (fun req hq => hbody k' req hr hq)

/-! ## Steps in a world -/

theorem GoCall.perform_frame {σ : Type} (t : Transport σ) (w : World σ) (k : GoCall) :
    (k.perform t w).1.client = w.client ∧ (k.perform t w).1.heap = w.heap ∧
      (k.perform t w).2 = k.sent (w.clientNow t) w.heap :=
  ⟨rfl, rfl, rfl⟩

theorem session_append {σ : Type} (t : Transport σ) (w : World σ) (xs ys : List Step) :
    (session t w (xs ++ ys)).1 = (session t (session t w xs).1 ys).1 ∧
      (session t w (xs ++ ys)).2 = (session t w xs).2 ++ (session t (session t w xs).1 ys).2 := by
  induction xs generalizing w with
  | nil => exact ⟨rfl, rfl⟩
  | cons s ss ih =>
    exact ⟨(ih (s.perform t w).1).1,
      congrArg (fun rest => (s.perform t w).2 :: rest) (ih (s.perform t w).1).2⟩

theorem session_frame {σ : Type} (t : Transport σ) (w : World σ) (ss : List Step) :
    (session t w ss).1.client = w.client ∧
      ∀ a, (∀ s ∈ ss, s.writes a = false) → (session t w ss).1.heap a = w.heap a := by
  induction ss generalizing w with
  | nil => exact ⟨rfl, fun _ _ => rfl⟩
  | cons s ss ih =>
    simp only [session]
    cases s with
    | call k =>
      have hf := GoCall.perform_frame t w k
      refine ⟨by rw [(ih _).1]; exact hf.1, fun a ha => ?_⟩
      rw [(ih _).2 a (fun s hs => ha s (List.mem_cons_of_mem _ hs))]
      simp only [Step.perform]
      rw [hf.2.1]
    | write b l =>
      refine ⟨by rw [(ih _).1]; rfl, fun a ha => ?_⟩
      rw [(ih _).2 a (fun s hs => ha s (List.mem_cons_of_mem _ hs))]
      have hb := ha (.write b l) (List.mem_cons_self _ _)
      simp only [Step.writes, decide_eq_false_iff_not] at hb
      have hab : ¬ a = b := fun e => hb e.symm
      simp [Step.perform, hab]

theorem session_same_request {σ : Type} (t : Transport σ) (w : World σ)
    (pre mid : List Step) (ki kj : GoCall) (hk : ki.sameOptions kj)
    (hw : ∀ a ∈ ki.slices, ∀ s ∈ mid, s.writes a = false) (ri rj : Request)
    (hi : (ki.perform t (session t w pre).1).2 = some ri)
    (hj : (kj.perform t (session t w (pre ++ .call ki :: mid)).1).2 = some rj) :
    ri = rj := by
  rw [(GoCall.perform_frame t _ ki).2.2] at hi
  rw [(GoCall.perform_frame t _ kj).2.2] at hj
  have hworld : (session t w (pre ++ .call ki :: mid)).1 =
      (session t (ki.perform t (session t w pre).1).1 mid).1 := by
    rw [(session_append t w pre _).1]
    rfl
  have hf := session_frame t (ki.perform t (session t w pre).1).1 mid
  have hp := GoCall.perform_frame t (session t w pre).1 ki
  have hclient : (session t w (pre ++ .call ki :: mid)).1.client = (session t w pre).1.client := by
    rw [hworld, hf.1, hp.1]
  have hheap : ∀ a ∈ kj.slices, (session t w (pre ++ .call ki :: mid)).1.heap a =
      (session t w pre).1.heap a := by
    intro a ha
    rw [← GoCall.slices_sameOptions ki kj hk] at ha
    rw [hworld, hf.2 a (hw a ha), hp.2.1]
  rw [GoCall.sent_of_same_memory _ ((session t w pre).1.clientNow t)
    (by simp [World.clientNow, hclient])
    (by simp [World.clientNow, hclient]) (by simp [World.clientNow, hclient]) _
    (session t w pre).1.heap kj hheap] at hj
  exact GoCall.sent_sameOptions _ _ rfl rfl _ ki kj hk ri rj hi hj

theorem timeSeries_dates_values (c : Client) (r : timeSeriesParams) (p : GoString) :
    (baseRequest p (queryOf (timeSeriesPairs c r))).values (bytes "start") =
      [r.startDate.formatDate] ∧
    (baseRequest p (queryOf (timeSeriesPairs c r))).values (bytes "end") =
      [r.endDate.formatDate] := by
  have hne : timeSeriesPairs c r ≠ [] := by simp [timeSeriesPairs]
  rw [values_baseRequest _ _ _ hne, values_baseRequest _ _ _ hne]
  by_cases hb : r.baseCurrency = [] <;> by_cases hs : r.destinationCurrencies = [] <;>
    simp [timeSeriesPairs, hb, hs, QueryEscape_key_app_id, QueryEscape_key_base,
      QueryEscape_key_prettyprint, QueryEscape_key_show_alternative, QueryEscape_key_symbols,
      QueryEscape_key_start, QueryEscape_key_end, QueryEscape_formatDate]

/-! # The claims -/

/-- C1 (defect of the code): when the transport returns an error without a response
object, which is how `http.Client.Do` reports a failure, none of the seven endpoint
methods returns that error: the deferred `res.Body.Close()` dereferences the nil response
before the error is looked at and the call ends in a run-time panic. -/
theorem C1_transport_error_without_response_panics (e : GoError)
    (jl : Decoder LatestRatesResponse) (jh : Decoder HistoricalRatesResponse)
    (jc : Decoder (GoMap GoString)) (jt : Decoder TimeSeriesResponse)
    (jv : Decoder ConversionResponse) (jo : Decoder OHLCResponse) (ju : Decoder UsageResponse) :
    (Client.Latest jl (New [.WithAppID (bytes "test"), .WithDoer (failingDoer e)])
      .live []).outcome = .panicked ∧
    (Client.Historical jh (New [.WithAppID (bytes "test"), .WithDoer (failingDoer e)])
      .live []).outcome = .panicked ∧
    (Client.Currencies jc (New [.WithAppID (bytes "test"), .WithDoer (failingDoer e)])
      .live []).outcome = .panicked ∧
    (Client.TimeSeries jt (New [.WithAppID (bytes "test"), .WithDoer (failingDoer e)])
      .live []).outcome = .panicked ∧
    (Client.Convert jv (New [.WithAppID (bytes "test"), .WithDoer (failingDoer e)])
      .live []).outcome = .panicked ∧
    (Client.OpenHighLowClose jo (New [.WithAppID (bytes "test"), .WithDoer (failingDoer e)])
      .live []).outcome = .panicked ∧
    (Client.Usage ju (New [.WithAppID (bytes "test"), .WithDoer (failingDoer e)])
      .live []).outcome = .panicked :=
  ⟨rfl, rfl, rfl, rfl, rfl, rfl, rfl⟩

/-- C2: in every endpoint method, when the transport returns no error and a response with
a body whose status code is not 200, the call returns the zero result and the error
`status received: <code>: failed to receive successful response`, which matches
`ErrBadResponse` and in which `<code>` is the decimal text of the status code (`403` for
403); whatever the body holds and whatever the decoder would make of it, the body is closed
without being decoded. -/
theorem C2_status_other_than_200_is_bad_response (c : Client) (d : Doer)
    (hd : c.doer = some d) (ctx : Context) (code : Int) (body : Body) (hcode : code ≠ 200) :
    errorsIs (errStatusReceived code) ErrBadResponse = true ∧
    (errStatusReceived code).Error =
      some (bytes "status received: " ++ fmtInt code ++
        bytes ": failed to receive successful response") ∧
    intValue (fmtInt code) = code ∧
    fmtInt 403 = bytes "403" ∧
    (∀ json opts req, c.latestRequest ctx opts = .ok req →
      d.Do req = (some ⟨code, some body⟩, none) →
      c.Latest json ctx opts =
        ⟨[.Do req, .Close], .returned {} (some (errStatusReceived code))⟩) ∧
    (∀ json opts req, c.historicalRequest ctx opts = .ok req →
      d.Do req = (some ⟨code, some body⟩, none) →
      c.Historical json ctx opts =
        ⟨[.Do req, .Close], .returned {} (some (errStatusReceived code))⟩) ∧
    (∀ json opts req, c.currenciesRequest ctx opts = .ok req →
      d.Do req = (some ⟨code, some body⟩, none) →
      c.Currencies json ctx opts =
        ⟨[.Do req, .Close], .returned {} (some (errStatusReceived code))⟩) ∧
    (∀ json opts req, c.timeSeriesRequest ctx opts = .ok req →
      d.Do req = (some ⟨code, some body⟩, none) →
      c.TimeSeries json ctx opts =
        ⟨[.Do req, .Close], .returned {} (some (errStatusReceived code))⟩) ∧
    (∀ json opts req, c.convertRequest ctx opts = .ok req →
      d.Do req = (some ⟨code, some body⟩, none) →
      c.Convert json ctx opts =
        ⟨[.Do req, .Close], .returned {} (some (errStatusReceived code))⟩) ∧
    (∀ json opts req, c.ohlcRequest ctx opts = .ok req →
      d.Do req = (some ⟨code, some body⟩, none) →
      c.OpenHighLowClose json ctx opts =
        ⟨[.Do req, .Close], .returned {} (some (errStatusReceived code))⟩) ∧
    (∀ json opts req, c.usageRequest ctx opts = .ok req →
      d.Do req = (some ⟨code, some body⟩, none) →
      c.Usage json ctx opts =
        ⟨[.Do req, .Close], .returned {} (some (errStatusReceived code))⟩) := by
  refine ⟨errStatusReceived_is code, errStatusReceived_text code, fmtInt_value code, by decide,
    ?_, ?_, ?_, ?_, ?_, ?_, ?_⟩
  · intro json opts req hreq hdo
    simp only [Client.Latest, hreq, hd, finish]
    exact exchange_bad_status d req _ _ code body hdo hcode
  · intro json opts req hreq hdo
    simp only [Client.Historical, hreq, hd, finish]
    exact exchange_bad_status d req _ _ code body hdo hcode
  · intro json opts req hreq hdo
    simp only [Client.Currencies, hreq, hd, finish]
    exact exchange_bad_status d req _ _ code body hdo hcode
  · intro json opts req hreq hdo
    simp only [Client.TimeSeries, hreq, hd, finish]
    exact exchange_bad_status d req _ _ code body hdo hcode
  · intro json opts req hreq hdo
    simp only [Client.Convert, hreq, hd, finish]
    exact exchange_bad_status d req _ _ code body hdo hcode
  · intro json opts req hreq hdo
    simp only [Client.OpenHighLowClose, hreq, hd, finish]
    exact exchange_bad_status d req _ _ code body hdo hcode
  · intro json opts req hreq hdo
    simp only [Client.Usage, hreq, hd, finish]
    exact exchange_bad_status d req _ _ code body hdo hcode

/-- Witness of C2: a client whose transport answers 403 with a body the decoder would
accept gets the bad-response error from `Latest` and the body is not decoded. -/
theorem C2_witness :
    (403 : Int) ≠ 200 ∧
    Client.Latest (fun _ z => (z, none))
        (New [.WithAppID (bytes "test"), .WithDoer (answeringDoer 403 (bytes "ok"))]) .live [] =
      ⟨[.Do (baseRequest (bytes "latest.json")
            (bytes "app_id=test&prettyprint=false&show_alternative=false")), .Close],
        .returned {} (some (errStatusReceived 403))⟩ :=
  ⟨by decide,
    (C2_status_other_than_200_is_bad_response
      (New [.WithAppID (bytes "test"), .WithDoer (answeringDoer 403 (bytes "ok"))])
      (answeringDoer 403 (bytes "ok")) rfl .live 403 (bytes "ok") (by decide)).2.2.2.2.1
      (fun _ z => (z, none)) [] _ rfl rfl⟩

/-- C3: in every endpoint method, when the transport returns no error, the status code is
200 and the decoder succeeds on the body, the call returns the value the decoder produced
and a nil error (for `Currencies`, the response whose `Currencies` field is the decoded
map), after decoding once and closing the body. -/
theorem C3_decoded_value_is_returned (c : Client) (d : Doer) (hd : c.doer = some d)
    (ctx : Context) (body : Body) :
    (∀ json opts req val, c.latestRequest ctx opts = .ok req →
      d.Do req = (some ⟨200, some body⟩, none) → json body {} = (val, none) →
      c.Latest json ctx opts = ⟨[.Do req, .Decode, .Close], .returned val none⟩) ∧
    (∀ json opts req val, c.historicalRequest ctx opts = .ok req →
      d.Do req = (some ⟨200, some body⟩, none) → json body {} = (val, none) →
      c.Historical json ctx opts = ⟨[.Do req, .Decode, .Close], .returned val none⟩) ∧
    (∀ json opts req val, c.currenciesRequest ctx opts = .ok req →
      d.Do req = (some ⟨200, some body⟩, none) → json body none = (val, none) →
      c.Currencies json ctx opts =
        ⟨[.Do req, .Decode, .Close], .returned { Currencies := val } none⟩) ∧
    (∀ json opts req val, c.timeSeriesRequest ctx opts = .ok req →
      d.Do req = (some ⟨200, some body⟩, none) → json body {} = (val, none) →
      c.TimeSeries json ctx opts = ⟨[.Do req, .Decode, .Close], .returned val none⟩) ∧
    (∀ json opts req val, c.convertRequest ctx opts = .ok req →
      d.Do req = (some ⟨200, some body⟩, none) → json body {} = (val, none) →
      c.Convert json ctx opts = ⟨[.Do req, .Decode, .Close], .returned val none⟩) ∧
    (∀ json opts req val, c.ohlcRequest ctx opts = .ok req →
      d.Do req = (some ⟨200, some body⟩, none) → json body {} = (val, none) →
      c.OpenHighLowClose json ctx opts = ⟨[.Do req, .Decode, .Close], .returned val none⟩) ∧
    (∀ json opts req val, c.usageRequest ctx opts = .ok req →
      d.Do req = (some ⟨200, some body⟩, none) → json body {} = (val, none) →
      c.Usage json ctx opts = ⟨[.Do req, .Decode, .Close], .returned val none⟩) := by
  refine ⟨?_, ?_, ?_, ?_, ?_, ?_, ?_⟩
  · intro json opts req val hreq hdo hdec
    simp only [Client.Latest, hreq, hd, finish]
    exact exchange_decoded d req _ _ body val hdo hdec
  · intro json opts req val hreq hdo hdec
    simp only [Client.Historical, hreq, hd, finish]
    exact exchange_decoded d req _ _ body val hdo hdec
  · intro json opts req val hreq hdo hdec
    simp only [Client.Currencies, hreq, hd, finish]
    exact exchange_decoded d req _ _ body _ hdo (by simp [hdec])
  · intro json opts req val hreq hdo hdec
    simp only [Client.TimeSeries, hreq, hd, finish]
    exact exchange_decoded d req _ _ body val hdo hdec
  · intro json opts req val hreq hdo hdec
    simp only [Client.Convert, hreq, hd, finish]
    exact exchange_decoded d req _ _ body val hdo hdec
  · intro json opts req val hreq hdo hdec
    simp only [Client.OpenHighLowClose, hreq, hd, finish]
    exact exchange_decoded d req _ _ body val hdo hdec
  · intro json opts req val hreq hdo hdec
    simp only [Client.Usage, hreq, hd, finish]
    exact exchange_decoded d req _ _ body val hdo hdec

/-- Witness of C3: a client whose transport answers 200, with a decoder that reads the
currency map `EUR: Euro`, gets that map from `Currencies` with a nil error. -/
theorem C3_witness :
    Client.Currencies (fun _ _ => (some [(bytes "EUR", bytes "Euro")], none))
        (New [.WithAppID (bytes "test"), .WithDoer (answeringDoer 200 (bytes "body"))])
        .live [] =
      ⟨[.Do (baseRequest (bytes "currencies.json") (bytes
            "app_id=test&prettyprint=false&show_alternative=false&show_inactive=false")),
          .Decode, .Close],
        .returned { Currencies := some [(bytes "EUR", bytes "Euro")] } none⟩ :=
  (C3_decoded_value_is_returned
    (New [.WithAppID (bytes "test"), .WithDoer (answeringDoer 200 (bytes "body"))])
    (answeringDoer 200 (bytes "body")) rfl .live (bytes "body")).2.2.1
    (fun _ _ => (some [(bytes "EUR", bytes "Euro")], none)) [] _ _ rfl rfl rfl

/-- Counterexample to C4 as stated: with no option at all the dates of a TimeSeries request
and the start time and period of an OpenHighLowClose request hold their zero values, and
the requests handed to the transport still have the keys `start`, `end`, `start_date` and
`period` (the URLs are those the tests of the repository expect). -/
theorem C4_counterexample :
    ((timeSeriesParamsOf []).startDate = Time.zero ∧
      (timeSeriesParamsOf []).endDate = Time.zero ∧
      (Client.TimeSeries (fun _ z => (z, none)) testClient .live []).sent =
        some (baseRequest (bytes "time-series.json") (bytes ("app_id=test&end=0001-01-01" ++
          "&prettyprint=false&show_alternative=false&start=0001-01-01"))) ∧
      (baseRequest (bytes "time-series.json") (bytes ("app_id=test&end=0001-01-01" ++
          "&prettyprint=false&show_alternative=false&start=0001-01-01"))).hasKey
        (bytes "start") ∧
      (baseRequest (bytes "time-series.json") (bytes ("app_id=test&end=0001-01-01" ++
          "&prettyprint=false&show_alternative=false&start=0001-01-01"))).hasKey
        (bytes "end")) ∧
    ((ohlcParamsOf []).startTime = Time.zero ∧
      (ohlcParamsOf []).period = [] ∧
      (Client.OpenHighLowClose (fun _ z => (z, none)) testClient .live []).sent =
        some (baseRequest (bytes "ohlc.json") (bytes ("app_id=test&period=" ++
          "&prettyprint=false&start_date=0001-01-01T00%3A00%3A00Z"))) ∧
      (baseRequest (bytes "ohlc.json") (bytes ("app_id=test&period=" ++
          "&prettyprint=false&start_date=0001-01-01T00%3A00%3A00Z"))).hasKey
        (bytes "start_date") ∧
      (baseRequest (bytes "ohlc.json") (bytes ("app_id=test&period=" ++
          "&prettyprint=false&start_date=0001-01-01T00%3A00%3A00Z"))).hasKey
        (bytes "period")) := by
  refine ⟨⟨rfl, rfl, ?_, ?_, ?_⟩, ⟨rfl, rfl, ?_, ?_, ?_⟩⟩ <;> decide

/-- C4, amended: for a client made by `New` (base URL `basePath`) and a live context, every
endpoint method builds its request, and in it `base` and `symbols` are present exactly
when their value is not empty (then with that value), `start` and `end` of TimeSeries and
`start_date` and `period` of OpenHighLowClose are present whatever their value, and every
boolean flag of the endpoint is present as `true` or `false`. -/
theorem C4_optional_texts_fixed_dates_and_flags (c : Client) (hc : c.baseURL = basePath) :
    (∀ opts, ∃ req, c.latestRequest .live opts = .ok req ∧
      req.optional (bytes "base") (latestParamsOf opts).baseCurrency ∧
      req.optional (bytes "symbols") (latestParamsOf opts).destinationCurrencies ∧
      req.flag (bytes "prettyprint") (latestParamsOf opts).prettyPrint ∧
      req.flag (bytes "show_alternative") (latestParamsOf opts).showAlternative) ∧
    (∀ opts, ∃ req, c.historicalRequest .live opts = .ok req ∧
      req.optional (bytes "base") (historicalParamsOf opts).baseCurrency ∧
      req.optional (bytes "symbols") (historicalParamsOf opts).destinationCurrencies ∧
      req.flag (bytes "prettyprint") (historicalParamsOf opts).prettyPrint ∧
      req.flag (bytes "show_alternative") (historicalParamsOf opts).showAlternative) ∧
    (∀ opts, ∃ req, c.currenciesRequest .live opts = .ok req ∧
      req.flag (bytes "show_inactive") (currenciesParamsOf opts).showInactive ∧
      req.flag (bytes "prettyprint") (currenciesParamsOf opts).prettyPrint ∧
      req.flag (bytes "show_alternative") (currenciesParamsOf opts).showAlternative) ∧
    (∀ opts, ∃ req, c.timeSeriesRequest .live opts = .ok req ∧
      req.optional (bytes "base") (timeSeriesParamsOf opts).baseCurrency ∧
      req.optional (bytes "symbols") (timeSeriesParamsOf opts).destinationCurrencies ∧
      req.flag (bytes "prettyprint") (timeSeriesParamsOf opts).prettyPrint ∧
      req.flag (bytes "show_alternative") (timeSeriesParamsOf opts).showAlternative ∧
      req.carries (bytes "start") (timeSeriesParamsOf opts).startDate.formatDate ∧
      req.carries (bytes "end") (timeSeriesParamsOf opts).endDate.formatDate) ∧
    (∀ opts req, c.convertRequest .live opts = .ok req →
      req.flag (bytes "prettyprint") (convertParamsOf opts).prettyPrint) ∧
    (∀ opts, ∃ req, c.ohlcRequest .live opts = .ok req ∧
      req.optional (bytes "base") (ohlcParamsOf opts).baseCurrency ∧
      req.optional (bytes "symbols") (ohlcParamsOf opts).destinationCurrencies ∧
      req.flag (bytes "prettyprint") (ohlcParamsOf opts).prettyPrint ∧
      req.carries (bytes "start_date") (ohlcParamsOf opts).startTime.formatRFC3339 ∧
      req.carries (bytes "period") (ohlcParamsOf opts).period) ∧
    (∀ opts, ∃ req, c.usageRequest .live opts = .ok req ∧
      req.flag (bytes "prettyprint") (usageParamsOf opts).prettyPrint) := by
  refine ⟨?_, ?_, ?_, ?_, ?_, ?_, ?_⟩
  · intro opts
    exact ⟨_, latestRequest_eq c hc opts, latestPairs_facts c _ _⟩
  · intro opts
    exact ⟨_, historicalRequest_eq c hc opts, historicalPairs_facts c _ _⟩
  · intro opts
    exact ⟨_, currenciesRequest_eq c hc opts, currenciesPairs_facts c _ _⟩
  · intro opts
    exact ⟨_, timeSeriesRequest_eq c hc opts, timeSeriesPairs_facts c _ _⟩
  · intro opts req h
    have := (convertRequest_carries c .live opts req h).2
    rw [FormatBool_eq] at this
    exact this
  · intro opts
    exact ⟨_, ohlcRequest_eq c hc opts, ohlcPairs_facts c _ _⟩
  · intro opts
    refine ⟨_, usageRequest_eq c hc opts, ?_⟩
    apply flag_of_pairs
    simp [usagePairs]

/-- Witness of C4: the client of the tests has the base URL `basePath`; its Latest request
for the base currency `USD` carries `base=USD` and has no `symbols` key. -/
theorem C4_witness :
    testClient.baseURL = basePath ∧
    ∃ req, testClient.latestRequest .live [.LatestForBaseCurrency (bytes "USD")] = .ok req ∧
      req.carries (bytes "base") (bytes "USD") ∧ ¬ req.hasKey (bytes "symbols") :=
  ⟨rfl,
    match (C4_optional_texts_fixed_dates_and_flags testClient rfl).1
      [.LatestForBaseCurrency (bytes "USD")] with
    | ⟨req, h, hb, hs, _⟩ => ⟨req, h, hb, hs⟩⟩

/-- C5: in every endpoint method, for every client, context and option list, the request
handed to the transport carries `app_id` with the API key of the client and `prettyprint`
with the text `true` when the `prettyPrint` flag left by the options is true and `false`
otherwise; it is `false` when no option of the list sets the flag. -/
theorem C5_app_id_and_prettyprint_on_every_request (c : Client) (ctx : Context) :
    (∀ json opts req, (c.Latest json ctx opts).sent = some req →
      req.carries (bytes "app_id") c.appID ∧
      req.flag (bytes "prettyprint") (latestParamsOf opts).prettyPrint ∧
      ((∀ o ∈ opts, LatestOption.setsPrettyPrint o = none) →
        req.carries (bytes "prettyprint") (bytes "false"))) ∧
    (∀ json opts req, (c.Historical json ctx opts).sent = some req →
      req.carries (bytes "app_id") c.appID ∧
      req.flag (bytes "prettyprint") (historicalParamsOf opts).prettyPrint ∧
      ((∀ o ∈ opts, HistoricalOption.setsPrettyPrint o = none) →
        req.carries (bytes "prettyprint") (bytes "false"))) ∧
    (∀ json opts req, (c.Currencies json ctx opts).sent = some req →
      req.carries (bytes "app_id") c.appID ∧
      req.flag (bytes "prettyprint") (currenciesParamsOf opts).prettyPrint ∧
      ((∀ o ∈ opts, CurrenciesOption.setsPrettyPrint o = none) →
        req.carries (bytes "prettyprint") (bytes "false"))) ∧
    (∀ json opts req, (c.TimeSeries json ctx opts).sent = some req →
      req.carries (bytes "app_id") c.appID ∧
      req.flag (bytes "prettyprint") (timeSeriesParamsOf opts).prettyPrint ∧
      ((∀ o ∈ opts, TimeSeriesOption.setsPrettyPrint o = none) →
        req.carries (bytes "prettyprint") (bytes "false"))) ∧
    (∀ json opts req, (c.Convert json ctx opts).sent = some req →
      req.carries (bytes "app_id") c.appID ∧
      req.flag (bytes "prettyprint") (convertParamsOf opts).prettyPrint ∧
      ((∀ o ∈ opts, ConvertOption.setsPrettyPrint o = none) →
        req.carries (bytes "prettyprint") (bytes "false"))) ∧
    (∀ json opts req, (c.OpenHighLowClose json ctx opts).sent = some req →
      req.carries (bytes "app_id") c.appID ∧
      req.flag (bytes "prettyprint") (ohlcParamsOf opts).prettyPrint ∧
      ((∀ o ∈ opts, OHLCOption.setsPrettyPrint o = none) →
        req.carries (bytes "prettyprint") (bytes "false"))) ∧
    (∀ json opts req, (c.Usage json ctx opts).sent = some req →
      req.carries (bytes "app_id") c.appID ∧
      req.flag (bytes "prettyprint") (usageParamsOf opts).prettyPrint ∧
      ((∀ o ∈ opts, UsageOption.setsPrettyPrint o = none) →
        req.carries (bytes "prettyprint") (bytes "false"))) := by
  refine ⟨?_, ?_, ?_, ?_, ?_, ?_, ?_⟩
  · intro json opts req h
    have hb := sent_finish_some _ _ _ _ req h
    have hc := (latestRequest_carries c ctx opts req hb)
    rw [FormatBool_eq] at hc
    refine ⟨hc.1, hc.2, fun hn => ?_⟩
    have := hc.2
    rw [latest_prettyPrint_unset opts hn] at this
    exact this
  · intro json opts req h
    have hb := sent_finish_some _ _ _ _ req h
    have hc := (historicalRequest_carries c ctx opts req hb)
    rw [FormatBool_eq] at hc
    refine ⟨hc.1, hc.2, fun hn => ?_⟩
    have := hc.2
    rw [historical_prettyPrint_unset opts hn] at this
    exact this
  · intro json opts req h
    have hb := sent_finish_some _ _ _ _ req h
    have hc := (currenciesRequest_carries c ctx opts req hb)
    rw [FormatBool_eq] at hc
    refine ⟨hc.1, hc.2, fun hn => ?_⟩
    have := hc.2
    rw [currencies_prettyPrint_unset opts hn] at this
    exact this
  · intro json opts req h
    have hb := sent_finish_some _ _ _ _ req h
    have hc := (timeSeriesRequest_carries c ctx opts req hb).1
    rw [FormatBool_eq] at hc
    refine ⟨hc.1, hc.2, fun hn => ?_⟩
    have := hc.2
    rw [timeSeries_prettyPrint_unset opts hn] at this
    exact this
  · intro json opts req h
    have hb := sent_finish_some _ _ _ _ req h
    have hc := (convertRequest_carries c ctx opts req hb)
    rw [FormatBool_eq] at hc
    refine ⟨hc.1, hc.2, fun hn => ?_⟩
    have := hc.2
    rw [convert_prettyPrint_unset opts hn] at this
    exact this
  · intro json opts req h
    have hb := sent_finish_some _ _ _ _ req h
    have hc := (ohlcRequest_carries c ctx opts req hb).1
    rw [FormatBool_eq] at hc
    refine ⟨hc.1, hc.2, fun hn => ?_⟩
    have := hc.2
    rw [ohlc_prettyPrint_unset opts hn] at this
    exact this
  · intro json opts req h
    have hb := sent_finish_some _ _ _ _ req h
    have hc := (usageRequest_carries c ctx opts req hb)
    rw [FormatBool_eq] at hc
    refine ⟨hc.1, hc.2, fun hn => ?_⟩
    have := hc.2
    rw [usage_prettyPrint_unset opts hn] at this
    exact this

/-- Witness of C5: the Latest call of the test client with no option hands over a request
that carries `app_id=test` and `prettyprint=false`. -/
theorem C5_witness :
    ∃ req, (Client.Latest (fun _ z => (z, none)) testClient .live []).sent = some req ∧
      req.carries (bytes "app_id") (bytes "test") ∧
      req.carries (bytes "prettyprint") (bytes "false") :=
  ⟨_, rfl,
    ((C5_app_id_and_prettyprint_on_every_request testClient .live).1
      (fun _ z => (z, none)) [] _ rfl).1,
    ((C5_app_id_and_prettyprint_on_every_request testClient .live).1
      (fun _ z => (z, none)) [] _ rfl).2.1⟩

/-- C6: for every endpoint the parameter record starts as the zero value and the options
are applied in the order supplied (the record after `opts` followed by `o` is `o` applied
to the record after `opts`); after any option list every field holds the value given by
the last option of the list that sets that field, or its zero value when none does. -/
theorem C6_last_option_wins :
    latestParamsOf [] = {} ∧
    (∀ opts o, latestParamsOf (opts ++ [o]) = o.apply (latestParamsOf opts)) ∧
    (∀ opts, (latestParamsOf opts).baseCurrency =
      (lastSet LatestOption.setsBaseCurrency opts).getD []) ∧
    (∀ opts, (latestParamsOf opts).destinationCurrencies =
      (lastSet LatestOption.setsDestinationCurrencies opts).getD []) ∧
    (∀ opts, (latestParamsOf opts).showAlternative =
      (lastSet LatestOption.setsShowAlternative opts).getD false) ∧
    (∀ opts, (latestParamsOf opts).prettyPrint =
      (lastSet LatestOption.setsPrettyPrint opts).getD false) ∧
    historicalParamsOf [] = {} ∧
    (∀ opts o, historicalParamsOf (opts ++ [o]) = o.apply (historicalParamsOf opts)) ∧
    (∀ opts, (historicalParamsOf opts).date =
      (lastSet HistoricalOption.setsDate opts).getD Time.zero) ∧
    (∀ opts, (historicalParamsOf opts).baseCurrency =
      (lastSet HistoricalOption.setsBaseCurrency opts).getD []) ∧
    (∀ opts, (historicalParamsOf opts).destinationCurrencies =
      (lastSet HistoricalOption.setsDestinationCurrencies opts).getD []) ∧
    (∀ opts, (historicalParamsOf opts).showAlternative =
      (lastSet HistoricalOption.setsShowAlternative opts).getD false) ∧
    (∀ opts, (historicalParamsOf opts).prettyPrint =
      (lastSet HistoricalOption.setsPrettyPrint opts).getD false) ∧
    currenciesParamsOf [] = {} ∧
    (∀ opts o, currenciesParamsOf (opts ++ [o]) = o.apply (currenciesParamsOf opts)) ∧
    (∀ opts, (currenciesParamsOf opts).showAlternative =
      (lastSet CurrenciesOption.setsShowAlternative opts).getD false) ∧
    (∀ opts, (currenciesParamsOf opts).showInactive =
      (lastSet CurrenciesOption.setsShowInactive opts).getD false) ∧
    (∀ opts, (currenciesParamsOf opts).prettyPrint =
      (lastSet CurrenciesOption.setsPrettyPrint opts).getD false) ∧
    timeSeriesParamsOf [] = {} ∧
    (∀ opts o, timeSeriesParamsOf (opts ++ [o]) = o.apply (timeSeriesParamsOf opts)) ∧
    (∀ opts, (timeSeriesParamsOf opts).startDate =
      (lastSet TimeSeriesOption.setsStartDate opts).getD Time.zero) ∧
    (∀ opts, (timeSeriesParamsOf opts).endDate =
      (lastSet TimeSeriesOption.setsEndDate opts).getD Time.zero) ∧
    (∀ opts, (timeSeriesParamsOf opts).baseCurrency =
      (lastSet TimeSeriesOption.setsBaseCurrency opts).getD []) ∧
    (∀ opts, (timeSeriesParamsOf opts).destinationCurrencies =
      (lastSet TimeSeriesOption.setsDestinationCurrencies opts).getD []) ∧
    (∀ opts, (timeSeriesParamsOf opts).showAlternative =
      (lastSet TimeSeriesOption.setsShowAlternative opts).getD false) ∧
    (∀ opts, (timeSeriesParamsOf opts).prettyPrint =
      (lastSet TimeSeriesOption.setsPrettyPrint opts).getD false) ∧
    convertParamsOf [] = {} ∧
    (∀ opts o, convertParamsOf (opts ++ [o]) = o.apply (convertParamsOf opts)) ∧
    (∀ opts, (convertParamsOf opts).value =
      (lastSet ConvertOption.setsValue opts).getD Float64.zero) ∧
    (∀ opts, (convertParamsOf opts).baseCurrency =
      (lastSet ConvertOption.setsBaseCurrency opts).getD []) ∧
    (∀ opts, (convertParamsOf opts).destinationCurrency =
      (lastSet ConvertOption.setsDestinationCurrency opts).getD []) ∧
    (∀ opts, (convertParamsOf opts).prettyPrint =
      (lastSet ConvertOption.setsPrettyPrint opts).getD false) ∧
    ohlcParamsOf [] = {} ∧
    (∀ opts o, ohlcParamsOf (opts ++ [o]) = o.apply (ohlcParamsOf opts)) ∧
    (∀ opts, (ohlcParamsOf opts).startTime =
      (lastSet OHLCOption.setsStartTime opts).getD Time.zero) ∧
    (∀ opts, (ohlcParamsOf opts).period =
      (lastSet OHLCOption.setsPeriod opts).getD []) ∧
    (∀ opts, (ohlcParamsOf opts).baseCurrency =
      (lastSet OHLCOption.setsBaseCurrency opts).getD []) ∧
    (∀ opts, (ohlcParamsOf opts).destinationCurrencies =
      (lastSet OHLCOption.setsDestinationCurrencies opts).getD []) ∧
    (∀ opts, (ohlcParamsOf opts).prettyPrint =
      (lastSet OHLCOption.setsPrettyPrint opts).getD false) ∧
    usageParamsOf [] = {} ∧
    (∀ opts o, usageParamsOf (opts ++ [o]) = o.apply (usageParamsOf opts)) ∧
    (∀ opts, (usageParamsOf opts).prettyPrint =
      (lastSet UsageOption.setsPrettyPrint opts).getD false) :=
  ⟨rfl,
    fun opts o => by simp [latestParamsOf],
    latest_baseCurrency_last,
    latest_destinationCurrencies_last,
    latest_showAlternative_last,
    latest_prettyPrint_last,
    rfl,
    fun opts o => by simp [historicalParamsOf],
    historical_date_last,
    historical_baseCurrency_last,
    historical_destinationCurrencies_last,
    historical_showAlternative_last,
    historical_prettyPrint_last,
    rfl,
    fun opts o => by simp [currenciesParamsOf],
    currencies_showAlternative_last,
    currencies_showInactive_last,
    currencies_prettyPrint_last,
    rfl,
    fun opts o => by simp [timeSeriesParamsOf],
    timeSeries_startDate_last,
    timeSeries_endDate_last,
    timeSeries_baseCurrency_last,
    timeSeries_destinationCurrencies_last,
    timeSeries_showAlternative_last,
    timeSeries_prettyPrint_last,
    rfl,
    fun opts o => by simp [convertParamsOf],
    convert_value_last,
    convert_baseCurrency_last,
    convert_destinationCurrency_last,
    convert_prettyPrint_last,
    rfl,
    fun opts o => by simp [ohlcParamsOf],
    ohlc_startTime_last,
    ohlc_period_last,
    ohlc_baseCurrency_last,
    ohlc_destinationCurrencies_last,
    ohlc_prettyPrint_last,
    rfl,
    fun opts o => by simp [usageParamsOf],
    usage_prettyPrint_last⟩

/-- Counterexample to C7 as stated: with the destination currency `USD?x=1` the URL handed
to the transport is not the base URL followed by `convert/100.12/GBP/USD?x=1` and the two
parameters: the text after `?` has become a third query parameter. -/
theorem C7_counterexample :
    (Client.Convert (fun _ z => (z, none)) testClient .live
      [.ConvertWithValue ⟨bytes "100.12"⟩, .ConvertForBaseCurrency (bytes "GBP"),
        .ConvertForDestinationCurrency (bytes "USD?x=1")]).sentURL =
      some (bytes ("https://openexchangerates.org/api/convert/100.12/GBP/USD" ++
        "?app_id=test&prettyprint=false&x=1")) ∧
    bytes ("https://openexchangerates.org/api/convert/100.12/GBP/USD" ++
        "?app_id=test&prettyprint=false&x=1") ≠
      basePath ++ bytes "convert/" ++ bytes "100.12" ++ bytes "/" ++ bytes "GBP" ++ bytes "/" ++
        bytes "USD?x=1" ++ bytes "?" ++ bytes "app_id=test&prettyprint=false" := by
  constructor <;> decide

/-- C7, amended: for a client made by `New` with a transport, a live context and options
that leave an amount text, a base currency and a destination currency made only of bytes
that need no escaping in a URL path, the URL handed to the transport is `basePath`, then
`convert/<amount>/<base>/<destination>`, then `?app_id=<key, query-escaped>` and
`&prettyprint=<true or false>`; for 100.12, GBP, USD and the key `test` it is
`https://openexchangerates.org/api/convert/100.12/GBP/USD?app_id=test&prettyprint=false`. -/
theorem C7_convert_url (c : Client) (hc : c.baseURL = basePath) (d : Doer)
    (hd : c.doer = some d) (json : Decoder ConversionResponse) (opts : List ConvertOption)
    (hsafe : ∀ x ∈ (convertParamsOf opts).value.text ++ (convertParamsOf opts).baseCurrency ++
      (convertParamsOf opts).destinationCurrency, pathSafe x) :
    (c.Convert json .live opts).sentURL =
      some (basePath ++ bytes "convert/" ++ (convertParamsOf opts).value.text ++ bytes "/" ++
        (convertParamsOf opts).baseCurrency ++ bytes "/" ++
        (convertParamsOf opts).destinationCurrency ++ bytes "?" ++
        (bytes "app_id=" ++ QueryEscape c.appID ++ bytes "&prettyprint=" ++
          (if (convertParamsOf opts).prettyPrint then bytes "true" else bytes "false"))) ∧
    (Client.Convert (fun _ z => (z, none)) testClient .live
      [.ConvertWithValue ⟨bytes "100.12"⟩, .ConvertForBaseCurrency (bytes "GBP"),
        .ConvertForDestinationCurrency (bytes "USD")]).sentURL =
      some (bytes ("https://openexchangerates.org/api/convert/100.12/GBP/USD" ++
        "?app_id=test&prettyprint=false")) := by
  constructor
  · have hq : queryOf (convertPairs c (convertParamsOf opts)) ≠ [] := by
      rw [convertPairs, queryOf_key_and_flag]
      simp [bytes]
    simp only [Run.sentURL, Client.Convert, convertRequest_eq c hc opts hsafe, hd,
      sent_finish_ok, Option.map_some']
    rw [baseRequest_String _ _ (convertPath_safe _ hsafe) hq, convertPairs,
      queryOf_key_and_flag]
    simp [convertPath, List.append_assoc]
    rfl
  · decide

/-- Witness of C7: the test client, whose transport is set, with the options of the test
`TestClient_Convert_Success`. -/
theorem C7_witness :
    testClient.baseURL = basePath ∧
    (Client.Convert (fun _ z => (z, none)) testClient .live
      [.ConvertWithValue ⟨bytes "100.12"⟩, .ConvertForBaseCurrency (bytes "GBP"),
        .ConvertForDestinationCurrency (bytes "USD")]).sentURL =
      some (basePath ++ bytes "convert/" ++ bytes "100.12" ++ bytes "/" ++ bytes "GBP" ++
        bytes "/" ++ bytes "USD" ++ bytes "?" ++
        (bytes "app_id=" ++ QueryEscape (bytes "test") ++ bytes "&prettyprint=" ++
          bytes "false")) :=
  ⟨rfl,
    (C7_convert_url testClient rfl (answeringDoer 200 []) rfl (fun _ z => (z, none))
      [.ConvertWithValue ⟨bytes "100.12"⟩, .ConvertForBaseCurrency (bytes "GBP"),
        .ConvertForDestinationCurrency (bytes "USD")] (by decide)).1⟩

/-- C8: for a client made by `New` with a transport and a live context, the URL a
Historical call hands to the transport is `basePath`, then `historical/<D>.json`, then the
query, where `D` is the text of the date left by the options; that date is the one given
by the last `HistoricalForDate` option and the zero time without one, for which `D` is
`0001-01-01`; for a year from 0 to 9999 `D` is four digits of the year, two of the month
and two of the day, separated by `-`, ten bytes in all; the time of day plays no part;
noon of March 10, 2022 gives `2022-03-10`. -/
theorem C8_historical_path (c : Client) (hc : c.baseURL = basePath) (d : Doer)
    (hd : c.doer = some d) (json : Decoder HistoricalRatesResponse)
    (opts : List HistoricalOption) :
    (c.Historical json .live opts).sentURL =
      some (basePath ++ bytes "historical/" ++ (historicalParamsOf opts).date.formatDate ++
        bytes ".json" ++ bytes "?" ++
        queryOf (historicalPairs c (historicalParamsOf opts))) ∧
    (historicalParamsOf opts).date =
      (lastSet HistoricalOption.setsDate opts).getD Time.zero ∧
    ((∀ o ∈ opts, HistoricalOption.setsDate o = none) →
      (historicalParamsOf opts).date.formatDate = bytes "0001-01-01") ∧
    (∀ t : Time, t.valid → 0 ≤ t.year → t.year ≤ 9999 →
      t.formatDate =
        [48 + t.year.toNat / 1000, 48 + t.year.toNat / 100 % 10, 48 + t.year.toNat / 10 % 10,
          48 + t.year.toNat % 10, 45, 48 + t.month / 10, 48 + t.month % 10, 45,
          48 + t.day / 10, 48 + t.day % 10] ∧
      t.formatDate.length = 10) ∧
    (∀ (t : Time) (h m s : Nat) (z : Int),
      ({ t with hour := h, minute := m, second := s, offset := z } : Time).formatDate =
        t.formatDate) ∧
    Time.formatDate ⟨2022, 3, 10, 12, 0, 0, 0⟩ = bytes "2022-03-10" := by
  refine ⟨?_, historical_date_last opts, ?_, ?_, fun _ _ _ _ _ => rfl, by decide⟩
  · have hq : queryOf (historicalPairs c (historicalParamsOf opts)) ≠ [] :=
      queryOf_ne_nil _ (historicalPairs_ne_nil c _)
    simp only [Run.sentURL, Client.Historical, historicalRequest_eq c hc opts, hd,
      sent_finish_ok, Option.map_some']
    rw [baseRequest_String _ _ (historicalPath_safe _) hq]
    simp [historicalPath, List.append_assoc]
    rfl
  · intro hn
    rw [historical_date_last, lastSet_eq_none _ _ hn]
    decide
  · intro t hv h0 h
    have := formatDate_digits t hv h0 h
    exact ⟨this, by rw [this]; rfl⟩

/-- Witness of C8: the test client with the options of `TestClient_Historical_Success`
hands over the URL that test expects. -/
theorem C8_witness :
    testClient.baseURL = basePath ∧
    (Client.Historical (fun _ z => (z, none)) testClient .live
      [.HistoricalForDate ⟨2022, 3, 10, 12, 0, 0, 0⟩,
        .HistoricalForBaseCurrency (bytes "USD")]).sentURL =
      some (bytes ("https://openexchangerates.org/api/historical/2022-03-10.json" ++
        "?app_id=test&base=USD&prettyprint=false&show_alternative=false")) :=
  ⟨rfl,
    ((C8_historical_path testClient rfl (answeringDoer 200 []) rfl (fun _ z => (z, none))
      [.HistoricalForDate ⟨2022, 3, 10, 12, 0, 0, 0⟩,
        .HistoricalForBaseCurrency (bytes "USD")]).1).trans (by decide)⟩

/-- C9: the request a TimeSeries call hands to the transport carries both `start` and
`end`, each with the `YYYY-MM-DD` text of the date left by the options, written in the
query as `start=<text>` and `end=<text>`; for a client made by `New` these are the only
values of the two keys. The date left is that of the last option setting it, and the zero
date, written `0001-01-01`, when no option sets it. The text of a date with a year from 0 to
9999 is four digits of the year, two of the month and two of the day, separated by `-`, ten
bytes in all, and the time of day plays no part in it: 13:00 on January 1 and on January 31
of 2013 give `2013-01-01` and `2013-01-31`. -/
theorem C9_time_series_start_and_end (c : Client) (ctx : Context)
    (json : Decoder TimeSeriesResponse) (opts : List TimeSeriesOption) (req : Request)
    (h : (c.TimeSeries json ctx opts).sent = some req) :
    req.carries (bytes "start") (timeSeriesParamsOf opts).startDate.formatDate ∧
    req.carries (bytes "end") (timeSeriesParamsOf opts).endDate.formatDate ∧
    piece (bytes "start") (timeSeriesParamsOf opts).startDate.formatDate =
      bytes "start=" ++ (timeSeriesParamsOf opts).startDate.formatDate ∧
    piece (bytes "end") (timeSeriesParamsOf opts).endDate.formatDate =
      bytes "end=" ++ (timeSeriesParamsOf opts).endDate.formatDate ∧
    ((∀ o ∈ opts, TimeSeriesOption.setsStartDate o = none) →
      (timeSeriesParamsOf opts).startDate.formatDate = bytes "0001-01-01") ∧
    ((∀ o ∈ opts, TimeSeriesOption.setsEndDate o = none) →
      (timeSeriesParamsOf opts).endDate.formatDate = bytes "0001-01-01") ∧
    (timeSeriesParamsOf opts).startDate =
      (lastSet TimeSeriesOption.setsStartDate opts).getD Time.zero ∧
    (timeSeriesParamsOf opts).endDate =
      (lastSet TimeSeriesOption.setsEndDate opts).getD Time.zero ∧
    (c.baseURL = basePath →
      req.values (bytes "start") = [(timeSeriesParamsOf opts).startDate.formatDate] ∧
      req.values (bytes "end") = [(timeSeriesParamsOf opts).endDate.formatDate]) ∧
    (∀ t : Time, t.valid → 0 ≤ t.year → t.year ≤ 9999 →
      t.formatDate =
        [48 + t.year.toNat / 1000, 48 + t.year.toNat / 100 % 10, 48 + t.year.toNat / 10 % 10,
          48 + t.year.toNat % 10, 45, 48 + t.month / 10, 48 + t.month % 10, 45,
          48 + t.day / 10, 48 + t.day % 10] ∧
      t.formatDate.length = 10) ∧
    (∀ (t : Time) (h m s : Nat) (z : Int),
      ({ t with hour := h, minute := m, second := s, offset := z } : Time).formatDate =
        t.formatDate) ∧
    Time.formatDate ⟨2013, 1, 1, 13, 0, 0, 0⟩ = bytes "2013-01-01" ∧
    Time.formatDate ⟨2013, 1, 31, 13, 0, 0, 0⟩ = bytes "2013-01-31" := by
  have hb := sent_finish_some _ _ _ _ req h
  have hc := timeSeriesRequest_carries c ctx opts req hb
  refine ⟨hc.2.1, hc.2.2, piece_start _ (formatDate_dateBytes _),
    piece_end _ (formatDate_dateBytes _), ?_, ?_, timeSeries_startDate_last opts,
    timeSeries_endDate_last opts, ?_, ?_, fun _ _ _ _ _ => rfl, by decide, by decide⟩
  · intro hn
    rw [timeSeries_startDate_last, lastSet_eq_none _ _ hn]
    decide
  · intro hn
    rw [timeSeries_endDate_last, lastSet_eq_none _ _ hn]
    decide
  · intro hbase
    have he := timeSeries_sent_eq c hbase json ctx opts req h
    subst he
    exact timeSeries_dates_values c _ _
  · intro t hv h0 h9
    have := formatDate_digits t hv h0 h9
    exact ⟨this, by rw [this]; rfl⟩

/-- Witness of C9: the TimeSeries call of the test client with the dates of the repository
test `TestClient_TimeSeries_Success`, 13:00 UTC on January 1 and on January 31 of 2013,
hands over a request with `start=2013-01-01` and `end=2013-01-31`, each the only value of
its key; with no option it hands over the request of `TestClient_TimeSeries_Fail`, with
`start=0001-01-01` and `end=0001-01-01`. -/
theorem C9_witness :
    (Client.TimeSeries (fun _ z => (z, none)) testClient .live
      [.TimeSeriesForStartDate ⟨2013, 1, 1, 13, 0, 0, 0⟩,
        .TimeSeriesForEndDate ⟨2013, 1, 31, 13, 0, 0, 0⟩]).sent =
      some (baseRequest (bytes "time-series.json") (bytes ("app_id=test&end=2013-01-31" ++
        "&prettyprint=false&show_alternative=false&start=2013-01-01"))) ∧
    (baseRequest (bytes "time-series.json") (bytes ("app_id=test&end=2013-01-31" ++
        "&prettyprint=false&show_alternative=false&start=2013-01-01"))).carries
      (bytes "start") (bytes "2013-01-01") ∧
    (baseRequest (bytes "time-series.json") (bytes ("app_id=test&end=2013-01-31" ++
        "&prettyprint=false&show_alternative=false&start=2013-01-01"))).carries
      (bytes "end") (bytes "2013-01-31") ∧
    (baseRequest (bytes "time-series.json") (bytes ("app_id=test&end=2013-01-31" ++
        "&prettyprint=false&show_alternative=false&start=2013-01-01"))).values
      (bytes "start") = [bytes "2013-01-01"] ∧
    (Client.TimeSeries (fun _ z => (z, none)) testClient .live []).sent =
      some (baseRequest (bytes "time-series.json") (bytes ("app_id=test&end=0001-01-01" ++
        "&prettyprint=false&show_alternative=false&start=0001-01-01"))) ∧
    (baseRequest (bytes "time-series.json") (bytes ("app_id=test&end=0001-01-01" ++
        "&prettyprint=false&show_alternative=false&start=0001-01-01"))).carries
      (bytes "start") (bytes "0001-01-01") ∧
    (baseRequest (bytes "time-series.json") (bytes ("app_id=test&end=0001-01-01" ++
        "&prettyprint=false&show_alternative=false&start=0001-01-01"))).carries
      (bytes "end") (bytes "0001-01-01") :=
  ⟨rfl,
    (C9_time_series_start_and_end testClient .live (fun _ z => (z, none))
      [.TimeSeriesForStartDate ⟨2013, 1, 1, 13, 0, 0, 0⟩,
        .TimeSeriesForEndDate ⟨2013, 1, 31, 13, 0, 0, 0⟩] _ rfl).1,
    (C9_time_series_start_and_end testClient .live (fun _ z => (z, none))
      [.TimeSeriesForStartDate ⟨2013, 1, 1, 13, 0, 0, 0⟩,
        .TimeSeriesForEndDate ⟨2013, 1, 31, 13, 0, 0, 0⟩] _ rfl).2.1,
    ((C9_time_series_start_and_end testClient .live (fun _ z => (z, none))
      [.TimeSeriesForStartDate ⟨2013, 1, 1, 13, 0, 0, 0⟩,
        .TimeSeriesForEndDate ⟨2013, 1, 31, 13, 0, 0, 0⟩] _ rfl).2.2.2.2.2.2.2.2.1 rfl).1,
    rfl,
    (C9_time_series_start_and_end testClient .live (fun _ z => (z, none)) [] _ rfl).1,
    (C9_time_series_start_and_end testClient .live (fun _ z => (z, none)) [] _ rfl).2.1⟩

/-- C10: when the period left by the options is one of the nine exported constants and the
start time is a UTC time, the request an OpenHighLowClose call hands to the transport
carries `period` with the short code of the constant, written `period=<code>`, and
`start_date` with the RFC 3339 text of the start time, written in the query with each colon
as `%3A`: `start_date=<date>T<hh>%3A<mm>%3A<ss>Z`, two digits for each clock field. -/
theorem C10_ohlc_period_and_start_date (c : Client) (ctx : Context)
    (json : Decoder OHLCResponse) (opts : List OHLCOption) (req : Request)
    (h : (c.OpenHighLowClose json ctx opts).sent = some req)
    (hp : (ohlcParamsOf opts).period ∈ periods)
    (hutc : (ohlcParamsOf opts).startTime.offset = 0)
    (hv : (ohlcParamsOf opts).startTime.valid) :
    req.carries (bytes "period") (ohlcParamsOf opts).period ∧
    piece (bytes "period") (ohlcParamsOf opts).period =
      bytes "period=" ++ (ohlcParamsOf opts).period ∧
    periods = [bytes "1m", bytes "5m", bytes "15m", bytes "30m", bytes "1h", bytes "12h",
      bytes "1d", bytes "1w", bytes "1mo"] ∧
    req.carries (bytes "start_date") (ohlcParamsOf opts).startTime.formatRFC3339 ∧
    (ohlcParamsOf opts).startTime.formatRFC3339 =
      (ohlcParamsOf opts).startTime.formatDate ++ bytes "T" ++
        [48 + (ohlcParamsOf opts).startTime.hour / 10,
          48 + (ohlcParamsOf opts).startTime.hour % 10] ++ bytes ":" ++
        [48 + (ohlcParamsOf opts).startTime.minute / 10,
          48 + (ohlcParamsOf opts).startTime.minute % 10] ++ bytes ":" ++
        [48 + (ohlcParamsOf opts).startTime.second / 10,
          48 + (ohlcParamsOf opts).startTime.second % 10] ++ bytes "Z" ∧
    piece (bytes "start_date") (ohlcParamsOf opts).startTime.formatRFC3339 =
      bytes "start_date=" ++ (ohlcParamsOf opts).startTime.formatDate ++ bytes "T" ++
        [48 + (ohlcParamsOf opts).startTime.hour / 10,
          48 + (ohlcParamsOf opts).startTime.hour % 10] ++ bytes "%3A" ++
        [48 + (ohlcParamsOf opts).startTime.minute / 10,
          48 + (ohlcParamsOf opts).startTime.minute % 10] ++ bytes "%3A" ++
        [48 + (ohlcParamsOf opts).startTime.second / 10,
          48 + (ohlcParamsOf opts).startTime.second % 10] ++ bytes "Z" := by
  have hb := sent_finish_some _ _ _ _ req h
  have hc := ohlcRequest_carries c ctx opts req hb
  obtain ⟨_, _, _, _, hh, hm, hs⟩ := hv
  have eh := appendInt_two (ohlcParamsOf opts).startTime.hour (by omega)
  have em := appendInt_two (ohlcParamsOf opts).startTime.minute (by omega)
  have es := appendInt_two (ohlcParamsOf opts).startTime.second (by omega)
  refine ⟨hc.2.2, ?_, rfl, hc.2.1, ?_, ?_⟩
  · rw [piece, QueryEscape_period _ hp]
    rfl
  · rw [formatRFC3339_utc _ hutc, eh, em, es]
  · rw [piece, QueryEscape_formatRFC3339_utc _ hutc, eh, em, es]
    simp only [List.append_assoc]
    rfl

/-- Witness of C10: the test client with the options of the test
`TestClient_OpenHighLowClose_Success` (period `ThirtyMinute`, start 2022-03-15 13:00 UTC)
hands over the URL that test expects, with `period=30m` and
`start_date=2022-03-15T13%3A00%3A00Z`. -/
theorem C10_witness :
    (Client.OpenHighLowClose (fun _ z => (z, none)) testClient .live
      [.OHLCForBaseCurrency (bytes "USD"), .OHLCForPeriod ThirtyMinute,
        .OHLCForDestinationCurrencies [bytes "GBP", bytes "EUR"],
        .OHLCForStartTime ⟨2022, 3, 15, 13, 0, 0, 0⟩]).sentURL =
      some (bytes ("https://openexchangerates.org/api/ohlc.json?app_id=test&base=USD" ++
        "&period=30m&prettyprint=false&start_date=2022-03-15T13%3A00%3A00Z" ++
        "&symbols=GBP%2CEUR")) ∧
    (baseRequest (bytes "ohlc.json") (bytes ("app_id=test&base=USD" ++
        "&period=30m&prettyprint=false&start_date=2022-03-15T13%3A00%3A00Z" ++
        "&symbols=GBP%2CEUR"))).carries (bytes "period") ThirtyMinute ∧
    piece (bytes "start_date") (Time.formatRFC3339 ⟨2022, 3, 15, 13, 0, 0, 0⟩) =
      bytes "start_date=2022-03-15T13%3A00%3A00Z" :=
  ⟨by decide,
    (C10_ohlc_period_and_start_date testClient .live (fun _ z => (z, none))
      [.OHLCForBaseCurrency (bytes "USD"), .OHLCForPeriod ThirtyMinute,
        .OHLCForDestinationCurrencies [bytes "GBP", bytes "EUR"],
        .OHLCForStartTime ⟨2022, 3, 15, 13, 0, 0, 0⟩] _ rfl (by decide) rfl (by decide)).1,
    (C10_ohlc_period_and_start_date testClient .live (fun _ z => (z, none))
      [.OHLCForBaseCurrency (bytes "USD"), .OHLCForPeriod ThirtyMinute,
        .OHLCForDestinationCurrencies [bytes "GBP", bytes "EUR"],
        .OHLCForStartTime ⟨2022, 3, 15, 13, 0, 0, 0⟩] _ rfl (by decide) rfl
      (by decide)).2.2.2.2.2⟩

/-- Counterexample to C11 as stated: with no period option the OpenHighLowClose call of the
test client hands over the URL the repository test `TestClient_OpenHighLowClose_Fail`
expects, whose `period` parameter has the empty value; and `OHLCForPeriod("2x")`, which Go
accepts because an untyped string constant converts to the string type `period`, sends
`period=2x`. Neither value is one of the nine short codes. -/
theorem C11_counterexample :
    (Client.OpenHighLowClose (fun _ z => (z, none)) testClient .live []).sentURL =
      some (bytes ("https://openexchangerates.org/api/ohlc.json?app_id=test&period=" ++
        "&prettyprint=false&start_date=0001-01-01T00%3A00%3A00Z")) ∧
    (Client.OpenHighLowClose (fun _ z => (z, none)) testClient .live []).sent.map
      (fun req => req.values (bytes "period")) = some [[]] ∧
    [] ∉ periodCodes ∧
    (Client.OpenHighLowClose (fun _ z => (z, none)) testClient .live
      [.OHLCForPeriod (bytes "2x")]).sent.map
      (fun req => req.values (bytes "period")) = some [bytes "2x"] ∧
    bytes "2x" ∉ periodCodes := by
  refine ⟨?_, ?_, ?_, ?_, ?_⟩ <;> decide

/-- C11, amended: the request an OpenHighLowClose call of a client made by `New` hands to
the transport has exactly one `period` parameter, and its value is the period left by the
options, whatever text that is: the argument of the last `OHLCForPeriod` option of the list,
the empty text when the list has none. The nine exported constants are the nine short codes
`1m`, `5m`, `15m`, `30m`, `1h`, `12h`, `1d`, `1w`, `1mo`, and when the period left by the
options is one of them the value sent is that code, written as it is. -/
theorem C11_period_sent_is_the_period_left (c : Client) (hc : c.baseURL = basePath)
    (ctx : Context) (json : Decoder OHLCResponse) (opts : List OHLCOption) (req : Request)
    (h : (c.OpenHighLowClose json ctx opts).sent = some req) :
    req.values (bytes "period") = [QueryEscape (ohlcParamsOf opts).period] ∧
    (ohlcParamsOf opts).period = (lastSet OHLCOption.setsPeriod opts).getD [] ∧
    periods = periodCodes ∧
    ((ohlcParamsOf opts).period ∈ periods →
      req.values (bytes "period") = [(ohlcParamsOf opts).period] ∧
      (ohlcParamsOf opts).period ∈ periodCodes) := by
  have he := ohlc_sent_eq c hc json ctx opts req h
  subst he
  refine ⟨(ohlc_values c _ _).2.2, ohlc_period_last opts, rfl, fun hp => ⟨?_, hp⟩⟩
  rw [(ohlc_values c _ _).2.2, QueryEscape_period _ hp]

/-- Witness of C11: the test client with the period option of the repository test
`TestClient_OpenHighLowClose_Success` sends the single value `30m`; with no period option
it sends the single empty value. -/
theorem C11_witness :
    (baseRequest (bytes "ohlc.json") (bytes ("app_id=test&period=30m&prettyprint=false" ++
      "&start_date=0001-01-01T00%3A00%3A00Z"))).values (bytes "period") =
      [QueryEscape (ohlcParamsOf [.OHLCForPeriod ThirtyMinute]).period] ∧
    (baseRequest (bytes "ohlc.json") (bytes ("app_id=test&period=&prettyprint=false" ++
      "&start_date=0001-01-01T00%3A00%3A00Z"))).values (bytes "period") =
      [QueryEscape (ohlcParamsOf []).period] :=
  ⟨(C11_period_sent_is_the_period_left testClient rfl .live (fun _ z => (z, none))
      [.OHLCForPeriod ThirtyMinute] _ rfl).1,
    (C11_period_sent_is_the_period_left testClient rfl .live (fun _ z => (z, none))
      [] _ rfl).1⟩

/-- C12: the request a Currencies call of a client made by `New` hands to the transport has
exactly four query parameters, `app_id`, `prettyprint`, `show_alternative` and
`show_inactive` (the raw query lists them in the order of their keys), each flag with the
text `true` or `false` of the value the options left, which is that of the last option
setting the flag and false when no option sets it. -/
theorem C12_currencies_query_has_exactly_four_parameters (c : Client)
    (hc : c.baseURL = basePath) (ctx : Context) (json : Decoder (GoMap GoString))
    (opts : List CurrenciesOption) (req : Request)
    (h : (c.Currencies json ctx opts).sent = some req) :
    splitOn 38 req.URL.RawQuery =
      [bytes "app_id=" ++ QueryEscape c.appID,
        bytes "prettyprint=" ++ FormatBool (currenciesParamsOf opts).prettyPrint,
        bytes "show_alternative=" ++ FormatBool (currenciesParamsOf opts).showAlternative,
        bytes "show_inactive=" ++ FormatBool (currenciesParamsOf opts).showInactive] ∧
    (currenciesParamsOf opts).prettyPrint =
      (lastSet CurrenciesOption.setsPrettyPrint opts).getD false ∧
    (currenciesParamsOf opts).showAlternative =
      (lastSet CurrenciesOption.setsShowAlternative opts).getD false ∧
    (currenciesParamsOf opts).showInactive =
      (lastSet CurrenciesOption.setsShowInactive opts).getD false ∧
    FormatBool true = bytes "true" ∧ FormatBool false = bytes "false" := by
  have he := currencies_sent_eq c hc json ctx opts req h
  subst he
  refine ⟨?_, currencies_prettyPrint_last opts, currencies_showAlternative_last opts,
    currencies_showInactive_last opts, rfl, rfl⟩
  simp only [baseRequest]
  rw [splitOn_queryOf _ (by simp [currenciesPairs])]
  generalize currenciesParamsOf opts = r
  obtain ⟨a, i, p⟩ := r
  cases a <;> cases i <;> cases p <;> rfl

/-- Witness of C12: the test client with the options of the repository test
`TestClient_Currencies_Success`, `CurrenciesWithInactive(true)` and
`CurrenciesWithPrettyPrint(true)`, hands over the URL that test expects, whose query is
`app_id=test`, `prettyprint=true`, `show_alternative=false` and `show_inactive=true`. -/
theorem C12_witness :
    (Client.Currencies (fun _ z => (z, none)) testClient .live
      [.CurrenciesWithInactive true, .CurrenciesWithPrettyPrint true]).sentURL =
      some (bytes ("https://openexchangerates.org/api/currencies.json?app_id=test" ++
        "&prettyprint=true&show_alternative=false&show_inactive=true")) ∧
    splitOn 38 (baseRequest (bytes "currencies.json") (bytes ("app_id=test" ++
        "&prettyprint=true&show_alternative=false&show_inactive=true"))).URL.RawQuery =
      [bytes "app_id=test", bytes "prettyprint=true", bytes "show_alternative=false",
        bytes "show_inactive=true"] :=
  ⟨by decide,
    (C12_currencies_query_has_exactly_four_parameters testClient rfl .live
      (fun _ z => (z, none)) [.CurrenciesWithInactive true, .CurrenciesWithPrettyPrint true]
      _ rfl).1⟩

/-- C13: the request a Latest, Historical, TimeSeries or OpenHighLowClose call of a client
made by `New` hands to the transport has the query parameter `base` if and only if the base
currency left by the options is not the empty text, and then it has it once, with that text
as its value; the base currency left is that of the last base-currency option, the empty
text without one, so that with no base-currency option, or an empty last one, the request
has no `base` key. -/
theorem C13_base_sent_iff_not_empty (c : Client) (hc : c.baseURL = basePath) :
    (∀ (ctx : Context) (json : Decoder LatestRatesResponse) (opts : List LatestOption) (req : Request),
      (c.Latest json ctx opts).sent = some req →
      (req.hasKey (bytes "base") ↔ (latestParamsOf opts).baseCurrency ≠ []) ∧
      req.single (bytes "base") (latestParamsOf opts).baseCurrency ∧
      (latestParamsOf opts).baseCurrency = (lastSet LatestOption.setsBaseCurrency opts).getD [] ∧
      ((∀ o ∈ opts, LatestOption.setsBaseCurrency o = none) → ¬ req.hasKey (bytes "base"))) ∧
    (∀ (ctx : Context) (json : Decoder HistoricalRatesResponse) (opts : List HistoricalOption) (req : Request),
      (c.Historical json ctx opts).sent = some req →
      (req.hasKey (bytes "base") ↔ (historicalParamsOf opts).baseCurrency ≠ []) ∧
      req.single (bytes "base") (historicalParamsOf opts).baseCurrency ∧
      (historicalParamsOf opts).baseCurrency = (lastSet HistoricalOption.setsBaseCurrency opts).getD [] ∧
      ((∀ o ∈ opts, HistoricalOption.setsBaseCurrency o = none) → ¬ req.hasKey (bytes "base"))) ∧
    (∀ (ctx : Context) (json : Decoder TimeSeriesResponse) (opts : List TimeSeriesOption) (req : Request),
      (c.TimeSeries json ctx opts).sent = some req →
      (req.hasKey (bytes "base") ↔ (timeSeriesParamsOf opts).baseCurrency ≠ []) ∧
      req.single (bytes "base") (timeSeriesParamsOf opts).baseCurrency ∧
      (timeSeriesParamsOf opts).baseCurrency = (lastSet TimeSeriesOption.setsBaseCurrency opts).getD [] ∧
      ((∀ o ∈ opts, TimeSeriesOption.setsBaseCurrency o = none) → ¬ req.hasKey (bytes "base"))) ∧
    (∀ (ctx : Context) (json : Decoder OHLCResponse) (opts : List OHLCOption) (req : Request),
      (c.OpenHighLowClose json ctx opts).sent = some req →
      (req.hasKey (bytes "base") ↔ (ohlcParamsOf opts).baseCurrency ≠ []) ∧
      req.single (bytes "base") (ohlcParamsOf opts).baseCurrency ∧
      (ohlcParamsOf opts).baseCurrency = (lastSet OHLCOption.setsBaseCurrency opts).getD [] ∧
      ((∀ o ∈ opts, OHLCOption.setsBaseCurrency o = none) → ¬ req.hasKey (bytes "base"))) := by
  refine ⟨?_, ?_, ?_, ?_⟩
  · intro ctx json opts req h
    have he := latest_sent_eq c hc json ctx opts req h
    subst he
    have hs := (latest_single c (latestParamsOf opts) (bytes "latest.json")).1
    have hk := hasKey_iff_of_single _ _ _ hs
    refine ⟨hk, hs, latest_baseCurrency_last opts, fun hn => ?_⟩
    rw [hk, latest_baseCurrency_last opts, getD_eq_nil_of_none _ opts hn]
    exact fun hne => hne rfl
  · intro ctx json opts req h
    have he := historical_sent_eq c hc json ctx opts req h
    subst he
    have hs := (historical_single c (historicalParamsOf opts) (historicalPath (historicalParamsOf opts))).1
    have hk := hasKey_iff_of_single _ _ _ hs
    refine ⟨hk, hs, historical_baseCurrency_last opts, fun hn => ?_⟩
    rw [hk, historical_baseCurrency_last opts, getD_eq_nil_of_none _ opts hn]
    exact fun hne => hne rfl
  · intro ctx json opts req h
    have he := timeSeries_sent_eq c hc json ctx opts req h
    subst he
    have hs := (timeSeries_single c (timeSeriesParamsOf opts) (bytes "time-series.json")).1
    have hk := hasKey_iff_of_single _ _ _ hs
    refine ⟨hk, hs, timeSeries_baseCurrency_last opts, fun hn => ?_⟩
    rw [hk, timeSeries_baseCurrency_last opts, getD_eq_nil_of_none _ opts hn]
    exact fun hne => hne rfl
  · intro ctx json opts req h
    have he := ohlc_sent_eq c hc json ctx opts req h
    subst he
    have hs := (ohlc_single c (ohlcParamsOf opts) (bytes "ohlc.json")).1
    have hk := hasKey_iff_of_single _ _ _ hs
    refine ⟨hk, hs, ohlc_baseCurrency_last opts, fun hn => ?_⟩
    rw [hk, ohlc_baseCurrency_last opts, getD_eq_nil_of_none _ opts hn]
    exact fun hne => hne rfl

/-- Witness of C13: the test client with `LatestForBaseCurrency("USD")`, the option of the
repository test `TestClient_Latest_Success`, sends `base=USD` once; with no option, or with
an empty base currency, it sends no `base` key. -/
theorem C13_witness :
    (Client.Latest (fun _ z => (z, none)) testClient .live
      [.LatestForBaseCurrency (bytes "USD")]).sentURL =
      some (bytes ("https://openexchangerates.org/api/latest.json?app_id=test&base=USD" ++
        "&prettyprint=false&show_alternative=false")) ∧
    (baseRequest (bytes "latest.json") (bytes ("app_id=test&base=USD" ++
        "&prettyprint=false&show_alternative=false"))).single (bytes "base")
      (latestParamsOf [.LatestForBaseCurrency (bytes "USD")]).baseCurrency ∧
    ¬ (baseRequest (bytes "latest.json") (bytes ("app_id=test" ++
        "&prettyprint=false&show_alternative=false"))).hasKey (bytes "base") ∧
    (baseRequest (bytes "latest.json") (bytes ("app_id=test" ++
        "&prettyprint=false&show_alternative=false"))).single (bytes "base")
      (latestParamsOf [.LatestForBaseCurrency []]).baseCurrency :=
  ⟨by decide,
    ((C13_base_sent_iff_not_empty testClient rfl).1 .live (fun _ z => (z, none))
      [.LatestForBaseCurrency (bytes "USD")] _ rfl).2.1,
    ((C13_base_sent_iff_not_empty testClient rfl).1 .live (fun _ z => (z, none))
      [] _ rfl).2.2.2 (by decide),
    ((C13_base_sent_iff_not_empty testClient rfl).1 .live (fun _ z => (z, none))
      [.LatestForBaseCurrency []] _ rfl).2.1⟩

/-- Counterexample to C14 as stated: the list holding one empty code is not the empty
list, yet its codes join to the empty text and the Latest call of the test client given
that list sends no `symbols` parameter. -/
theorem C14_counterexample :
    ([[]] : List GoString) ≠ [] ∧ joinComma [[]] = [] ∧
    (Client.Latest (fun _ z => (z, none)) testClient .live
      [.LatestForDestinationCurrencies [[]]]).sentURL =
      some (bytes ("https://openexchangerates.org/api/latest.json?app_id=test" ++
        "&prettyprint=false&show_alternative=false")) ∧
    (Client.Latest (fun _ z => (z, none)) testClient .live
      [.LatestForDestinationCurrencies [[]]]).sent.map
      (fun req => req.values (bytes "symbols")) = some [] := by
  refine ⟨?_, ?_, ?_, ?_⟩ <;> decide

/-- C14, amended: a destination-currency option given a list of codes leaves the codes
joined with commas, in the order given; the request a Latest, Historical, TimeSeries or
OpenHighLowClose call of a client made by `New` hands to the transport has one `symbols`
parameter, with the joined text left by the last such option as its value, when that text is
not empty, and no `symbols` parameter when it is empty or when no destination-currency
option is supplied. The joined text is empty for the empty list and for the list holding
one empty code, and for no other list. The codes `BTC`, `EUR`, `HKD` join to `BTC,EUR,HKD`,
written in the query as `symbols=BTC%2CEUR%2CHKD`. -/
theorem C14_symbols_sent_when_joined_text_not_empty (c : Client)
    (hc : c.baseURL = basePath) :
    (∀ (ctx : Context) (json : Decoder LatestRatesResponse) (opts : List LatestOption) (req : Request),
      (c.Latest json ctx opts).sent = some req →
      req.single (bytes "symbols") (latestParamsOf opts).destinationCurrencies ∧
      (latestParamsOf opts).destinationCurrencies =
        (lastSet LatestOption.setsDestinationCurrencies opts).getD [] ∧
      ((∀ o ∈ opts, LatestOption.setsDestinationCurrencies o = none) →
        ¬ req.hasKey (bytes "symbols"))) ∧
    (∀ l : List GoString,
      LatestOption.setsDestinationCurrencies (.LatestForDestinationCurrencies l) =
        some (joinComma l)) ∧
    (∀ (ctx : Context) (json : Decoder HistoricalRatesResponse) (opts : List HistoricalOption) (req : Request),
      (c.Historical json ctx opts).sent = some req →
      req.single (bytes "symbols") (historicalParamsOf opts).destinationCurrencies ∧
      (historicalParamsOf opts).destinationCurrencies =
        (lastSet HistoricalOption.setsDestinationCurrencies opts).getD [] ∧
      ((∀ o ∈ opts, HistoricalOption.setsDestinationCurrencies o = none) →
        ¬ req.hasKey (bytes "symbols"))) ∧
    (∀ l : List GoString,
      HistoricalOption.setsDestinationCurrencies (.HistoricalForDestinationCurrencies l) =
        some (joinComma l)) ∧
    (∀ (ctx : Context) (json : Decoder TimeSeriesResponse) (opts : List TimeSeriesOption) (req : Request),
      (c.TimeSeries json ctx opts).sent = some req →
      req.single (bytes "symbols") (timeSeriesParamsOf opts).destinationCurrencies ∧
      (timeSeriesParamsOf opts).destinationCurrencies =
        (lastSet TimeSeriesOption.setsDestinationCurrencies opts).getD [] ∧
      ((∀ o ∈ opts, TimeSeriesOption.setsDestinationCurrencies o = none) →
        ¬ req.hasKey (bytes "symbols"))) ∧
    (∀ l : List GoString,
      TimeSeriesOption.setsDestinationCurrencies (.TimeSeriesForDestinationCurrencies l) =
        some (joinComma l)) ∧
    (∀ (ctx : Context) (json : Decoder OHLCResponse) (opts : List OHLCOption) (req : Request),
      (c.OpenHighLowClose json ctx opts).sent = some req →
      req.single (bytes "symbols") (ohlcParamsOf opts).destinationCurrencies ∧
      (ohlcParamsOf opts).destinationCurrencies =
        (lastSet OHLCOption.setsDestinationCurrencies opts).getD [] ∧
      ((∀ o ∈ opts, OHLCOption.setsDestinationCurrencies o = none) →
        ¬ req.hasKey (bytes "symbols"))) ∧
    (∀ l : List GoString,
      OHLCOption.setsDestinationCurrencies (.OHLCForDestinationCurrencies l) =
        some (joinComma l)) ∧
    (∀ l : List GoString, joinComma l = [] ↔ l = [] ∨ l = [[]]) ∧
    (∀ (a b : GoString) (rest : List GoString),
      joinComma (a :: b :: rest) = a ++ bytes "," ++ joinComma (b :: rest)) ∧
    joinComma [bytes "BTC", bytes "EUR", bytes "HKD"] = bytes "BTC,EUR,HKD" ∧
    piece (bytes "symbols") (bytes "BTC,EUR,HKD") = bytes "symbols=BTC%2CEUR%2CHKD" := by
  refine ⟨?_, ?_, ?_, ?_, ?_, ?_, ?_, ?_, joinComma_eq_nil, ?_, by decide, by decide⟩
  · intro ctx json opts req h
    have he := latest_sent_eq c hc json ctx opts req h
    subst he
    have hs := (latest_single c (latestParamsOf opts) (bytes "latest.json")).2
    refine ⟨hs, latest_destinationCurrencies_last opts, fun hn => ?_⟩
    rw [hasKey_iff_of_single _ _ _ hs, latest_destinationCurrencies_last opts,
      getD_eq_nil_of_none _ opts hn]
    exact fun hne => hne rfl
  · exact fun _ => rfl
  · intro ctx json opts req h
    have he := historical_sent_eq c hc json ctx opts req h
    subst he
    have hs := (historical_single c (historicalParamsOf opts) (historicalPath (historicalParamsOf opts))).2
    refine ⟨hs, historical_destinationCurrencies_last opts, fun hn => ?_⟩
    rw [hasKey_iff_of_single _ _ _ hs, historical_destinationCurrencies_last opts,
      getD_eq_nil_of_none _ opts hn]
    exact fun hne => hne rfl
  · exact fun _ => rfl
  · intro ctx json opts req h
    have he := timeSeries_sent_eq c hc json ctx opts req h
    subst he
    have hs := (timeSeries_single c (timeSeriesParamsOf opts) (bytes "time-series.json")).2
    refine ⟨hs, timeSeries_destinationCurrencies_last opts, fun hn => ?_⟩
    rw [hasKey_iff_of_single _ _ _ hs, timeSeries_destinationCurrencies_last opts,
      getD_eq_nil_of_none _ opts hn]
    exact fun hne => hne rfl
  · exact fun _ => rfl
  · intro ctx json opts req h
    have he := ohlc_sent_eq c hc json ctx opts req h
    subst he
    have hs := (ohlc_single c (ohlcParamsOf opts) (bytes "ohlc.json")).2
    refine ⟨hs, ohlc_destinationCurrencies_last opts, fun hn => ?_⟩
    rw [hasKey_iff_of_single _ _ _ hs, ohlc_destinationCurrencies_last opts,
      getD_eq_nil_of_none _ opts hn]
    exact fun hne => hne rfl
  · exact fun _ => rfl
  · intro a b rest
    simp [joinComma, bytes]

/-- Witness of C14: the test client with the options of the repository test
`TestClient_TimeSeries_Success` hands over the URL that test expects, which has the one
`symbols` parameter `symbols=BTC%2CEUR%2CHKD`. -/
theorem C14_witness :
    (Client.TimeSeries (fun _ z => (z, none)) testClient .live
      [.TimeSeriesForBaseCurrency (bytes "AUD"),
        .TimeSeriesForDestinationCurrencies [bytes "BTC", bytes "EUR", bytes "HKD"],
        .TimeSeriesForStartDate ⟨2013, 1, 1, 13, 0, 0, 0⟩,
        .TimeSeriesForEndDate ⟨2013, 1, 31, 13, 0, 0, 0⟩,
        .TimeSeriesWithPrettyPrint true]).sentURL =
      some (bytes ("https://openexchangerates.org/api/time-series.json?app_id=test" ++
        "&base=AUD&end=2013-01-31&prettyprint=true&show_alternative=false" ++
        "&start=2013-01-01&symbols=BTC%2CEUR%2CHKD")) ∧
    (baseRequest (bytes "time-series.json") (bytes ("app_id=test" ++
        "&base=AUD&end=2013-01-31&prettyprint=true&show_alternative=false" ++
        "&start=2013-01-01&symbols=BTC%2CEUR%2CHKD"))).single (bytes "symbols")
      (timeSeriesParamsOf [.TimeSeriesForBaseCurrency (bytes "AUD"),
        .TimeSeriesForDestinationCurrencies [bytes "BTC", bytes "EUR", bytes "HKD"],
        .TimeSeriesForStartDate ⟨2013, 1, 1, 13, 0, 0, 0⟩,
        .TimeSeriesForEndDate ⟨2013, 1, 31, 13, 0, 0, 0⟩,
        .TimeSeriesWithPrettyPrint true]).destinationCurrencies :=
  ⟨rfl,
    ((C14_symbols_sent_when_joined_text_not_empty testClient rfl).2.2.2.2.1 .live
      (fun _ z => (z, none))
      [.TimeSeriesForBaseCurrency (bytes "AUD"),
        .TimeSeriesForDestinationCurrencies [bytes "BTC", bytes "EUR", bytes "HKD"],
        .TimeSeriesForStartDate ⟨2013, 1, 1, 13, 0, 0, 0⟩,
        .TimeSeriesForEndDate ⟨2013, 1, 31, 13, 0, 0, 0⟩,
        .TimeSeriesWithPrettyPrint true] _ rfl).1⟩

/-- C15: a Currencies call gives the decoder the whole body and the mapping field of its
result, which starts as the nil map; when the transport answers 200 with no error and the
decoder reads the body as the mapping `m`, the call returns, with a nil error, the response
whose `Currencies` field is exactly `m`; the response has no other content. -/
theorem C15_currencies_body_is_the_mapping (c : Client) (d : Doer) (hd : c.doer = some d)
    (ctx : Context) (opts : List CurrenciesOption) (req : Request)
    (hb : c.currenciesRequest ctx opts = .ok req) (body : Body)
    (hdo : d.Do req = (some ⟨200, some body⟩, none)) (json : Decoder (GoMap GoString))
    (m : List (GoString × GoString)) (hj : json body none = (some m, none)) :
    (c.Currencies json ctx opts).outcome = .returned { Currencies := some m } none ∧
    (∀ v e, (c.Currencies json ctx opts).outcome = .returned v e → v.Currencies = some m) ∧
    (∀ r : CurrenciesResponse, r = { Currencies := r.Currencies }) := by
  have h : c.Currencies json ctx opts =
      ⟨[.Do req, .Decode, .Close], .returned { Currencies := some m } none⟩ := by
    simp only [Client.Currencies, hb, hd, finish]
    exact exchange_decoded d req _ _ body _ hdo (by simp [hj])
  refine ⟨by rw [h], ?_, fun r => rfl⟩
  intro v e hv
  rw [h] at hv
  simp at hv
  rw [← hv.1]

/-- Witness of C15: with a transport that answers 200 and the body `\x7b"EUR":"Euro"\x7d`,
and a decoder that reads that body as the mapping of `EUR` to `Euro`, the Currencies call of
the test client returns that mapping. -/
theorem C15_witness :
    (Client.Currencies
      (fun body z => if body = bytes "\x7b\"EUR\":\"Euro\"\x7d" then
        (some [(bytes "EUR", bytes "Euro")], none) else (z, none))
      (New [.WithAppID (bytes "test"),
        .WithDoer (answeringDoer 200 (bytes "\x7b\"EUR\":\"Euro\"\x7d"))])
      .live []).outcome =
      .returned { Currencies := some [(bytes "EUR", bytes "Euro")] } none :=
  (C15_currencies_body_is_the_mapping
    (New [.WithAppID (bytes "test"),
      .WithDoer (answeringDoer 200 (bytes "\x7b\"EUR\":\"Euro\"\x7d"))])
    (answeringDoer 200 (bytes "\x7b\"EUR\":\"Euro\"\x7d")) rfl .live [] _ rfl
    (bytes "\x7b\"EUR\":\"Euro\"\x7d") rfl
    (fun body z => if body = bytes "\x7b\"EUR\":\"Euro\"\x7d" then
      (some [(bytes "EUR", bytes "Euro")], none) else (z, none))
    [(bytes "EUR", bytes "Euro")] (by decide)).1

/-- C16: in every endpoint method, when the transport returns no error and status 200 and
the decoder fails on the body, the call returns the zero result and the error of the
decoder, the same value, with nothing wrapped around it, after closing the body; and the
errors the JSON decoder makes for a body that does not decode do not match
`ErrBadResponse` under `errors.Is`, while the error of a status other than 200 does. -/
theorem C16_decode_failure_returns_the_decoder_error (c : Client) (d : Doer)
    (hd : c.doer = some d) (ctx : Context) (body : Body) :
    (∀ (json : Decoder LatestRatesResponse) opts req part e, c.latestRequest ctx opts = .ok req →
      d.Do req = (some ⟨200, some body⟩, none) → json body {} = (part, some e) →
      c.Latest json ctx opts = ⟨[.Do req, .Decode, .Close], .returned {} (some e)⟩) ∧
    (∀ (json : Decoder HistoricalRatesResponse) opts req part e, c.historicalRequest ctx opts = .ok req →
      d.Do req = (some ⟨200, some body⟩, none) → json body {} = (part, some e) →
      c.Historical json ctx opts = ⟨[.Do req, .Decode, .Close], .returned {} (some e)⟩) ∧
    (∀ (json : Decoder (GoMap GoString)) opts req part e, c.currenciesRequest ctx opts = .ok req →
      d.Do req = (some ⟨200, some body⟩, none) → json body none = (part, some e) →
      c.Currencies json ctx opts = ⟨[.Do req, .Decode, .Close], .returned {} (some e)⟩) ∧
    (∀ (json : Decoder TimeSeriesResponse) opts req part e, c.timeSeriesRequest ctx opts = .ok req →
      d.Do req = (some ⟨200, some body⟩, none) → json body {} = (part, some e) →
      c.TimeSeries json ctx opts = ⟨[.Do req, .Decode, .Close], .returned {} (some e)⟩) ∧
    (∀ (json : Decoder ConversionResponse) opts req part e, c.convertRequest ctx opts = .ok req →
      d.Do req = (some ⟨200, some body⟩, none) → json body {} = (part, some e) →
      c.Convert json ctx opts = ⟨[.Do req, .Decode, .Close], .returned {} (some e)⟩) ∧
    (∀ (json : Decoder OHLCResponse) opts req part e, c.ohlcRequest ctx opts = .ok req →
      d.Do req = (some ⟨200, some body⟩, none) → json body {} = (part, some e) →
      c.OpenHighLowClose json ctx opts = ⟨[.Do req, .Decode, .Close], .returned {} (some e)⟩) ∧
    (∀ (json : Decoder UsageResponse) opts req part e, c.usageRequest ctx opts = .ok req →
      d.Do req = (some ⟨200, some body⟩, none) → json body {} = (part, some e) →
      c.Usage json ctx opts = ⟨[.Do req, .Decode, .Close], .returned {} (some e)⟩) ∧
    (∀ id text, errorsIs (decodeFailure id text) ErrBadResponse = false) ∧
    (∀ code, errorsIs (errStatusReceived code) ErrBadResponse = true) := by
  refine ⟨?_, ?_, ?_, ?_, ?_, ?_, ?_, decodeFailure_not_bad_response, errStatusReceived_is⟩
  · intro json opts req part e hreq hdo hdec
    simp only [Client.Latest, hreq, hd, finish]
    exact exchange_decode_failed d req _ _ body part e hdo hdec
  · intro json opts req part e hreq hdo hdec
    simp only [Client.Historical, hreq, hd, finish]
    exact exchange_decode_failed d req _ _ body part e hdo hdec
  · intro json opts req part e hreq hdo hdec
    simp only [Client.Currencies, hreq, hd, finish]
    exact exchange_decode_failed d req _ _ body { Currencies := part } e hdo (by simp [hdec])
  · intro json opts req part e hreq hdo hdec
    simp only [Client.TimeSeries, hreq, hd, finish]
    exact exchange_decode_failed d req _ _ body part e hdo hdec
  · intro json opts req part e hreq hdo hdec
    simp only [Client.Convert, hreq, hd, finish]
    exact exchange_decode_failed d req _ _ body part e hdo hdec
  · intro json opts req part e hreq hdo hdec
    simp only [Client.OpenHighLowClose, hreq, hd, finish]
    exact exchange_decode_failed d req _ _ body part e hdo hdec
  · intro json opts req part e hreq hdo hdec
    simp only [Client.Usage, hreq, hd, finish]
    exact exchange_decode_failed d req _ _ body part e hdo hdec

/-- Witness of C16: with a transport that answers 200 and a body that is no JSON text, and
a decoder that fails on it with a syntax error, the Latest call of the test client returns
the zero response and that error, which does not match `ErrBadResponse`. -/
theorem C16_witness :
    Client.Latest (fun _ z => (z, some (decodeFailure 0 (bytes "invalid character"))))
        (New [.WithAppID (bytes "test"), .WithDoer (answeringDoer 200 (bytes "oops"))])
        .live [] =
      ⟨[.Do (baseRequest (bytes "latest.json") (bytes
            "app_id=test&prettyprint=false&show_alternative=false")),
          .Decode, .Close],
        .returned {} (some (decodeFailure 0 (bytes "invalid character")))⟩ ∧
    errorsIs (decodeFailure 0 (bytes "invalid character")) ErrBadResponse = false :=
  ⟨(C16_decode_failure_returns_the_decoder_error
      (New [.WithAppID (bytes "test"), .WithDoer (answeringDoer 200 (bytes "oops"))])
      (answeringDoer 200 (bytes "oops")) rfl .live (bytes "oops")).1
      (fun _ z => (z, some (decodeFailure 0 (bytes "invalid character")))) [] _ _ _
      rfl rfl rfl,
    (C16_decode_failure_returns_the_decoder_error
      (New [.WithAppID (bytes "test"), .WithDoer (answeringDoer 200 (bytes "oops"))])
      (answeringDoer 200 (bytes "oops")) rfl .live (bytes "oops")).2.2.2.2.2.2.2.1 0
      (bytes "invalid character")⟩

/-- C17: whenever an endpoint method returns a non-nil error, whichever step the error
comes from (building the request, the transport, the status, the decoder), the result it
returns is the zero value of the response model of the endpoint, whatever the decoder had
written into the value before failing. -/
theorem C17_error_comes_with_zero_result (c : Client) :
    (∀ (json : Decoder LatestRatesResponse) (ctx : Context) (opts : List LatestOption) (v : LatestRatesResponse) (e : GoError),
      (c.Latest json ctx opts).outcome = .returned v (some e) → v = {}) ∧
    (∀ (json : Decoder HistoricalRatesResponse) (ctx : Context) (opts : List HistoricalOption) (v : HistoricalRatesResponse) (e : GoError),
      (c.Historical json ctx opts).outcome = .returned v (some e) → v = {}) ∧
    (∀ (json : Decoder (GoMap GoString)) (ctx : Context) (opts : List CurrenciesOption) (v : CurrenciesResponse) (e : GoError),
      (c.Currencies json ctx opts).outcome = .returned v (some e) → v = {}) ∧
    (∀ (json : Decoder TimeSeriesResponse) (ctx : Context) (opts : List TimeSeriesOption) (v : TimeSeriesResponse) (e : GoError),
      (c.TimeSeries json ctx opts).outcome = .returned v (some e) → v = {}) ∧
    (∀ (json : Decoder ConversionResponse) (ctx : Context) (opts : List ConvertOption) (v : ConversionResponse) (e : GoError),
      (c.Convert json ctx opts).outcome = .returned v (some e) → v = {}) ∧
    (∀ (json : Decoder OHLCResponse) (ctx : Context) (opts : List OHLCOption) (v : OHLCResponse) (e : GoError),
      (c.OpenHighLowClose json ctx opts).outcome = .returned v (some e) → v = {}) ∧
    (∀ (json : Decoder UsageResponse) (ctx : Context) (opts : List UsageOption) (v : UsageResponse) (e : GoError),
      (c.Usage json ctx opts).outcome = .returned v (some e) → v = {}) := by
  refine ⟨?_, ?_, ?_, ?_, ?_, ?_, ?_⟩ <;>
    exact fun json ctx opts v e h => finish_error_zero _ _ _ _ v e h

/-- Witness of C17: a decoder that writes the base currency into the value and then fails
leaves a value that is not the zero response, and the Latest call of the test client still
returns the zero response with the error. -/
theorem C17_witness :
    (({ Base := bytes "USD" } : LatestRatesResponse) ≠ {}) ∧
    (Client.Latest
      (fun _ z => ({ z with Base := bytes "USD" },
        some (decodeFailure 0 (bytes "unexpected EOF"))))
      testClient .live []).outcome =
      .returned {} (some (decodeFailure 0 (bytes "unexpected EOF"))) ∧
    ∀ v, (Client.Latest
      (fun _ z => ({ z with Base := bytes "USD" },
        some (decodeFailure 0 (bytes "unexpected EOF"))))
      testClient .live []).outcome =
      .returned v (some (decodeFailure 0 (bytes "unexpected EOF"))) → v = {} :=
  ⟨by decide, by decide,
    fun v h => (C17_error_comes_with_zero_result testClient).1
      (fun _ z => ({ z with Base := bytes "USD" },
        some (decodeFailure 0 (bytes "unexpected EOF"))))
      .live [] v _ h⟩

/-- C18: every endpoint call that handed a request to the transport and returns has closed
the response body, once, as the last thing it did; and whenever the transport answers with
a response that has a body, with or without an error and whatever the status code and the
fate of the decoding, the call does return and has closed the body. -/
theorem C18_body_closed_on_every_return (c : Client) :
    (∀ (json : Decoder LatestRatesResponse) (ctx : Context) (opts : List LatestOption),
      ((c.Latest json ctx opts).returns → (c.Latest json ctx opts).calls ≠ [] →
        (c.Latest json ctx opts).closed) ∧
      (∀ req d code body err, c.latestRequest ctx opts = .ok req → c.doer = some d →
        d.Do req = (some ⟨code, some body⟩, err) →
        (c.Latest json ctx opts).returns ∧ (c.Latest json ctx opts).closed)) ∧
    (∀ (json : Decoder HistoricalRatesResponse) (ctx : Context) (opts : List HistoricalOption),
      ((c.Historical json ctx opts).returns → (c.Historical json ctx opts).calls ≠ [] →
        (c.Historical json ctx opts).closed) ∧
      (∀ req d code body err, c.historicalRequest ctx opts = .ok req → c.doer = some d →
        d.Do req = (some ⟨code, some body⟩, err) →
        (c.Historical json ctx opts).returns ∧ (c.Historical json ctx opts).closed)) ∧
    (∀ (json : Decoder (GoMap GoString)) (ctx : Context) (opts : List CurrenciesOption),
      ((c.Currencies json ctx opts).returns → (c.Currencies json ctx opts).calls ≠ [] →
        (c.Currencies json ctx opts).closed) ∧
      (∀ req d code body err, c.currenciesRequest ctx opts = .ok req → c.doer = some d →
        d.Do req = (some ⟨code, some body⟩, err) →
        (c.Currencies json ctx opts).returns ∧ (c.Currencies json ctx opts).closed)) ∧
    (∀ (json : Decoder TimeSeriesResponse) (ctx : Context) (opts : List TimeSeriesOption),
      ((c.TimeSeries json ctx opts).returns → (c.TimeSeries json ctx opts).calls ≠ [] →
        (c.TimeSeries json ctx opts).closed) ∧
      (∀ req d code body err, c.timeSeriesRequest ctx opts = .ok req → c.doer = some d →
        d.Do req = (some ⟨code, some body⟩, err) →
        (c.TimeSeries json ctx opts).returns ∧ (c.TimeSeries json ctx opts).closed)) ∧
    (∀ (json : Decoder ConversionResponse) (ctx : Context) (opts : List ConvertOption),
      ((c.Convert json ctx opts).returns → (c.Convert json ctx opts).calls ≠ [] →
        (c.Convert json ctx opts).closed) ∧
      (∀ req d code body err, c.convertRequest ctx opts = .ok req → c.doer = some d →
        d.Do req = (some ⟨code, some body⟩, err) →
        (c.Convert json ctx opts).returns ∧ (c.Convert json ctx opts).closed)) ∧
    (∀ (json : Decoder OHLCResponse) (ctx : Context) (opts : List OHLCOption),
      ((c.OpenHighLowClose json ctx opts).returns → (c.OpenHighLowClose json ctx opts).calls ≠ [] →
        (c.OpenHighLowClose json ctx opts).closed) ∧
      (∀ req d code body err, c.ohlcRequest ctx opts = .ok req → c.doer = some d →
        d.Do req = (some ⟨code, some body⟩, err) →
        (c.OpenHighLowClose json ctx opts).returns ∧ (c.OpenHighLowClose json ctx opts).closed)) ∧
    (∀ (json : Decoder UsageResponse) (ctx : Context) (opts : List UsageOption),
      ((c.Usage json ctx opts).returns → (c.Usage json ctx opts).calls ≠ [] →
        (c.Usage json ctx opts).closed) ∧
      (∀ req d code body err, c.usageRequest ctx opts = .ok req → c.doer = some d →
        d.Do req = (some ⟨code, some body⟩, err) →
        (c.Usage json ctx opts).returns ∧ (c.Usage json ctx opts).closed)) := by
  refine ⟨?_, ?_, ?_, ?_, ?_, ?_, ?_⟩
  · intro json ctx opts
    refine ⟨fun hr hn => finish_closed _ _ _ _ hr hn, ?_⟩
    intro req d code body err hreq hd hdo
    simp only [Client.Latest, hreq, hd, finish]
    exact ⟨exchange_body_returns d req _ _ code body err hdo,
      (exchange_closed _ _ _ _ (exchange_body_returns d req _ _ code body err hdo)).1⟩
  · intro json ctx opts
    refine ⟨fun hr hn => finish_closed _ _ _ _ hr hn, ?_⟩
    intro req d code body err hreq hd hdo
    simp only [Client.Historical, hreq, hd, finish]
    exact ⟨exchange_body_returns d req _ _ code body err hdo,
      (exchange_closed _ _ _ _ (exchange_body_returns d req _ _ code body err hdo)).1⟩
  · intro json ctx opts
    refine ⟨fun hr hn => finish_closed _ _ _ _ hr hn, ?_⟩
    intro req d code body err hreq hd hdo
    simp only [Client.Currencies, hreq, hd, finish]
    exact ⟨exchange_body_returns d req _ _ code body err hdo,
      (exchange_closed _ _ _ _ (exchange_body_returns d req _ _ code body err hdo)).1⟩
  · intro json ctx opts
    refine ⟨fun hr hn => finish_closed _ _ _ _ hr hn, ?_⟩
    intro req d code body err hreq hd hdo
    simp only [Client.TimeSeries, hreq, hd, finish]
    exact ⟨exchange_body_returns d req _ _ code body err hdo,
      (exchange_closed _ _ _ _ (exchange_body_returns d req _ _ code body err hdo)).1⟩
  · intro json ctx opts
    refine ⟨fun hr hn => finish_closed _ _ _ _ hr hn, ?_⟩
    intro req d code body err hreq hd hdo
    simp only [Client.Convert, hreq, hd, finish]
    exact ⟨exchange_body_returns d req _ _ code body err hdo,
      (exchange_closed _ _ _ _ (exchange_body_returns d req _ _ code body err hdo)).1⟩
  · intro json ctx opts
    refine ⟨fun hr hn => finish_closed _ _ _ _ hr hn, ?_⟩
    intro req d code body err hreq hd hdo
    simp only [Client.OpenHighLowClose, hreq, hd, finish]
    exact ⟨exchange_body_returns d req _ _ code body err hdo,
      (exchange_closed _ _ _ _ (exchange_body_returns d req _ _ code body err hdo)).1⟩
  · intro json ctx opts
    refine ⟨fun hr hn => finish_closed _ _ _ _ hr hn, ?_⟩
    intro req d code body err hreq hd hdo
    simp only [Client.Usage, hreq, hd, finish]
    exact ⟨exchange_body_returns d req _ _ code body err hdo,
      (exchange_closed _ _ _ _ (exchange_body_returns d req _ _ code body err hdo)).1⟩

/-- Witness of C18: the four ways a Latest call can return after reaching the transport:
decoded body, transport error beside a response, status 500, decode failure. Each run has
closed the body. -/
theorem C18_witness :
    (Client.Latest (fun _ z => (z, none)) testClient .live []).closed ∧
    (Client.Latest (fun _ z => (z, none))
      (New [.WithDoer ⟨fun _ => (some ⟨0, some []⟩, some (.errorString 7 (bytes "timeout")))⟩])
      .live []).closed ∧
    (Client.Latest (fun _ z => (z, none)) (New [.WithDoer (answeringDoer 500 [])])
      .live []).closed ∧
    (Client.Latest (fun _ z => (z, some (decodeFailure 0 (bytes "unexpected EOF"))))
      testClient .live []).closed :=
  ⟨(((C18_body_closed_on_every_return testClient).1 (fun _ z => (z, none)) .live []).2
      _ (answeringDoer 200 []) 200 [] none rfl rfl rfl).2,
    (((C18_body_closed_on_every_return
      (New [.WithDoer ⟨fun _ => (some ⟨0, some []⟩, some (.errorString 7 (bytes "timeout")))⟩])).1
      (fun _ z => (z, none)) .live []).2
      _ ⟨fun _ => (some ⟨0, some []⟩, some (.errorString 7 (bytes "timeout")))⟩ 0 []
      (some (.errorString 7 (bytes "timeout"))) rfl rfl rfl).2,
    (((C18_body_closed_on_every_return (New [.WithDoer (answeringDoer 500 [])])).1
      (fun _ z => (z, none)) .live []).2
      _ (answeringDoer 500 []) 500 [] none rfl rfl rfl).2,
    (((C18_body_closed_on_every_return testClient).1
      (fun _ z => (z, some (decodeFailure 0 (bytes "unexpected EOF")))) .live []).2
      _ (answeringDoer 200 []) 200 [] none rfl rfl rfl).2⟩

/-- Counterexample to C19 as stated: a client made by `New` without `WithDoer` has no
transport; its Latest call builds the request without failure, and then it invokes no
transport at all: the call on the absent transport panics. -/
theorem C19_counterexample :
    (New [.WithAppID (bytes "test")]).latestRequest .live [] =
      .ok (baseRequest (bytes "latest.json")
        (bytes "app_id=test&prettyprint=false&show_alternative=false")) ∧
    Client.Latest (fun _ z => (z, none)) (New [.WithAppID (bytes "test")]) .live [] =
      ⟨[], .panicked⟩ ∧
    (Client.Latest (fun _ z => (z, none)) (New [.WithAppID (bytes "test")]) .live []).calls =
      [] :=
  ⟨rfl, rfl, rfl⟩

/-- C19, amended: in every endpoint method, when building the request fails the call
returns the zero result and the error of the construction and hands nothing to the
transport; when the request is built and the client has a transport, the transport is
invoked exactly once, with that request; when the request is built and the client has no
transport (it was made without `WithDoer`), no transport is invoked and the call panics. -/
theorem C19_transport_invoked_once_when_present (c : Client) :
    (∀ (json : Decoder LatestRatesResponse) (ctx : Context) (opts : List LatestOption),
      (∀ err, c.latestRequest ctx opts = .error err →
        c.Latest json ctx opts = ⟨[], .returned {} (some err)⟩) ∧
      (∀ req d, c.latestRequest ctx opts = .ok req → c.doer = some d →
        (c.Latest json ctx opts).calls = [req]) ∧
      (∀ req, c.latestRequest ctx opts = .ok req → c.doer = none →
        c.Latest json ctx opts = ⟨[], .panicked⟩)) ∧
    (∀ (json : Decoder HistoricalRatesResponse) (ctx : Context) (opts : List HistoricalOption),
      (∀ err, c.historicalRequest ctx opts = .error err →
        c.Historical json ctx opts = ⟨[], .returned {} (some err)⟩) ∧
      (∀ req d, c.historicalRequest ctx opts = .ok req → c.doer = some d →
        (c.Historical json ctx opts).calls = [req]) ∧
      (∀ req, c.historicalRequest ctx opts = .ok req → c.doer = none →
        c.Historical json ctx opts = ⟨[], .panicked⟩)) ∧
    (∀ (json : Decoder (GoMap GoString)) (ctx : Context) (opts : List CurrenciesOption),
      (∀ err, c.currenciesRequest ctx opts = .error err →
        c.Currencies json ctx opts = ⟨[], .returned {} (some err)⟩) ∧
      (∀ req d, c.currenciesRequest ctx opts = .ok req → c.doer = some d →
        (c.Currencies json ctx opts).calls = [req]) ∧
      (∀ req, c.currenciesRequest ctx opts = .ok req → c.doer = none →
        c.Currencies json ctx opts = ⟨[], .panicked⟩)) ∧
    (∀ (json : Decoder TimeSeriesResponse) (ctx : Context) (opts : List TimeSeriesOption),
      (∀ err, c.timeSeriesRequest ctx opts = .error err →
        c.TimeSeries json ctx opts = ⟨[], .returned {} (some err)⟩) ∧
      (∀ req d, c.timeSeriesRequest ctx opts = .ok req → c.doer = some d →
        (c.TimeSeries json ctx opts).calls = [req]) ∧
      (∀ req, c.timeSeriesRequest ctx opts = .ok req → c.doer = none →
        c.TimeSeries json ctx opts = ⟨[], .panicked⟩)) ∧
    (∀ (json : Decoder ConversionResponse) (ctx : Context) (opts : List ConvertOption),
      (∀ err, c.convertRequest ctx opts = .error err →
        c.Convert json ctx opts = ⟨[], .returned {} (some err)⟩) ∧
      (∀ req d, c.convertRequest ctx opts = .ok req → c.doer = some d →
        (c.Convert json ctx opts).calls = [req]) ∧
      (∀ req, c.convertRequest ctx opts = .ok req → c.doer = none →
        c.Convert json ctx opts = ⟨[], .panicked⟩)) ∧
    (∀ (json : Decoder OHLCResponse) (ctx : Context) (opts : List OHLCOption),
      (∀ err, c.ohlcRequest ctx opts = .error err →
        c.OpenHighLowClose json ctx opts = ⟨[], .returned {} (some err)⟩) ∧
      (∀ req d, c.ohlcRequest ctx opts = .ok req → c.doer = some d →
        (c.OpenHighLowClose json ctx opts).calls = [req]) ∧
      (∀ req, c.ohlcRequest ctx opts = .ok req → c.doer = none →
        c.OpenHighLowClose json ctx opts = ⟨[], .panicked⟩)) ∧
    (∀ (json : Decoder UsageResponse) (ctx : Context) (opts : List UsageOption),
      (∀ err, c.usageRequest ctx opts = .error err →
        c.Usage json ctx opts = ⟨[], .returned {} (some err)⟩) ∧
      (∀ req d, c.usageRequest ctx opts = .ok req → c.doer = some d →
        (c.Usage json ctx opts).calls = [req]) ∧
      (∀ req, c.usageRequest ctx opts = .ok req → c.doer = none →
        c.Usage json ctx opts = ⟨[], .panicked⟩)) := by
  refine ⟨?_, ?_, ?_, ?_, ?_, ?_, ?_⟩
  · intro json ctx opts
    refine ⟨?_, ?_, ?_⟩
    · intro err hreq
      simp only [Client.Latest, hreq, finish]
    · intro req d hreq hd
      simp only [Client.Latest, hreq, hd, finish]
      exact exchange_calls d req _ _
    · intro req hreq hd
      simp only [Client.Latest, hreq, hd, finish, exchange]
  · intro json ctx opts
    refine ⟨?_, ?_, ?_⟩
    · intro err hreq
      simp only [Client.Historical, hreq, finish]
    · intro req d hreq hd
      simp only [Client.Historical, hreq, hd, finish]
      exact exchange_calls d req _ _
    · intro req hreq hd
      simp only [Client.Historical, hreq, hd, finish, exchange]
  · intro json ctx opts
    refine ⟨?_, ?_, ?_⟩
    · intro err hreq
      simp only [Client.Currencies, hreq, finish]
    · intro req d hreq hd
      simp only [Client.Currencies, hreq, hd, finish]
      exact exchange_calls d req _ _
    · intro req hreq hd
      simp only [Client.Currencies, hreq, hd, finish, exchange]
  · intro json ctx opts
    refine ⟨?_, ?_, ?_⟩
    · intro err hreq
      simp only [Client.TimeSeries, hreq, finish]
    · intro req d hreq hd
      simp only [Client.TimeSeries, hreq, hd, finish]
      exact exchange_calls d req _ _
    · intro req hreq hd
      simp only [Client.TimeSeries, hreq, hd, finish, exchange]
  · intro json ctx opts
    refine ⟨?_, ?_, ?_⟩
    · intro err hreq
      simp only [Client.Convert, hreq, finish]
    · intro req d hreq hd
      simp only [Client.Convert, hreq, hd, finish]
      exact exchange_calls d req _ _
    · intro req hreq hd
      simp only [Client.Convert, hreq, hd, finish, exchange]
  · intro json ctx opts
    refine ⟨?_, ?_, ?_⟩
    · intro err hreq
      simp only [Client.OpenHighLowClose, hreq, finish]
    · intro req d hreq hd
      simp only [Client.OpenHighLowClose, hreq, hd, finish]
      exact exchange_calls d req _ _
    · intro req hreq hd
      simp only [Client.OpenHighLowClose, hreq, hd, finish, exchange]
  · intro json ctx opts
    refine ⟨?_, ?_, ?_⟩
    · intro err hreq
      simp only [Client.Usage, hreq, finish]
    · intro req d hreq hd
      simp only [Client.Usage, hreq, hd, finish]
      exact exchange_calls d req _ _
    · intro req hreq hd
      simp only [Client.Usage, hreq, hd, finish, exchange]

/-- Witness of C19: a base currency ending in `%` makes the URL of a Convert call fail to
parse, and the call of the test client returns that error without a call of the transport;
the Latest call of the test client invokes the transport once. -/
theorem C19_witness :
    Client.Convert (fun _ z => (z, none)) testClient .live
        [.ConvertWithValue ⟨bytes "1"⟩, .ConvertForBaseCurrency (bytes "US%"),
          .ConvertForDestinationCurrency (bytes "EUR")] =
      ⟨[], .returned {} (some (.urlError (bytes "parse")
        (bytes "https://openexchangerates.org/api/convert/1/US%/EUR")
        (.EscapeError (bytes "%/E"))))⟩ ∧
    (Client.Latest (fun _ z => (z, none)) testClient .live []).calls =
      [baseRequest (bytes "latest.json")
        (bytes "app_id=test&prettyprint=false&show_alternative=false")] :=
  ⟨((C19_transport_invoked_once_when_present testClient).2.2.2.2.1 (fun _ z => (z, none))
      .live [.ConvertWithValue ⟨bytes "1"⟩, .ConvertForBaseCurrency (bytes "US%"),
        .ConvertForDestinationCurrency (bytes "EUR")]).1 _ rfl,
    ((C19_transport_invoked_once_when_present testClient).1 (fun _ z => (z, none))
      .live []).2.1 _ (answeringDoer 200 []) rfl rfl⟩

/-- C20: for every list of client options, `New` returns a client whose base URL is the
constant `basePath`, the text `https://openexchangerates.org/api/`, whose API key is the
argument of the last `WithAppID` of the list, the empty text when the list has none, and
whose transport is the argument of the last `WithDoer` of the list, absent when the list has
none; no client option changes the base URL of a client. -/
theorem C20_New_takes_the_last_key_and_transport (opts : List ClientOption) :
    (New opts).baseURL = basePath ∧
    basePath = bytes "https://openexchangerates.org/api/" ∧
    (New opts).appID = (lastSet ClientOption.setsAppID opts).getD [] ∧
    (New opts).doer = lastSet ClientOption.setsDoer opts ∧
    (∀ appID, ClientOption.setsAppID (.WithAppID appID) = some appID) ∧
    (∀ doer, ClientOption.setsDoer (.WithDoer doer) = some doer) ∧
    ((∀ o ∈ opts, ClientOption.setsAppID o = none) → (New opts).appID = []) ∧
    ((∀ o ∈ opts, ClientOption.setsDoer o = none) → (New opts).doer = none) ∧
    (∀ (o : ClientOption) (c : Client), (o.apply c).baseURL = c.baseURL) := by
  have ha : (New opts).appID = (lastSet ClientOption.setsAppID opts).getD [] :=
    foldl_field ClientOption.apply (fun c => c.appID) ClientOption.setsAppID
      (fun o p => by cases o <;> rfl) opts _
  have hd : (New opts).doer = lastSet ClientOption.setsDoer opts := by
    unfold New
    rw [foldl_doer]
    simp
  refine ⟨foldl_baseURL opts _, rfl, ha, hd, fun _ => rfl, fun _ => rfl, ?_, ?_, ?_⟩
  · intro h
    rw [ha, lastSet_eq_none _ _ h]
    rfl
  · intro h
    rw [hd, lastSet_eq_none _ _ h]
  · intro o c
    cases o <;> rfl

/-- Witness of C20: with two keys and two transports in the list, the client has the second
key and the second transport; with an empty list it has the empty key and no transport. -/
theorem C20_witness :
    (New [.WithAppID (bytes "first"), .WithDoer (answeringDoer 200 []),
      .WithDoer (answeringDoer 500 []), .WithAppID (bytes "second")]).appID =
      bytes "second" ∧
    ((New [.WithAppID (bytes "first"), .WithDoer (answeringDoer 200 []),
      .WithDoer (answeringDoer 500 []), .WithAppID (bytes "second")]).doer.map
      fun d => d.Do (baseRequest [] [])) = some (some ⟨500, some []⟩, none) ∧
    (New []).appID = [] ∧
    (New []).doer = none :=
  ⟨rfl, rfl,
    (C20_New_takes_the_last_key_and_transport []).2.2.2.2.2.2.1 (by simp),
    (C20_New_takes_the_last_key_and_transport []).2.2.2.2.2.2.2.1 (by simp)⟩

/-- Counterexample to C21 as stated: the caller builds the option
`LatestForDestinationCurrencies(s)` once, for a slice `s` that holds `EUR`, calls Latest
with it on the test client, writes `GBP` into the slice and calls Latest again with the same
option list. The closure joins what the slice holds when it is applied, so the two calls,
on the same client with the same option list, send `symbols=EUR` and `symbols=GBP`. -/
theorem C21_counterexample :
    (session (⟨fun _ _ => (some ⟨200, some []⟩, none), fun _ _ => ()⟩ : Transport Unit)
      ⟨testClient, fun _ => [bytes "EUR"], ()⟩
      [.call (.Latest (fun _ z => (z, none)) .live [.onSlice () 0]),
        .write 0 [bytes "GBP"],
        .call (.Latest (fun _ z => (z, none)) .live [.onSlice () 0])]).2 =
      [some (baseRequest (bytes "latest.json")
          (bytes "app_id=test&prettyprint=false&show_alternative=false&symbols=EUR")),
        none,
        some (baseRequest (bytes "latest.json")
          (bytes "app_id=test&prettyprint=false&show_alternative=false&symbols=GBP"))] ∧
    (baseRequest (bytes "latest.json")
        (bytes "app_id=test&prettyprint=false&show_alternative=false&symbols=EUR")).URL.String ≠
      (baseRequest (bytes "latest.json")
        (bytes "app_id=test&prettyprint=false&show_alternative=false&symbols=GBP")).URL.String :=
  ⟨rfl, by decide⟩

/-- C21, amended: the request an endpoint call hands to the transport is decided by the API
key and the base URL of the client, by whether the client has a transport, and by the
option list of the call as it is when the call is made: the option values and what the
slices they were built on hold at that moment. It does not depend on what the transport
answers or on the decoder. A call leaves the client variable and the slices of the caller
as they were, and so does every sequence of calls for the client. Hence, in a sequence of
calls and writes of the caller, with a transport whose state changes from call to call, two
calls of the same method with equal option lists send the same request, with the same URL
text, whatever calls lie between them, provided the caller wrote between them into no
slice that an option of the list was built on. -/
theorem C21_calls_do_not_interfere :
    (∀ (c c' : Client) (h h' : Heap) (k : GoCall), c.appID = c'.appID →
      c.baseURL = c'.baseURL → c.doer.isSome = c'.doer.isSome →
      (∀ a ∈ k.slices, h a = h' a) → k.sent c h = k.sent c' h') ∧
    (∀ (c c' : Client) (h : Heap) (k k' : GoCall) (r r' : Request), c.appID = c'.appID →
      c.baseURL = c'.baseURL → k.sameOptions k' → k.sent c h = some r →
      k'.sent c' h = some r' → r = r') ∧
    (∀ (σ : Type) (t : Transport σ) (w : World σ) (k : GoCall),
      (k.perform t w).1.client = w.client ∧ (k.perform t w).1.heap = w.heap) ∧
    (∀ (σ : Type) (t : Transport σ) (w : World σ) (steps : List Step),
      (session t w steps).1.client = w.client ∧
      ∀ a, (∀ s ∈ steps, s.writes a = false) → (session t w steps).1.heap a = w.heap a) ∧
    (∀ (σ : Type) (t : Transport σ) (w : World σ) (pre mid : List Step) (ki kj : GoCall)
      (ri rj : Request), ki.sameOptions kj →
      (∀ a ∈ ki.slices, ∀ s ∈ mid, s.writes a = false) →
      (ki.perform t (session t w pre).1).2 = some ri →
      (kj.perform t (session t w (pre ++ .call ki :: mid)).1).2 = some rj →
      ri = rj ∧ ri.URL.String = rj.URL.String) := by
  refine ⟨fun c c' h h' k ha hb hd hs => GoCall.sent_of_same_memory c c' ha hb hd h h' k hs,
    fun c c' h k k' r r' ha hb hk hs hs' =>
      GoCall.sent_sameOptions c c' ha hb h k k' hk r r' hs hs',
    fun σ t w k => ⟨(GoCall.perform_frame t w k).1, (GoCall.perform_frame t w k).2.1⟩,
    fun σ t w steps => session_frame t w steps, ?_⟩
  intro σ t w pre mid ki kj ri rj hk hw hi hj
  have he := session_same_request t w pre mid ki kj hk hw ri rj hi hj
  exact ⟨he, by rw [he]⟩

/-- Witness of C21: on the test client, with a transport that counts its calls and answers
the second one with status 500, the caller calls Latest with an option built on slice 0 and
the base currency `USD`, calls Currencies, writes into another slice, and calls Latest
again with the same option list: the first and the last call send the same request. -/
theorem C21_witness :
    (session (⟨fun s _ => (some ⟨if s = 1 then 500 else 200, some []⟩, none),
        fun s _ => s + 1⟩ : Transport Nat)
      ⟨testClient, fun _ => [bytes "EUR", bytes "GBP"], 0⟩
      [.call (.Latest (fun _ z => (z, none)) .live
          [.onSlice () 0, .closure (.LatestForBaseCurrency (bytes "USD"))]),
        .call (.Currencies (fun _ z => (z, none)) .live []),
        .write 7 [bytes "JPY"],
        .call (.Latest (fun _ z => (z, none)) .live
          [.onSlice () 0, .closure (.LatestForBaseCurrency (bytes "USD"))])]).2 =
      [some (baseRequest (bytes "latest.json") (bytes
          "app_id=test&base=USD&prettyprint=false&show_alternative=false&symbols=EUR%2CGBP")),
        some (baseRequest (bytes "currencies.json") (bytes
          "app_id=test&prettyprint=false&show_alternative=false&show_inactive=false")),
        none,
        some (baseRequest (bytes "latest.json") (bytes
          "app_id=test&base=USD&prettyprint=false&show_alternative=false&symbols=EUR%2CGBP"))] ∧
    (baseRequest (bytes "latest.json") (bytes
        "app_id=test&base=USD&prettyprint=false&show_alternative=false&symbols=EUR%2CGBP")) =
      (baseRequest (bytes "latest.json") (bytes
        "app_id=test&base=USD&prettyprint=false&show_alternative=false&symbols=EUR%2CGBP")) :=
  ⟨rfl,
    (C21_calls_do_not_interfere.2.2.2.2 Nat
      ⟨fun s _ => (some ⟨if s = 1 then 500 else 200, some []⟩, none), fun s _ => s + 1⟩
      ⟨testClient, fun _ => [bytes "EUR", bytes "GBP"], 0⟩ []
      [.call (.Currencies (fun _ z => (z, none)) .live []), .write 7 [bytes "JPY"]]
      (.Latest (fun _ z => (z, none)) .live
        [.onSlice () 0, .closure (.LatestForBaseCurrency (bytes "USD"))])
      (.Latest (fun _ z => (z, none)) .live
        [.onSlice () 0, .closure (.LatestForBaseCurrency (bytes "USD"))])
      (baseRequest (bytes "latest.json") (bytes
        "app_id=test&base=USD&prettyprint=false&show_alternative=false&symbols=EUR%2CGBP"))
      (baseRequest (bytes "latest.json") (bytes
        "app_id=test&base=USD&prettyprint=false&show_alternative=false&symbols=EUR%2CGBP"))
      rfl (by decide) rfl rfl).1⟩

/-- C22: the raw query of the request any endpoint call hands to the transport is written
by `Values.Encode`: it lists parameters whose keys are in ascending bytewise order, each as
the query-escaped key, `=` and the query-escaped value, joined by `&`; a comma is escaped
as `%2C` and a colon as `%3A`; and what `Encode` writes does not depend on the order in
which two different keys were added to the map. -/
theorem C22_query_sorted_by_key_and_escaped :
    (∀ (c : Client) (k : Call) (req : Request), k.sent c = some req →
      ∃ ps : List (GoString × GoString),
        req.URL.RawQuery = queryOf ps ∧
        (ps.map Prod.fst).Sorted (fun a b => strLE a b = true)) ∧
    (∀ ps : List (GoString × GoString),
      queryOf ps =
        joinAmp (ps.map fun kv => QueryEscape kv.1 ++ bytes "=" ++ QueryEscape kv.2)) ∧
    (∀ (a b : GoString) (rest : List GoString),
      joinAmp (a :: b :: rest) = a ++ bytes "&" ++ joinAmp (b :: rest)) ∧
    QueryEscape (bytes ",") = bytes "%2C" ∧
    QueryEscape (bytes ":") = bytes "%3A" ∧
    (∀ (v : Values) (k1 x1 k2 x2 : GoString), k1 ≠ k2 →
      ((v.Add k1 x1).Add k2 x2).Encode = ((v.Add k2 x2).Add k1 x1).Encode) ∧
    (∀ a b : GoString, strLE a b = true ∨ strLE b a = true) := by
  refine ⟨?_, ?_, ?_, by decide, by decide, Encode_Add_comm, strLE_total⟩
  · intro c k req h
    obtain ⟨_, _, v, hv⟩ := Call.shape c k req (Call.request_of_sent c k req h)
    exact ⟨v.pairs, by rw [hv, Encode_eq_queryOf], pairs_keys_sorted v⟩
  · intro ps
    simp [queryOf, piece, bytes]
  · intro a b rest
    simp [joinAmp, bytes]

/-- Witness of C22: the Latest call of the test client (API key `test`) for the base
currency `USD` hands over the URL the repository test `TestClient_Latest_Success` expects,
with the keys `app_id`, `base`, `prettyprint`, `show_alternative` in ascending order,
although the code adds `prettyprint` before `base`. -/
theorem C22_witness :
    (Client.Latest (fun _ z => (z, none)) testClient .live
      [.LatestForBaseCurrency (bytes "USD")]).sentURL =
      some (bytes ("https://openexchangerates.org/api/latest.json?app_id=test&base=USD" ++
        "&prettyprint=false&show_alternative=false")) ∧
    ∃ ps : List (GoString × GoString),
      (baseRequest (bytes "latest.json")
        (bytes "app_id=test&base=USD&prettyprint=false&show_alternative=false")).URL.RawQuery =
        queryOf ps ∧
      (ps.map Prod.fst).Sorted (fun a b => strLE a b = true) :=
  ⟨by decide,
    C22_query_sorted_by_key_and_escaped.1 testClient
      (.Latest (fun _ z => (z, none)) .live [.LatestForBaseCurrency (bytes "USD")]) _ rfl⟩

/-- C23: the request any endpoint call hands to the transport, for every client, context
and option list, has the method `GET` and an empty body. -/
theorem C23_get_with_empty_body (c : Client) (k : Call) (req : Request)
    (h : k.sent c = some req) :
    req.Method = bytes "GET" ∧ req.Body = [] := by
  obtain ⟨hm, hb, _⟩ := Call.shape c k req (Call.request_of_sent c k req h)
  exact ⟨hm, hb⟩

/-- Witness of C23: the request of the Convert call of the test client for 100.12 `GBP` in
`USD` has the method `GET` and an empty body. -/
theorem C23_witness :
    (baseRequest (bytes "convert/100.12/GBP/USD")
      (bytes "app_id=test&prettyprint=false")).Method = bytes "GET" ∧
    (baseRequest (bytes "convert/100.12/GBP/USD")
      (bytes "app_id=test&prettyprint=false")).Body = [] :=
  C23_get_with_empty_body testClient
    (.Convert (fun _ z => (z, none)) .live
      [.ConvertWithValue ⟨bytes "100.12"⟩, .ConvertForBaseCurrency (bytes "GBP"),
        .ConvertForDestinationCurrency (bytes "USD")]) _ rfl

/-- Counterexample to C24 as stated: the test client has a transport, which answers every
request with a response that has a body, and the Latest call given the nil function value
as its one option does not return: the option loop calls the nil value and panics, before
the request is built. -/
theorem C24_counterexample :
    testClient.doer.isSome = true ∧
    (GoCall.Latest (fun _ z => (z, none)) .live [.nil]).hasNil = true ∧
    ¬ (GoCall.Latest (fun _ z => (z, none)) .live [.nil]).returns testClient (fun _ => []) ∧
    (GoCall.Latest (fun _ z => (z, none)) .live [.nil]).sent testClient (fun _ => []) =
      none := by
  refine ⟨rfl, rfl, ?_, rfl⟩
  decide

/-- C24, amended: on a client that has a transport, an endpoint call whose transport
answers the request with a response that has a body returns to its caller with a result
and an error value, whatever the status code, the body, the error beside the response, the
decoder and the options, exactly when none of its options is the nil function value; the
same holds when the request cannot be built and the transport is not reached. With a nil
option the call panics in its option loop and hands nothing to the transport. -/
theorem C24_returns_unless_an_option_is_nil (c : Client) (d : Doer) (hd : c.doer = some d)
    (h : Heap) (k : GoCall)
    (hbody : ∀ k' req, k.read h = some k' → k'.request c = .ok req →
      ∃ code body err, d.Do req = (some ⟨code, some body⟩, err)) :
    (k.returns c h ↔ k.hasNil = false) ∧
    (k.hasNil = true → k.read h = none ∧ k.sent c h = none) := by
  refine ⟨GoCall.returns_iff c d hd h k hbody, fun hn => ?_⟩
  have hr := (GoCall.read_none_iff h k).mpr hn
  exact ⟨hr, by simp [GoCall.sent, hr]⟩

/-- Witness of C24: the Usage call, with one option that is not nil, of a client whose
transport answers with status 503, a body and an error returns. -/
theorem C24_witness :
    (GoCall.Usage (fun _ z => (z, none)) .live
      [.closure (.UsageWithPrettyPrint true)]).returns
      (New [.WithAppID (bytes "test"),
        .WithDoer ⟨fun _ => (some ⟨503, some (bytes "busy")⟩,
          some (.errorString 7 (bytes "timeout")))⟩])
      (fun _ => []) :=
  (C24_returns_unless_an_option_is_nil
    (New [.WithAppID (bytes "test"),
      .WithDoer ⟨fun _ => (some ⟨503, some (bytes "busy")⟩,
        some (.errorString 7 (bytes "timeout")))⟩])
    ⟨fun _ => (some ⟨503, some (bytes "busy")⟩, some (.errorString 7 (bytes "timeout")))⟩
    rfl (fun _ => [])
    (.Usage (fun _ z => (z, none)) .live [.closure (.UsageWithPrettyPrint true)])
    (fun _ _ _ _ => ⟨503, bytes "busy", some (.errorString 7 (bytes "timeout")), rfl⟩)).1.mpr
    rfl

/-- Counterexample to C25 as stated: with the destination currency `USD?app_id=evil` the
Convert call of the test client builds its request without failure, and the URL handed to
the transport has the key `app_id` twice, first with the value `evil` of the caller's
text and then with the API key `test`. -/
theorem C25_counterexample :
    (Client.Convert (fun _ z => (z, none)) testClient .live
      [.ConvertWithValue ⟨bytes "100.12"⟩, .ConvertForBaseCurrency (bytes "GBP"),
        .ConvertForDestinationCurrency (bytes "USD?app_id=evil")]).sentURL =
      some (bytes ("https://openexchangerates.org/api/convert/100.12/GBP/USD" ++
        "?app_id=evil&app_id=test&prettyprint=false")) ∧
    (Client.Convert (fun _ z => (z, none)) testClient .live
      [.ConvertWithValue ⟨bytes "100.12"⟩, .ConvertForBaseCurrency (bytes "GBP"),
        .ConvertForDestinationCurrency (bytes "USD?app_id=evil")]).sent.map
      (fun req => req.keys) =
      some [bytes "app_id", bytes "app_id", bytes "prettyprint"] ∧
    (Client.Convert (fun _ z => (z, none)) testClient .live
      [.ConvertWithValue ⟨bytes "100.12"⟩, .ConvertForBaseCurrency (bytes "GBP"),
        .ConvertForDestinationCurrency (bytes "USD?app_id=evil")]).sent.map
      (fun req => req.values (bytes "app_id")) = some [bytes "evil", bytes "test"] ∧
    ¬ [bytes "app_id", bytes "app_id", bytes "prettyprint"].Nodup := by
  refine ⟨?_, ?_, ?_, ?_⟩ <;> decide

/-- C25, amended: in the request a Latest, Historical, Currencies, TimeSeries,
OpenHighLowClose or Usage call of a client made by `New` hands to the transport no query
key occurs more than once, and `app_id` occurs once, with the API key of the client as its
value; the same holds for a Convert call when the amount text and the two currency strings
have no `?` in them. -/
theorem C25_each_key_once_without_question_mark (c : Client) (hc : c.baseURL = basePath) :
    (∀ (json : Decoder LatestRatesResponse) (ctx : Context) (opts : List LatestOption) (req : Request),
      (c.Latest json ctx opts).sent = some req →
      req.keys.Nodup ∧ req.values (bytes "app_id") = [QueryEscape c.appID]) ∧
    (∀ (json : Decoder HistoricalRatesResponse) (ctx : Context) (opts : List HistoricalOption) (req : Request),
      (c.Historical json ctx opts).sent = some req →
      req.keys.Nodup ∧ req.values (bytes "app_id") = [QueryEscape c.appID]) ∧
    (∀ (json : Decoder (GoMap GoString)) (ctx : Context) (opts : List CurrenciesOption) (req : Request),
      (c.Currencies json ctx opts).sent = some req →
      req.keys.Nodup ∧ req.values (bytes "app_id") = [QueryEscape c.appID]) ∧
    (∀ (json : Decoder TimeSeriesResponse) (ctx : Context) (opts : List TimeSeriesOption) (req : Request),
      (c.TimeSeries json ctx opts).sent = some req →
      req.keys.Nodup ∧ req.values (bytes "app_id") = [QueryEscape c.appID]) ∧
    (∀ (json : Decoder ConversionResponse) (ctx : Context) (opts : List ConvertOption) (req : Request),
      (c.Convert json ctx opts).sent = some req →
      63 ∉ (convertParamsOf opts).value.text ++ (convertParamsOf opts).baseCurrency ++
        (convertParamsOf opts).destinationCurrency →
      req.keys.Nodup ∧ req.values (bytes "app_id") = [QueryEscape c.appID]) ∧
    (∀ (json : Decoder OHLCResponse) (ctx : Context) (opts : List OHLCOption) (req : Request),
      (c.OpenHighLowClose json ctx opts).sent = some req →
      req.keys.Nodup ∧ req.values (bytes "app_id") = [QueryEscape c.appID]) ∧
    (∀ (json : Decoder UsageResponse) (ctx : Context) (opts : List UsageOption) (req : Request),
      (c.Usage json ctx opts).sent = some req →
      req.keys.Nodup ∧ req.values (bytes "app_id") = [QueryEscape c.appID]) := by
  refine ⟨?_, ?_, ?_, ?_, ?_, ?_, ?_⟩
  · intro json ctx opts req h
    have he := latest_sent_eq c hc json ctx opts req h
    subst he
    exact ⟨(latest_keys c _ _).1, (latest_keys c _ _).2.1⟩
  · intro json ctx opts req h
    have he := historical_sent_eq c hc json ctx opts req h
    subst he
    exact ⟨(historical_keys c _ _).1, (historical_keys c _ _).2.1⟩
  · intro json ctx opts req h
    have he := currencies_sent_eq c hc json ctx opts req h
    subst he
    exact ⟨(currencies_keys c _ _).1, (currencies_keys c _ _).2.1⟩
  · intro json ctx opts req h
    have he := timeSeries_sent_eq c hc json ctx opts req h
    subst he
    exact ⟨(timeSeries_keys c _ _).1, (timeSeries_keys c _ _).2.1⟩
  · intro json ctx opts req h hq
    have hq' : 63 ∉ c.baseURL ++ (convertParamsOf opts).value.text ++
        (convertParamsOf opts).baseCurrency ++ (convertParamsOf opts).destinationCurrency := by
      rw [hc]
      simp only [List.mem_append, not_or] at hq ⊢
      exact ⟨⟨⟨by decide, hq.1.1⟩, hq.1.2⟩, hq.2⟩
    exact ⟨(convert_sent_keys c json ctx opts req h hq').1,
      (convert_sent_keys c json ctx opts req h hq').2.1⟩
  · intro json ctx opts req h
    have he := ohlc_sent_eq c hc json ctx opts req h
    subst he
    exact ⟨(ohlc_keys c _ _).1, (ohlc_keys c _ _).2.1⟩
  · intro json ctx opts req h
    have he := usage_sent_eq c hc json ctx opts req h
    subst he
    exact ⟨(usage_keys c _ _).1, (usage_keys c _ _).2.1⟩

/-- Witness of C25: the request of the Convert call of the test client for 100.12 `GBP` in
`USD` has the keys `app_id` and `prettyprint`, each once, and the only value of `app_id` is
`test`. -/
theorem C25_witness :
    (baseRequest (bytes "convert/100.12/GBP/USD")
      (bytes "app_id=test&prettyprint=false")).keys.Nodup ∧
    (baseRequest (bytes "convert/100.12/GBP/USD")
      (bytes "app_id=test&prettyprint=false")).values (bytes "app_id") =
      [QueryEscape testClient.appID] :=
  (C25_each_key_once_without_question_mark testClient rfl).2.2.2.2.1 (fun _ z => (z, none))
    .live [.ConvertWithValue ⟨bytes "100.12"⟩, .ConvertForBaseCurrency (bytes "GBP"),
      .ConvertForDestinationCurrency (bytes "USD")] _ rfl (by decide)

/-- C26: in each of the six endpoints that have more than one option builder, exchanging
two adjacent options of a list that assign different fields of the parameter record leaves
the record the options build unchanged, and with it the request the call builds and the
whole call, so also the URL handed to the transport. (Usage has the single builder
`UsageWithPrettyPrint`, and no two of its options assign different fields.) -/
theorem C26_options_on_different_fields_commute :
    (∀ (pre post : List LatestOption) (o1 o2 : LatestOption), o1.field ≠ o2.field →
      latestParamsOf (pre ++ o1 :: o2 :: post) = latestParamsOf (pre ++ o2 :: o1 :: post) ∧
      ∀ (c : Client) (json : Decoder LatestRatesResponse) (ctx : Context),
        c.latestRequest ctx (pre ++ o1 :: o2 :: post) =
          c.latestRequest ctx (pre ++ o2 :: o1 :: post) ∧
        c.Latest json ctx (pre ++ o1 :: o2 :: post) =
          c.Latest json ctx (pre ++ o2 :: o1 :: post)) ∧
    (∀ (pre post : List HistoricalOption) (o1 o2 : HistoricalOption), o1.field ≠ o2.field →
      historicalParamsOf (pre ++ o1 :: o2 :: post) = historicalParamsOf (pre ++ o2 :: o1 :: post) ∧
      ∀ (c : Client) (json : Decoder HistoricalRatesResponse) (ctx : Context),
        c.historicalRequest ctx (pre ++ o1 :: o2 :: post) =
          c.historicalRequest ctx (pre ++ o2 :: o1 :: post) ∧
        c.Historical json ctx (pre ++ o1 :: o2 :: post) =
          c.Historical json ctx (pre ++ o2 :: o1 :: post)) ∧
    (∀ (pre post : List CurrenciesOption) (o1 o2 : CurrenciesOption), o1.field ≠ o2.field →
      currenciesParamsOf (pre ++ o1 :: o2 :: post) = currenciesParamsOf (pre ++ o2 :: o1 :: post) ∧
      ∀ (c : Client) (json : Decoder (GoMap GoString)) (ctx : Context),
        c.currenciesRequest ctx (pre ++ o1 :: o2 :: post) =
          c.currenciesRequest ctx (pre ++ o2 :: o1 :: post) ∧
        c.Currencies json ctx (pre ++ o1 :: o2 :: post) =
          c.Currencies json ctx (pre ++ o2 :: o1 :: post)) ∧
    (∀ (pre post : List TimeSeriesOption) (o1 o2 : TimeSeriesOption), o1.field ≠ o2.field →
      timeSeriesParamsOf (pre ++ o1 :: o2 :: post) = timeSeriesParamsOf (pre ++ o2 :: o1 :: post) ∧
      ∀ (c : Client) (json : Decoder TimeSeriesResponse) (ctx : Context),
        c.timeSeriesRequest ctx (pre ++ o1 :: o2 :: post) =
          c.timeSeriesRequest ctx (pre ++ o2 :: o1 :: post) ∧
        c.TimeSeries json ctx (pre ++ o1 :: o2 :: post) =
          c.TimeSeries json ctx (pre ++ o2 :: o1 :: post)) ∧
    (∀ (pre post : List ConvertOption) (o1 o2 : ConvertOption), o1.field ≠ o2.field →
      convertParamsOf (pre ++ o1 :: o2 :: post) = convertParamsOf (pre ++ o2 :: o1 :: post) ∧
      ∀ (c : Client) (json : Decoder ConversionResponse) (ctx : Context),
        c.convertRequest ctx (pre ++ o1 :: o2 :: post) =
          c.convertRequest ctx (pre ++ o2 :: o1 :: post) ∧
        c.Convert json ctx (pre ++ o1 :: o2 :: post) =
          c.Convert json ctx (pre ++ o2 :: o1 :: post)) ∧
    (∀ (pre post : List OHLCOption) (o1 o2 : OHLCOption), o1.field ≠ o2.field →
      ohlcParamsOf (pre ++ o1 :: o2 :: post) = ohlcParamsOf (pre ++ o2 :: o1 :: post) ∧
      ∀ (c : Client) (json : Decoder OHLCResponse) (ctx : Context),
        c.ohlcRequest ctx (pre ++ o1 :: o2 :: post) =
          c.ohlcRequest ctx (pre ++ o2 :: o1 :: post) ∧
        c.OpenHighLowClose json ctx (pre ++ o1 :: o2 :: post) =
          c.OpenHighLowClose json ctx (pre ++ o2 :: o1 :: post)) := by
  refine ⟨?_, ?_, ?_, ?_, ?_, ?_⟩
  · intro pre post o1 o2 h
    have hp := latestParamsOf_swap pre post o1 o2 h
    refine ⟨hp, fun c json ctx => ?_⟩
    have hr : c.latestRequest ctx (pre ++ o1 :: o2 :: post) =
        c.latestRequest ctx (pre ++ o2 :: o1 :: post) := by
      simp only [Client.latestRequest, hp]
    exact ⟨hr, by simp only [Client.Latest, hr]⟩
  · intro pre post o1 o2 h
    have hp := historicalParamsOf_swap pre post o1 o2 h
    refine ⟨hp, fun c json ctx => ?_⟩
    have hr : c.historicalRequest ctx (pre ++ o1 :: o2 :: post) =
        c.historicalRequest ctx (pre ++ o2 :: o1 :: post) := by
      simp only [Client.historicalRequest, hp]
    exact ⟨hr, by simp only [Client.Historical, hr]⟩
  · intro pre post o1 o2 h
    have hp := currenciesParamsOf_swap pre post o1 o2 h
    refine ⟨hp, fun c json ctx => ?_⟩
    have hr : c.currenciesRequest ctx (pre ++ o1 :: o2 :: post) =
        c.currenciesRequest ctx (pre ++ o2 :: o1 :: post) := by
      simp only [Client.currenciesRequest, hp]
    exact ⟨hr, by simp only [Client.Currencies, hr]⟩
  · intro pre post o1 o2 h
    have hp := timeSeriesParamsOf_swap pre post o1 o2 h
    refine ⟨hp, fun c json ctx => ?_⟩
    have hr : c.timeSeriesRequest ctx (pre ++ o1 :: o2 :: post) =
        c.timeSeriesRequest ctx (pre ++ o2 :: o1 :: post) := by
      simp only [Client.timeSeriesRequest, hp]
    exact ⟨hr, by simp only [Client.TimeSeries, hr]⟩
  · intro pre post o1 o2 h
    have hp := convertParamsOf_swap pre post o1 o2 h
    refine ⟨hp, fun c json ctx => ?_⟩
    have hr : c.convertRequest ctx (pre ++ o1 :: o2 :: post) =
        c.convertRequest ctx (pre ++ o2 :: o1 :: post) := by
      simp only [Client.convertRequest, hp]
    exact ⟨hr, by simp only [Client.Convert, hr]⟩
  · intro pre post o1 o2 h
    have hp := ohlcParamsOf_swap pre post o1 o2 h
    refine ⟨hp, fun c json ctx => ?_⟩
    have hr : c.ohlcRequest ctx (pre ++ o1 :: o2 :: post) =
        c.ohlcRequest ctx (pre ++ o2 :: o1 :: post) := by
      simp only [Client.ohlcRequest, hp]
    exact ⟨hr, by simp only [Client.OpenHighLowClose, hr]⟩

/-- Witness of C26: the TimeSeries call of the test client with the base currency before
the start date and with the start date before the base currency is the same call. -/
theorem C26_witness :
    Client.TimeSeries (fun _ z => (z, none)) testClient .live
        ([] ++ .TimeSeriesForBaseCurrency (bytes "AUD") ::
          .TimeSeriesForStartDate ⟨2013, 1, 1, 13, 0, 0, 0⟩ :: []) =
      Client.TimeSeries (fun _ z => (z, none)) testClient .live
        ([] ++ .TimeSeriesForStartDate ⟨2013, 1, 1, 13, 0, 0, 0⟩ ::
          .TimeSeriesForBaseCurrency (bytes "AUD") :: []) :=
  (((C26_options_on_different_fields_commute.2.2.2.1 [] []
    (.TimeSeriesForBaseCurrency (bytes "AUD"))
    (.TimeSeriesForStartDate ⟨2013, 1, 1, 13, 0, 0, 0⟩) (by decide)).2
    testClient (fun _ z => (z, none)) .live)).2

/-- Counterexample to C27 as stated: with the destination currency
`USD?show_alternative=true` the URL the Convert call of the test client hands to the
transport has the parameter `show_alternative`. -/
theorem C27_counterexample :
    (Client.Convert (fun _ z => (z, none)) testClient .live
      [.ConvertWithValue ⟨bytes "100.12"⟩, .ConvertForBaseCurrency (bytes "GBP"),
        .ConvertForDestinationCurrency (bytes "USD?show_alternative=true")]).sentURL =
      some (bytes ("https://openexchangerates.org/api/convert/100.12/GBP/USD" ++
        "?app_id=test&prettyprint=false&show_alternative=true")) ∧
    (Client.Convert (fun _ z => (z, none)) testClient .live
      [.ConvertWithValue ⟨bytes "100.12"⟩, .ConvertForBaseCurrency (bytes "GBP"),
        .ConvertForDestinationCurrency (bytes "USD?show_alternative=true")]).sent.map
      (fun req => decide (req.hasKey (bytes "show_alternative"))) = some true := by
  refine ⟨?_, ?_⟩ <;> decide

/-- C27, amended: for a client made by `New` and every option list, the request a Latest,
Historical, Currencies or TimeSeries call hands to the transport has the parameter
`show_alternative` once, with the text `true` or `false` of the flag left by the options;
the request of an OpenHighLowClose or Usage call has no `show_alternative` key; and the
request of a Convert call has none when the amount text and the two currency strings have
no `?` in them. -/
theorem C27_show_alternative_on_four_endpoints (c : Client) (hc : c.baseURL = basePath) :
    (∀ (json : Decoder LatestRatesResponse) (ctx : Context) (opts : List LatestOption) (req : Request),
      (c.Latest json ctx opts).sent = some req →
      req.flag (bytes "show_alternative") (latestParamsOf opts).showAlternative ∧
      req.values (bytes "show_alternative") = [FormatBool (latestParamsOf opts).showAlternative]) ∧
    (∀ (json : Decoder HistoricalRatesResponse) (ctx : Context) (opts : List HistoricalOption) (req : Request),
      (c.Historical json ctx opts).sent = some req →
      req.flag (bytes "show_alternative") (historicalParamsOf opts).showAlternative ∧
      req.values (bytes "show_alternative") = [FormatBool (historicalParamsOf opts).showAlternative]) ∧
    (∀ (json : Decoder (GoMap GoString)) (ctx : Context) (opts : List CurrenciesOption) (req : Request),
      (c.Currencies json ctx opts).sent = some req →
      req.flag (bytes "show_alternative") (currenciesParamsOf opts).showAlternative ∧
      req.values (bytes "show_alternative") = [FormatBool (currenciesParamsOf opts).showAlternative]) ∧
    (∀ (json : Decoder TimeSeriesResponse) (ctx : Context) (opts : List TimeSeriesOption) (req : Request),
      (c.TimeSeries json ctx opts).sent = some req →
      req.flag (bytes "show_alternative") (timeSeriesParamsOf opts).showAlternative ∧
      req.values (bytes "show_alternative") = [FormatBool (timeSeriesParamsOf opts).showAlternative]) ∧
    (∀ (json : Decoder ConversionResponse) (ctx : Context) (opts : List ConvertOption) (req : Request),
      (c.Convert json ctx opts).sent = some req →
      63 ∉ (convertParamsOf opts).value.text ++ (convertParamsOf opts).baseCurrency ++
        (convertParamsOf opts).destinationCurrency →
      ¬ req.hasKey (bytes "show_alternative")) ∧
    (∀ (json : Decoder OHLCResponse) (ctx : Context) (opts : List OHLCOption) (req : Request),
      (c.OpenHighLowClose json ctx opts).sent = some req → ¬ req.hasKey (bytes "show_alternative")) ∧
    (∀ (json : Decoder UsageResponse) (ctx : Context) (opts : List UsageOption) (req : Request),
      (c.Usage json ctx opts).sent = some req → ¬ req.hasKey (bytes "show_alternative")) ∧
    FormatBool true = bytes "true" ∧ FormatBool false = bytes "false" := by
  refine ⟨?_, ?_, ?_, ?_, ?_, ?_, ?_, rfl, rfl⟩
  · intro json ctx opts req h
    have he := latest_sent_eq c hc json ctx opts req h
    subst he
    exact ⟨(latestPairs_facts c _ _).2.2.2, (latest_keys c _ _).2.2⟩
  · intro json ctx opts req h
    have he := historical_sent_eq c hc json ctx opts req h
    subst he
    exact ⟨(historicalPairs_facts c _ _).2.2.2, (historical_keys c _ _).2.2⟩
  · intro json ctx opts req h
    have he := currencies_sent_eq c hc json ctx opts req h
    subst he
    exact ⟨(currenciesPairs_facts c _ _).2.2, (currencies_keys c _ _).2.2⟩
  · intro json ctx opts req h
    have he := timeSeries_sent_eq c hc json ctx opts req h
    subst he
    exact ⟨(timeSeriesPairs_facts c _ _).2.2.2.1, (timeSeries_keys c _ _).2.2⟩
  · intro json ctx opts req h hq
    have hq' : 63 ∉ c.baseURL ++ (convertParamsOf opts).value.text ++
        (convertParamsOf opts).baseCurrency ++ (convertParamsOf opts).destinationCurrency := by
      rw [hc]
      simp only [List.mem_append, not_or] at hq ⊢
      exact ⟨⟨⟨by decide, hq.1.1⟩, hq.1.2⟩, hq.2⟩
    exact (convert_sent_keys c json ctx opts req h hq').2.2
  · intro json ctx opts req h
    have he := ohlc_sent_eq c hc json ctx opts req h
    subst he
    exact (ohlc_keys c _ _).2.2
  · intro json ctx opts req h
    have he := usage_sent_eq c hc json ctx opts req h
    subst he
    exact (usage_keys c _ _).2.2

/-- Witness of C27: the request of the Latest call of the test client with no option has
`show_alternative=false`, once; that of the Convert call for 100.12 `GBP` in `USD` has no
`show_alternative` key. -/
theorem C27_witness :
    (baseRequest (bytes "latest.json")
      (bytes "app_id=test&prettyprint=false&show_alternative=false")).values
      (bytes "show_alternative") = [FormatBool (latestParamsOf []).showAlternative] ∧
    ¬ (baseRequest (bytes "convert/100.12/GBP/USD")
      (bytes "app_id=test&prettyprint=false")).hasKey (bytes "show_alternative") :=
  ⟨((C27_show_alternative_on_four_endpoints testClient rfl).1 (fun _ z => (z, none))
      .live [] _ rfl).2,
    (C27_show_alternative_on_four_endpoints testClient rfl).2.2.2.2.1 (fun _ z => (z, none))
      .live [.ConvertWithValue ⟨bytes "100.12"⟩, .ConvertForBaseCurrency (bytes "GBP"),
        .ConvertForDestinationCurrency (bytes "USD")] _ rfl (by decide)⟩

end Oxr
